import Mathlib

/-!
# dev-server-hmr: the Babel plugin that registers web-component classes

A shallow embedding of `packages/dev-server-hmr/src/babel/babelPluginWcHmr.js`.

* JavaScript strings are `String`; the string operations the plugin uses are
  written over the character list so that they evaluate in the kernel.
* Node's `path` module is modelled for POSIX (`path.sep = "/"`); the working
  directory that `path.resolve` reads is the explicit parameter `cwd`.
* The module under transformation is a syntax tree over the node kinds the
  plugin's visitors look at.  The tree covers statement lists (module body,
  block, function body, method body), class declarations and expressions,
  variable declarations, calls, member accesses, array literals and function
  expressions; export wrappers and `for` headers are outside the modelled
  fragment.
* Babel's `parse` is not modelled: a node produced by `parse code` is the leaf
  `Stmt.file code`, identified by the text handed to the parser.
-/

namespace WcHmr

/-! ## JavaScript strings and truthiness -/

/-- JavaScript `s.startsWith(p)`. -/
def startsWith (s p : String) : Bool :=
  p.data.isPrefixOf s.data

/-- JavaScript truthiness of an optional string property: `undefined` and the
empty string are falsy. -/
def truthy : Option String → Bool
  | none => false
  | some s => !(s.data.isEmpty)

/-- JavaScript `cs.split("/")` on a character list. -/
def splitSlash : List Char → List (List Char)
  | [] => [[]]
  | c :: cs =>
    if c = '/' then [] :: splitSlash cs
    else
      match splitSlash cs with
      | [] => [[c]]
      | s :: ss => (c :: s) :: ss

/-- JavaScript `parts.join(sep)` on character lists. -/
def joinWith (sep : List Char) : List (List Char) → List Char
  | [] => []
  | [s] => s
  | s :: t :: ss => s ++ sep ++ joinWith sep (t :: ss)

/-! ## Node's `path` module (POSIX) -/

namespace path

/-- The constant `path.sep`. -/
def sep : List Char := ['/']

/-- One step of Node's `normalizeString`: `stack` holds the segments kept so
far, innermost first. -/
def normalizeStep (allowAboveRoot : Bool) (stack : List (List Char)) (seg : List Char) :
    List (List Char) :=
  if seg = [] ∨ seg = ['.'] then stack
  else if seg = ['.', '.'] then
    match stack with
    | [] => if allowAboveRoot then [seg] else []
    | top :: rest =>
      if top = ['.', '.'] then (if allowAboveRoot then seg :: stack else stack) else rest
  else seg :: stack

/-- Node's `normalizeString(path, allowAboveRoot, "/")`: drops empty and `.`
segments and resolves `..` segments. -/
def normalizeString (p : List Char) (allowAboveRoot : Bool) : List Char :=
  joinWith ['/'] ((splitSlash p).foldl (normalizeStep allowAboveRoot) []).reverse

/-- Node's `path.posix.normalize`. -/
def normalize (p : List Char) : List Char :=
  match p with
  | [] => ['.']
  | c :: _ =>
    let isAbsolute := c = '/'
    let trailingSeparator := p.getLast? = some '/'
    let s := normalizeString p (!isAbsolute)
    if s = [] then
      if isAbsolute then ['/'] else if trailingSeparator then ['.', '/'] else ['.']
    else
      let s := if trailingSeparator then s ++ ['/'] else s
      if isAbsolute then '/' :: s else s

/-- Node's `path.posix.join(a, b)`. -/
def join (a b : String) : String :=
  let parts := [a.data, b.data].filter (fun s => !s.isEmpty)
  match parts with
  | [] => "."
  | _ => String.mk (normalize (joinWith ['/'] parts))

/-- Node's `path.posix.dirname`. -/
def dirname (p : String) : String :=
  match p.data with
  | [] => "."
  | c :: rest =>
    let hasRoot := c = '/'
    let r := (rest.reverse.dropWhile (fun x => x = '/')).dropWhile (fun x => x ≠ '/')
    match r with
    | [] => if hasRoot then "/" else "."
    | _ :: before =>
      if hasRoot ∧ before = [] then "//" else String.mk (c :: before.reverse)

/-- The last path segment that Node's `path.posix.extname` scans: trailing
slashes are skipped, then everything back to the previous slash is taken. -/
def lastSegment (p : List Char) : List Char :=
  ((p.reverse.dropWhile (fun x => x = '/')).takeWhile (fun x => x ≠ '/')).reverse

/-- Node's `path.posix.extname`: the text from the last dot of the last
segment, empty when there is no dot, when the only dot leads the segment, or
when the segment is `..`. -/
def extname (p : String) : String :=
  let base := lastSegment p.data
  let afterDot := (base.reverse.takeWhile (fun x => x ≠ '.')).reverse
  if afterDot.length = base.length then ""
  else if afterDot.length + 1 = base.length then ""
  else if base = ['.', '.'] then ""
  else String.mk ('.' :: afterDot)

/-- Node's `path.posix.resolve(p)` with one argument; `cwd` is the absolute
working directory of the process. -/
def resolve (cwd : String) (p : String) : String :=
  let resolvedPath :=
    if p.data.isEmpty then cwd.data ++ ['/']
    else if startsWith p "/" then p.data ++ ['/']
    else cwd.data ++ ['/'] ++ (p.data ++ ['/'])
  String.mk ('/' :: normalizeString resolvedPath false)

end path

/-! ## Constants and errors -/

/-- Modelled from the spec: `src/constants.js` is not among the sources; the
namespace identifier is the one the expected outputs of the test-suite show. -/
def WC_HMR_NAMESPACE : String := "__$wc_hmr$__"

/-- Modelled from the spec: `src/constants.js` is not among the sources; the
runtime module path is the one the expected outputs of the test-suite show. -/
def WC_HMR_MODULE_RUNTIME : String := "/__web-dev-server__/wc-hmr/runtime.js"

/-- Modelled from the spec: `src/constants.js` is not among the sources; the
patch path stem is the one the expected outputs of the test-suite show. -/
def WC_HMR_MODULE_PATCHES : String := "/__web-dev-server__/wc-hmr/patch/"

/-- The function `createError` of `utils.js`; an error is represented by its
message. -/
def createError (msg : String) : String :=
  "[@open-wc/dev-server-hmr] " ++ msg

/-! ## Plugin options -/

/-- The value of a descriptor's `patch` property when it is neither
`undefined` nor `null`. -/
inductive Patch where
  /-- A string value. -/
  | str (s : String)
  /-- Any other value, with its JavaScript truthiness. -/
  | other (isTruthy : Bool)
deriving DecidableEq

/-- JavaScript truthiness of an optional `patch` property. -/
def Patch.truthy : Option Patch → Bool
  | none => false
  | some (.str s) => !(s.data.isEmpty)
  | some (.other b) => b

/-- The typedef `BaseClass`: a configured base class.  The property the
source calls `import` is the field `import_`. -/
structure BaseClass where
  name : Option String
  import_ : Option String
  patch : Option Patch
deriving DecidableEq

/-- The value of `options.baseClasses` as the plugin receives it. -/
inductive BaseClassesOption where
  /-- A falsy value (`undefined`, `null`, ...). -/
  | missing
  /-- A truthy value that is not an array. -/
  | notArray
  /-- An array of descriptors. -/
  | array (baseClasses : List BaseClass)
deriving DecidableEq

/-- The typedef `BabelPluginWcHmrOptions`, as received (unvalidated). -/
structure BabelPluginWcHmrOptions where
  baseClasses : BaseClassesOption
  rootDir : Option String
deriving DecidableEq

/-- The object that `parseOptions` returns: `baseClasses` is an array and
`rootDir` a non-empty string. -/
structure ParsedOptions where
  baseClasses : List BaseClass
  rootDir : String
deriving DecidableEq

/-- The callback of `options.baseClasses.map` in `parseOptions`, for a
descriptor that has a name. -/
def parseBaseClass (cwd : String) (base : BaseClass) : BaseClass :=
  match base.import_ with
  | none => base
  | some imp =>
    if !truthy (some imp) then base
    else
      { base with
        import_ := some
          (if startsWith imp "./" then
            path.resolve cwd (String.mk (joinWith path.sep (splitSlash imp.data)))
          else imp) }

/-- The `map` over `options.baseClasses` in `parseOptions`: the first
descriptor without a name raises. -/
def parseBaseClasses (cwd : String) : List BaseClass → Except String (List BaseClass)
  | [] => .ok []
  | base :: rest =>
    if !truthy base.name then .error (createError "Missing name option in base class")
    else
      match parseBaseClasses cwd rest with
      | .error e => .error e
      | .ok rest' => .ok (parseBaseClass cwd base :: rest')

/-- The function `parseOptions`. -/
def parseOptions (cwd : String) (options : Option BabelPluginWcHmrOptions) :
    Except String ParsedOptions :=
  match options with
  | none => .error (createError "Missing babel plugin options")
  | some options =>
    match options.rootDir with
    | none => .error (createError "Missing rootDir in babel plugin options")
    | some rootDir =>
      if !truthy (some rootDir) then
        .error (createError "Missing rootDir in babel plugin options")
      else
        match options.baseClasses with
        | .missing => .error (createError "Missing baseClass options in babel plugin")
        | .notArray => .error (createError "baseClass option should be an array")
        | .array baseClasses =>
          match parseBaseClasses cwd baseClasses with
          | .error e => .error e
          | .ok parsed => .ok { baseClasses := parsed, rootDir := rootDir }

/-! ## Syntax tree -/

/-- The binding target of a variable declarator or of a parameter: an
`Identifier`, or an `ObjectPattern` / `ArrayPattern` binding the given names. -/
inductive LVal where
  | identifier (name : String)
  | pattern (names : List String)
deriving DecidableEq

/-- The three kinds of specifier of an import declaration, each with the
name of its local binding (`specifier.local.name`). -/
inductive ImportSpecifier where
  /-- The default binding `import L from "m"`. -/
  | importDefaultSpecifier (localName : String)
  /-- The namespace binding `import * as L from "m"`. -/
  | importNamespaceSpecifier (localName : String)
  /-- The named binding `import { X as L } from "m"`; `imported` is `X`. -/
  | importSpecifier (imported : String) (localName : String)
deriving DecidableEq

mutual
/-- Expressions. -/
inductive Expr where
  /-- An `Identifier`. -/
  | ident (name : String)
  /-- A `CallExpression`. -/
  | call (callee : Expr) (arguments : List Expr)
  /-- A `MemberExpression` `object.property`. -/
  | member (object : Expr) (property : String)
  /-- An `ArrayExpression`. -/
  | array (elements : List Expr)
  /-- A `ClassExpression`. -/
  | classExpr (id : Option String) (superClass : Option Expr) (body : List ClassMethod)
  /-- A `FunctionExpression` (or an arrow function with a block body). -/
  | func (params : List Param) (body : List Stmt)
  /-- Any expression without sub-expressions (a literal, `this`, ...). -/
  | lit (raw : String)
/-- Statements. -/
inductive Stmt where
  /-- A `ClassDeclaration`. -/
  | classDecl (id : Option String) (superClass : Option Expr) (body : List ClassMethod)
  /-- A `VariableDeclaration` with its declarators. -/
  | varDecl (kind : String) (declarations : List VariableDeclarator)
  /-- A `BlockStatement`. -/
  | block (body : List Stmt)
  /-- A `FunctionDeclaration`. -/
  | funcDecl (id : String) (params : List Param) (body : List Stmt)
  /-- An `ExpressionStatement`. -/
  | exprStmt (expression : Expr)
  /-- The `File` node that Babel's `parse(code)` returns. -/
  | file (code : String)
/-- A `ClassMethod` (a method or the constructor of a class body). -/
inductive ClassMethod where
  | mk (key : String) (params : List Param) (body : List Stmt)
/-- A function parameter `left` or `left = right`. -/
inductive Param where
  | mk (left : LVal) (right : Option Expr)
/-- A `VariableDeclarator` `id` or `id = init`. -/
inductive VariableDeclarator where
  | mk (id : LVal) (init : Option Expr)
end

/-- An element of the body of the module: import declarations occur at the
top level only. -/
inductive ModuleItem where
  /-- An `ImportDeclaration`; `source` is `node.source.value`. -/
  | importDeclaration (source : String) (specifiers : List ImportSpecifier)
  /-- Any other statement. -/
  | statement (s : Stmt)

/-- Babel's `parse(code)`; the parser is not modelled, the resulting `File`
node carries the code it was parsed from. -/
def parse (code : String) : Stmt :=
  .file code

/-! ## The helper functions of the plugin -/

/-- The function `injectRegister`: the node that it inserts after the given
path. -/
def injectRegister (name : String) : Stmt :=
  parse (WC_HMR_NAMESPACE ++ ".register(import.meta.url, " ++ name ++ ")")

/-- The loop of `walkClassMixins`: while the element is a call expression,
continue with its first argument (`undefined` when there is none). -/
def walkMixins : Expr → Option Expr
  | .call _ (el :: _) => walkMixins el
  | .call _ [] => none
  | el => some el

/-- The function `walkClassMixins`, applied to `nodePath.node.superClass`. -/
def walkClassMixins (superClass : Option Expr) : Option Expr :=
  match superClass with
  | none => none
  | some el => walkMixins el

/-- The element `{ baseClass, i }` built by `getBaseClassesForImport`. -/
structure IndexedBaseClass where
  baseClass : BaseClass
  i : Nat
deriving DecidableEq

/-- The step `baseClasses.map((baseClass, i) => ({ baseClass, i }))`, counting
from `start`. -/
def withIndexFrom (start : Nat) : List BaseClass → List IndexedBaseClass
  | [] => []
  | baseClass :: rest => { baseClass := baseClass, i := start } :: withIndexFrom (start + 1) rest

/-- The filter callback of `getBaseClassesForImport`. -/
def matchesImport (importSpecifier filename rootDir : String) (baseClass : BaseClass) : Bool :=
  match baseClass.import_ with
  | none => false
  | some imp =>
    if !truthy (some imp) then false
    else if startsWith importSpecifier "./" || startsWith importSpecifier "/" then
      let partialImportFilePath :=
        String.mk (joinWith path.sep (splitSlash importSpecifier.data))
      let joinBase := if startsWith importSpecifier "/" then rootDir else path.dirname filename
      let importFilePath := path.join joinBase partialImportFilePath
      importFilePath == imp
    else if imp == importSpecifier then true
    else if (path.extname imp).data.isEmpty && (imp ++ ".js") == importSpecifier then true
    else false

/-- The function `getBaseClassesForImport`. -/
def getBaseClassesForImport (baseClasses : List BaseClass)
    (importSpecifier filename rootDir : String) : List IndexedBaseClass :=
  (withIndexFrom 0 baseClasses).filter
    (fun b => matchesImport importSpecifier filename rootDir b.baseClass)

/-- The function `getImportedBaseClassNames`. -/
def getImportedBaseClassNames (baseClasses : List BaseClass) :
    List ImportSpecifier → List String
  | [] => []
  | .importDefaultSpecifier localName :: rest =>
    if baseClasses.any (fun cl => cl.name == some "default") then
      localName :: getImportedBaseClassNames baseClasses rest
    else getImportedBaseClassNames baseClasses rest
  | .importSpecifier imported localName :: rest =>
    if baseClasses.any (fun cl => cl.name == some imported) then
      localName :: getImportedBaseClassNames baseClasses rest
    else getImportedBaseClassNames baseClasses rest
  | .importNamespaceSpecifier _ :: rest => getImportedBaseClassNames baseClasses rest

/-! ## The visitors -/

/-- The visitor `ClassDeclaration`: the name that it passes to
`injectRegister` (setting `injectedRegister`), or `none` when it returns
without injecting. -/
def ClassDeclaration (baseClassNames : List String) (id : Option String)
    (superClass : Option Expr) : Option String :=
  match id with
  | none => none
  | some idName =>
    match walkClassMixins superClass with
    | some (.ident elName) =>
      if baseClassNames.any (fun name => name == elName) then some idName else none
    | _ => none

/-- The parent of a class expression, as far as the visitor `ClassExpression`
inspects it. -/
inductive Parent where
  /-- A `VariableDeclarator` (inside its `VariableDeclaration`) with this `id`. -/
  | variableDeclarator (id : LVal)
  /-- Any other node. -/
  | other
deriving DecidableEq

/-- The visitor `ClassExpression`: the name that it passes to `injectRegister`
for the enclosing variable declaration (setting `injectedRegister`), or `none`
when it returns without injecting. -/
def ClassExpression (baseClassNames : List String) (parent : Parent)
    (superClass : Option Expr) : Option String :=
  match parent with
  | .variableDeclarator (.identifier idName) =>
    match walkClassMixins superClass with
    | some (.ident elName) =>
      if baseClassNames.any (fun name => name == elName) then some idName else none
    | _ => none
  | _ => none

/-- The super class of a class expression; `none` for any other expression. -/
def Expr.classSuper : Expr → Option (Option Expr)
  | .classExpr _ superClass _ => some superClass
  | _ => none

/-- The result of the visitor `ClassExpression` at the initializer of a
declarator with the given `id`: the visitor fires only when the initializer
itself is a class expression. -/
def visitInit (baseClassNames : List String) (id : LVal) (init : Expr) : Option String :=
  match init.classSuper with
  | some superClass => ClassExpression baseClassNames (.variableDeclarator id) superClass
  | none => none

/-! ## The second traversal

`program.traverse({ ClassDeclaration, ClassExpression })` visits every node
once, parents before children.  Each function returns the node after the
traversal and whether `injectedRegister` was set below it.  A statement
yields the list that replaces it in its container: itself followed by the
nodes that `insertAfter` put behind it.  A class expression whose parent is
not a variable declarator makes the visitor return at its first guard, so the
traversal only descends into it. -/

mutual
/-- Traversal of an expression. -/
def visitExpr (baseClassNames : List String) : Expr → Expr × Bool
  | .ident name => (.ident name, false)
  | .call callee arguments =>
    let c := visitExpr baseClassNames callee
    let a := visitExprs baseClassNames arguments
    (.call c.1 a.1, c.2 || a.2)
  | .member object property =>
    let o := visitExpr baseClassNames object
    (.member o.1 property, o.2)
  | .array elements =>
    let e := visitExprs baseClassNames elements
    (.array e.1, e.2)
  | .classExpr id superClass body =>
    let s := visitOptExpr baseClassNames superClass
    let b := visitMethods baseClassNames body
    (.classExpr id s.1 b.1, s.2 || b.2)
  | .func params body =>
    let p := visitParams baseClassNames params
    let b := visitStmts baseClassNames body
    (.func p.1 b.1, p.2 || b.2)
  | .lit raw => (.lit raw, false)
/-- Traversal of an optional expression. -/
def visitOptExpr (baseClassNames : List String) : Option Expr → Option Expr × Bool
  | none => (none, false)
  | some e =>
    let r := visitExpr baseClassNames e
    (some r.1, r.2)
/-- Traversal of a list of expressions. -/
def visitExprs (baseClassNames : List String) : List Expr → List Expr × Bool
  | [] => ([], false)
  | e :: es =>
    let r := visitExpr baseClassNames e
    let rs := visitExprs baseClassNames es
    (r.1 :: rs.1, r.2 || rs.2)
/-- Traversal of a class method. -/
def visitMethod (baseClassNames : List String) : ClassMethod → ClassMethod × Bool
  | .mk key params body =>
    let p := visitParams baseClassNames params
    let b := visitStmts baseClassNames body
    (.mk key p.1 b.1, p.2 || b.2)
/-- Traversal of a class body. -/
def visitMethods (baseClassNames : List String) : List ClassMethod → List ClassMethod × Bool
  | [] => ([], false)
  | m :: ms =>
    let r := visitMethod baseClassNames m
    let rs := visitMethods baseClassNames ms
    (r.1 :: rs.1, r.2 || rs.2)
/-- Traversal of a parameter. -/
def visitParam (baseClassNames : List String) : Param → Param × Bool
  | .mk left right =>
    let r := visitOptExpr baseClassNames right
    (.mk left r.1, r.2)
/-- Traversal of a parameter list. -/
def visitParams (baseClassNames : List String) : List Param → List Param × Bool
  | [] => ([], false)
  | p :: ps =>
    let r := visitParam baseClassNames p
    let rs := visitParams baseClassNames ps
    (r.1 :: rs.1, r.2 || rs.2)
/-- Traversal of a variable declarator: the declarator, the nodes that the
visitor `ClassExpression` inserts after the enclosing variable declaration,
and the flag. -/
def visitDeclarator (baseClassNames : List String) :
    VariableDeclarator → VariableDeclarator × List Stmt × Bool
  | .mk id none => (.mk id none, [], false)
  | .mk id (some init) =>
    let r := visitExpr baseClassNames init
    match visitInit baseClassNames id init with
    | some name => (.mk id (some r.1), [injectRegister name], true)
    | none => (.mk id (some r.1), [], r.2)
/-- Traversal of the declarators of one variable declaration, in order: each
`insertAfter` puts its node directly behind the declaration, in front of the
nodes inserted for earlier declarators. -/
def visitDeclarators (baseClassNames : List String) :
    List VariableDeclarator → List VariableDeclarator × List Stmt × Bool
  | [] => ([], [], false)
  | d :: ds =>
    let r := visitDeclarator baseClassNames d
    let rs := visitDeclarators baseClassNames ds
    (r.1 :: rs.1, rs.2.1 ++ r.2.1, r.2.2 || rs.2.2)
/-- Traversal of a statement: the statements that stand in its place
afterwards, and the flag. -/
def visitStmt (baseClassNames : List String) : Stmt → List Stmt × Bool
  | .classDecl id superClass body =>
    let s := visitOptExpr baseClassNames superClass
    let b := visitMethods baseClassNames body
    match ClassDeclaration baseClassNames id superClass with
    | some name => ([.classDecl id s.1 b.1, injectRegister name], true)
    | none => ([.classDecl id s.1 b.1], s.2 || b.2)
  | .varDecl kind declarations =>
    let d := visitDeclarators baseClassNames declarations
    (.varDecl kind d.1 :: d.2.1, d.2.2)
  | .block body =>
    let b := visitStmts baseClassNames body
    ([.block b.1], b.2)
  | .funcDecl id params body =>
    let p := visitParams baseClassNames params
    let b := visitStmts baseClassNames body
    ([.funcDecl id p.1 b.1], p.2 || b.2)
  | .exprStmt expression =>
    let e := visitExpr baseClassNames expression
    ([.exprStmt e.1], e.2)
  | .file code => ([.file code], false)
/-- Traversal of a statement list. -/
def visitStmts (baseClassNames : List String) : List Stmt → List Stmt × Bool
  | [] => ([], false)
  | s :: ss =>
    let r := visitStmt baseClassNames s
    let rs := visitStmts baseClassNames ss
    (r.1 ++ rs.1, r.2 || rs.2)
end

/-- Traversal of one element of the module body. -/
def visitItem (baseClassNames : List String) : ModuleItem → List ModuleItem × Bool
  | .importDeclaration source specifiers => ([.importDeclaration source specifiers], false)
  | .statement s =>
    let r := visitStmt baseClassNames s
    (r.1.map .statement, r.2)

/-- Traversal of the module body. -/
def visitItems (baseClassNames : List String) : List ModuleItem → List ModuleItem × Bool
  | [] => ([], false)
  | it :: its =>
    let r := visitItem baseClassNames it
    let rs := visitItems baseClassNames its
    (r.1 ++ rs.1, r.2 || rs.2)

/-! ## The visitor `Program` -/

/-- The loop that collects the names of the base classes to match without an
import. -/
def globalBaseClassNames : List BaseClass → List String
  | [] => []
  | b :: rest =>
    if !truthy b.import_ then
      match b.name with
      | some name => name :: globalBaseClassNames rest
      | none => globalBaseClassNames rest
    else globalBaseClassNames rest

/-- The visitor `ImportDeclaration` of the first traversal: the names and the
patch indices that it pushes. -/
def ImportDeclaration (options : ParsedOptions) (resolvedFilename : String)
    (importSpecifier : String) (specifiers : List ImportSpecifier) :
    List String × List String :=
  let baseClassesForImport :=
    getBaseClassesForImport options.baseClasses importSpecifier resolvedFilename options.rootDir
  let baseClassNamesForImport :=
    getImportedBaseClassNames (baseClassesForImport.map (fun b => b.baseClass)) specifiers
  (baseClassNamesForImport,
    (baseClassesForImport.filter (fun b => Patch.truthy b.baseClass.patch)).map
      (fun b => toString b.i))

/-- The first traversal, `program.traverse({ ImportDeclaration })`: everything
pushed to `baseClassNames` and to `baseClassPatches`, in source order. -/
def traverseImports (options : ParsedOptions) (resolvedFilename : String) :
    List ModuleItem → List String × List String
  | [] => ([], [])
  | .importDeclaration source specifiers :: rest =>
    let r := ImportDeclaration options resolvedFilename source specifiers
    let rs := traverseImports options resolvedFilename rest
    (r.1 ++ rs.1, r.2 ++ rs.2)
  | .statement _ :: rest => traverseImports options resolvedFilename rest

/-- The array `baseClassNames` when the second traversal starts. -/
def baseClassNames (options : ParsedOptions) (resolvedFilename : String)
    (body : List ModuleItem) : List String :=
  globalBaseClassNames options.baseClasses ++ (traverseImports options resolvedFilename body).1

/-- The array `baseClassPatches` when the second traversal starts. -/
def baseClassPatches (options : ParsedOptions) (resolvedFilename : String)
    (body : List ModuleItem) : List String :=
  (traverseImports options resolvedFilename body).2

/-- The import statements of the patches, one per element of
`baseClassPatches`. -/
def patchImports (patches : List String) : List String :=
  patches.map (fun patch => "import '" ++ WC_HMR_MODULE_PATCHES ++ patch ++ ".js';")

/-- The code that `Program` hands to `parse` for the prologue: the patch
imports joined by a line break, the import of the runtime module, and the
guarded `accept` call. -/
def prologueCode (patches : List String) : String :=
  String.mk (joinWith ['\n'] ((patchImports patches).map String.data))
    ++ "import * as " ++ WC_HMR_NAMESPACE ++ " from '" ++ WC_HMR_MODULE_RUNTIME
    ++ "';\nif(import.meta.hot) { import.meta.hot.accept(() => { }) }"

/-- The node that `Program` puts in front of the module body when a
registration was injected. -/
def prologue (patches : List String) : Stmt :=
  parse (prologueCode patches)

/-- The plugin: its visitor `Program`, run on the body of a module.  `cwd` is
the working directory, `filename` is `this.filename` and `opts` is
`this.opts`. -/
def babelPluginWcHmr (cwd : String) (filename : Option String)
    (opts : Option BabelPluginWcHmrOptions) (body : List ModuleItem) :
    Except String (List ModuleItem) :=
  match filename with
  | none => .error (createError "Missing filename")
  | some filename =>
    if !truthy (some filename) then .error (createError "Missing filename")
    else
      let resolvedFilename := path.resolve cwd filename
      match parseOptions cwd opts with
      | .error e => .error e
      | .ok options =>
        let names := baseClassNames options resolvedFilename body
        let patches := baseClassPatches options resolvedFilename body
        let r := visitItems names body
        if r.2 then .ok (.statement (prologue patches) :: r.1) else .ok r.1

/-! ## Vocabulary of the specification

The specification speaks of the class forms eligible for instrumentation
(its `ClassSite`), of the root identifier of a super class, of the statement
lists of a module at every nesting level, and of the original statements of a
transformed module.  These notions are defined here on the syntax tree. -/

/-- The root identifier of a super-class expression: the name of the term the
mixin walk ends at, when that term is an identifier. -/
def rootIdentifier (superClass : Option Expr) : Option String :=
  match walkClassMixins superClass with
  | some (.ident name) => some name
  | _ => none

/-- The candidate that a declarator contributes: a class expression that is
the initializer of a declarator binding a plain identifier, with that
identifier and the super class. -/
def VariableDeclarator.candidate : VariableDeclarator → Option (String × Option Expr)
  | .mk (.identifier id) (some (.classExpr _ superClass _)) => some (id, superClass)
  | _ => none

/-- The candidates anchored at a statement: a named class declaration, or
the candidates of the declarators of a variable declaration; each with the
binding name and the super class. -/
def Stmt.candidates : Stmt → List (String × Option Expr)
  | .classDecl (some id) superClass _ => [(id, superClass)]
  | .varDecl _ declarations => declarations.filterMap VariableDeclarator.candidate
  | _ => []

/-- A candidate matches a name set when its root identifier is in the set. -/
def isMatch (baseClassNames : List String) (c : String × Option Expr) : Bool :=
  match rootIdentifier c.2 with
  | some name => baseClassNames.any (fun n => n == name)
  | none => false

/-- Some candidate anchored at one of the statements matches. -/
def anyMatchIn (baseClassNames : List String) (l : List Stmt) : Bool :=
  l.any (fun s => s.candidates.any (isMatch baseClassNames))

mutual
/-- The statement lists below an expression, at every depth. -/
def Expr.stmtLists : Expr → List (List Stmt)
  | .ident _ => []
  | .call callee arguments => callee.stmtLists ++ stmtListsExprs arguments
  | .member object _ => object.stmtLists
  | .array elements => stmtListsExprs elements
  | .classExpr _ superClass body => stmtListsOptExpr superClass ++ stmtListsMethods body
  | .func params body => stmtListsParams params ++ (body :: stmtListsStmts body)
  | .lit _ => []
/-- The statement lists below an optional expression. -/
def stmtListsOptExpr : Option Expr → List (List Stmt)
  | none => []
  | some e => e.stmtLists
/-- The statement lists below a list of expressions. -/
def stmtListsExprs : List Expr → List (List Stmt)
  | [] => []
  | e :: es => e.stmtLists ++ stmtListsExprs es
/-- The statement lists below a class method: its body and what is nested in
it. -/
def ClassMethod.stmtLists : ClassMethod → List (List Stmt)
  | .mk _ params body => stmtListsParams params ++ (body :: stmtListsStmts body)
/-- The statement lists below a class body. -/
def stmtListsMethods : List ClassMethod → List (List Stmt)
  | [] => []
  | m :: ms => m.stmtLists ++ stmtListsMethods ms
/-- The statement lists below a parameter. -/
def Param.stmtLists : Param → List (List Stmt)
  | .mk _ right => stmtListsOptExpr right
/-- The statement lists below a parameter list. -/
def stmtListsParams : List Param → List (List Stmt)
  | [] => []
  | p :: ps => p.stmtLists ++ stmtListsParams ps
/-- The statement lists below a declarator. -/
def VariableDeclarator.stmtLists : VariableDeclarator → List (List Stmt)
  | .mk _ init => stmtListsOptExpr init
/-- The statement lists below a list of declarators. -/
def stmtListsDeclarators : List VariableDeclarator → List (List Stmt)
  | [] => []
  | d :: ds => d.stmtLists ++ stmtListsDeclarators ds
/-- The statement lists below a statement. -/
def Stmt.stmtLists : Stmt → List (List Stmt)
  | .classDecl _ superClass body => stmtListsOptExpr superClass ++ stmtListsMethods body
  | .varDecl _ declarations => stmtListsDeclarators declarations
  | .block body => body :: stmtListsStmts body
  | .funcDecl _ params body => stmtListsParams params ++ (body :: stmtListsStmts body)
  | .exprStmt expression => expression.stmtLists
  | .file _ => []
/-- The statement lists strictly below the statements of a list. -/
def stmtListsStmts : List Stmt → List (List Stmt)
  | [] => []
  | s :: ss => s.stmtLists ++ stmtListsStmts ss
end

/-- The statements at the top level of a module body, in order. -/
def topLevel : List ModuleItem → List Stmt
  | [] => []
  | .importDeclaration _ _ :: rest => topLevel rest
  | .statement s :: rest => s :: topLevel rest

/-- The statement lists nested in a module body: every block, function body
and method body at any depth, the top level itself excluded. -/
def nestedStmtLists (body : List ModuleItem) : List (List Stmt) :=
  stmtListsStmts (topLevel body)

/-- Every statement list of a module: the top level and the nested ones. -/
def allStmtLists (body : List ModuleItem) : List (List Stmt) :=
  topLevel body :: nestedStmtLists body

/-- Some candidate of the module, at any nesting level, matches the name set. -/
def anyMatch (baseClassNames : List String) (body : List ModuleItem) : Bool :=
  (allStmtLists body).any (anyMatchIn baseClassNames)

mutual
/-- An expression without the nodes that `parse` produced. -/
def eraseExpr : Expr → Expr
  | .ident name => .ident name
  | .call callee arguments => .call (eraseExpr callee) (eraseExprs arguments)
  | .member object property => .member (eraseExpr object) property
  | .array elements => .array (eraseExprs elements)
  | .classExpr id superClass body =>
    .classExpr id (eraseOptExpr superClass) (eraseMethods body)
  | .func params body => .func (eraseParams params) (eraseStmts body)
  | .lit raw => .lit raw
/-- An optional expression without the nodes that `parse` produced. -/
def eraseOptExpr : Option Expr → Option Expr
  | none => none
  | some e => some (eraseExpr e)
/-- A list of expressions without the nodes that `parse` produced. -/
def eraseExprs : List Expr → List Expr
  | [] => []
  | e :: es => eraseExpr e :: eraseExprs es
/-- A class method without the nodes that `parse` produced. -/
def eraseMethod : ClassMethod → ClassMethod
  | .mk key params body => .mk key (eraseParams params) (eraseStmts body)
/-- A class body without the nodes that `parse` produced. -/
def eraseMethods : List ClassMethod → List ClassMethod
  | [] => []
  | m :: ms => eraseMethod m :: eraseMethods ms
/-- A parameter without the nodes that `parse` produced. -/
def eraseParam : Param → Param
  | .mk left right => .mk left (eraseOptExpr right)
/-- A parameter list without the nodes that `parse` produced. -/
def eraseParams : List Param → List Param
  | [] => []
  | p :: ps => eraseParam p :: eraseParams ps
/-- A declarator without the nodes that `parse` produced. -/
def eraseDeclarator : VariableDeclarator → VariableDeclarator
  | .mk id init => .mk id (eraseOptExpr init)
/-- A list of declarators without the nodes that `parse` produced. -/
def eraseDeclarators : List VariableDeclarator → List VariableDeclarator
  | [] => []
  | d :: ds => eraseDeclarator d :: eraseDeclarators ds
/-- A statement without the nodes that `parse` produced: nothing for a `File`
node, otherwise the statement with every nested `File` node removed. -/
def eraseStmt : Stmt → List Stmt
  | .classDecl id superClass body =>
    [.classDecl id (eraseOptExpr superClass) (eraseMethods body)]
  | .varDecl kind declarations => [.varDecl kind (eraseDeclarators declarations)]
  | .block body => [.block (eraseStmts body)]
  | .funcDecl id params body => [.funcDecl id (eraseParams params) (eraseStmts body)]
  | .exprStmt expression => [.exprStmt (eraseExpr expression)]
  | .file _ => []
/-- A statement list without the nodes that `parse` produced. -/
def eraseStmts : List Stmt → List Stmt
  | [] => []
  | s :: ss => eraseStmt s ++ eraseStmts ss
end

/-- A module body without the nodes that `parse` produced, at any depth. -/
def eraseItems : List ModuleItem → List ModuleItem
  | [] => []
  | .importDeclaration source specifiers :: rest =>
    .importDeclaration source specifiers :: eraseItems rest
  | .statement s :: rest => (eraseStmt s).map .statement ++ eraseItems rest

/-- The statement is the registration of `name`: the node that
`injectRegister` builds for it. -/
def isRegistration (name : String) : Stmt → Bool
  | .file code => code == WC_HMR_NAMESPACE ++ ".register(import.meta.url, " ++ name ++ ")"
  | _ => false

/-- The statement is the prologue for the given patch indices. -/
def isPrologue (patches : List String) : Stmt → Bool
  | .file code => code == prologueCode patches
  | _ => false

/-- The chain `M1(M2(...Mn(T)...))`: each wrapper is a callee with the
arguments that follow the first one; the first wrapper is the outermost. -/
def mixinChain : List (Expr × List Expr) → Expr → Expr
  | [], term => term
  | (callee, others) :: wrappers, term => .call callee (mixinChain wrappers term :: others)

/-- The local binding name of an import specifier. -/
def ImportSpecifier.localName : ImportSpecifier → String
  | .importDefaultSpecifier localName => localName
  | .importNamespaceSpecifier localName => localName
  | .importSpecifier _ localName => localName


/-! ## The configuration of the dev-server plugin (`utils.js`) -/

/-- The value of the `include` or of the `exclude` property of the plugin
configuration. -/
inductive PatternsOption where
  /-- A falsy value (`undefined`, `null`, ...). -/
  | missing
  /-- A truthy value that is not an array. -/
  | notArray
  /-- An array of patterns. -/
  | array (patterns : List String)
deriving DecidableEq

/-- JavaScript `Array.isArray(value)`. -/
def PatternsOption.isArray : PatternsOption → Bool
  | .array _ => true
  | _ => false

/-- JavaScript truthiness of the value (an array is truthy). -/
def PatternsOption.truthy : PatternsOption → Bool
  | .missing => false
  | _ => true

/-- The typedef `WcHmrPluginConfig`, as received (unvalidated).  The property
the source calls `include` is the field `include_`; `baseClasses` is absent
(`none`: any falsy value) or an array, as its declared type `BaseClass[]` has
it. -/
structure WcHmrPluginConfig where
  include_ : PatternsOption
  exclude : PatternsOption
  baseClasses : Option (List BaseClass)
deriving DecidableEq

/-- The test `b.patch != null && typeof b.patch !== 'string'` of `parseConfig`. -/
def Patch.isNonString : Option Patch → Bool
  | some (.other _) => true
  | _ => false

/-- The loop `for (const b of config.baseClasses)` of `parseConfig`: the first
failing check raises. -/
def checkBaseClasses : List BaseClass → Except String Unit
  | [] => .ok ()
  | b :: rest =>
    if !truthy b.name then .error (createError "Must provide a baseclass name.")
    else if Patch.isNonString b.patch then .error (createError "Patch must be a string.")
    else checkBaseClasses rest

/-- The function `parseConfig` of `utils.js`. -/
def parseConfig (config : WcHmrPluginConfig) : Except String WcHmrPluginConfig :=
  if !config.include_.isArray && !config.exclude.isArray then
    .error (createError "Must provide either an \"include\" or \"exclude\" pattern in config.")
  else
    match config.baseClasses with
    | none => .error (createError "Must provide a baseClass option in config.")
    | some baseClasses =>
      match checkBaseClasses baseClasses with
      | .error e => .error e
      | .ok _ =>
        if config.include_.truthy && !config.include_.isArray then
          .error (createError "Include option must be an array")
        else if config.exclude.truthy && !config.exclude.isArray then
          .error (createError "Include option must be an array")
        else .ok config

/-! ## Further vocabulary of the specification -/

/-- The number that a string of decimal digits writes. -/
def decimalValue (digits : List Char) : Nat :=
  digits.foldl (fun value c => value * 10 + (c.toNat - '0'.toNat)) 0

/-- The import declarations of a module body, in source order: the source and
the specifiers of each. -/
def importDeclarations : List ModuleItem → List (String × List ImportSpecifier)
  | [] => []
  | .importDeclaration source specifiers :: rest =>
    (source, specifiers) :: importDeclarations rest
  | .statement _ :: rest => importDeclarations rest

/-- The positions of the descriptors that one import declaration selects and
that carry a patch, in the order of the configured list. -/
def patchIndicesForImport (baseClasses : List BaseClass)
    (importSpecifier filename rootDir : String) : List Nat :=
  ((getBaseClassesForImport baseClasses importSpecifier filename rootDir).filter
    (fun b => Patch.truthy b.baseClass.patch)).map (fun b => b.i)

/-- The text of the patch import for the descriptor at position `i`. -/
def patchImportOf (i : Nat) : String :=
  "import '/__web-dev-server__/wc-hmr/patch/" ++ toString i ++ ".js';"

/-- An error raised through `createError`: a configuration error of the
package. -/
def isConfigurationError (e : String) : Bool :=
  startsWith e "[@open-wc/dev-server-hmr] "

/-! ## The hook `serve` of the plugin

JavaScript strings are sequences of UTF-16 code units: `length` counts them
and `substring` cuts between them.  The request path is a string; the piece
that `serve` cuts out of it is kept as a list of code units, since a cut may
fall inside a surrogate pair. -/

/-- The UTF-16 code units of a character. -/
def utf16 (c : Char) : List Nat :=
  if c.toNat < 0x10000 then [c.toNat]
  else [0xD800 + (c.toNat - 0x10000) / 0x400, 0xDC00 + (c.toNat - 0x10000) % 0x400]

/-- The UTF-16 code units of a string. -/
def codeUnits (s : String) : List Nat :=
  s.data.flatMap utf16

/-- The method `String.prototype.substring(start, finish)` on code units: both
positions are clamped to the length and swapped when the first exceeds the
second.  A negative position counts as `0`; the callers pass it as a
truncated subtraction. -/
def substring (units : List Nat) (start finish : Nat) : List Nat :=
  let s := min start units.length
  let e := min finish units.length
  (units.drop (min s e)).take (max s e - min s e)

/-- A number as `serve` uses it: `index` is the array position that the number
denotes as a property key (`none` for `NaN`, an infinity, a fraction or a
negative number), `text` is its conversion to a string. -/
structure NumberValue where
  index : Option Nat
  text : String
deriving DecidableEq

/-- The code units `0` to `9`. -/
def isDigitUnit (u : Nat) : Bool :=
  decide (48 ≤ u) && decide (u ≤ 57)

/-- The number that a list of decimal digit code units writes. -/
def unitsValue (units : List Nat) : Nat :=
  units.foldl (fun value u => value * 10 + (u - 48)) 0

/-- The builtin `Number` applied to a string.  A string of decimal digits that
writes a number below `2 ^ 53` converts to that number exactly, the empty
string to `0`.  The builtin is not part of the sources: its value on every
other string (white space, signs, fractions, exponents, other radices, large
numerals, text that is no numeral) is the parameter `other`. -/
def Number (other : List Nat → NumberValue) (units : List Nat) : NumberValue :=
  if units.all isDigitUnit && decide (unitsValue units < 2 ^ 53) then
    ⟨some (unitsValue units), toString (unitsValue units)⟩
  else other units

/-- What the hook `serve` returns: a value that becomes the body of the
response, or the result of `baseHmrPlugin.serve?.(...args)`. -/
inductive ServeResult where
  | body (value : Patch)
  | base
deriving DecidableEq

/-- The constant `patchIndexString` of `serve`. -/
def patchIndexString (path : String) : List Nat :=
  substring (codeUnits path) (codeUnits WC_HMR_MODULE_PATCHES).length
    ((codeUnits path).length - 3)

/-- The element `baseClasses[patchIndex]` of the array, `none` for
`undefined`. -/
def baseClassAt (baseClasses : List BaseClass) (patchIndex : NumberValue) : Option BaseClass :=
  match patchIndex.index with
  | none => none
  | some i => baseClasses[i]?

/-- The hook `serve` of the plugin that `hmrPlugin` returns, for the request
path `context.path`.  `parsedPluginConfig` is the result of `parseConfig`;
`wcHmrRuntime` is the text of the runtime module, which is not among the
sources. -/
def serve (wcHmrRuntime : String) (other : List Nat → NumberValue)
    (parsedPluginConfig : WcHmrPluginConfig) (path : String) : Except String ServeResult :=
  if path = WC_HMR_MODULE_RUNTIME then .ok (.body (.str wcHmrRuntime))
  else if startsWith path WC_HMR_MODULE_PATCHES then
    let patchIndex := Number other (patchIndexString path)
    match parsedPluginConfig.baseClasses with
    | none => .error "TypeError: Cannot read properties of undefined"
    | some baseClasses =>
      match baseClassAt baseClasses patchIndex with
      | none =>
        .error (createError ("Something went wrong while loading a base class patch. "
          ++ "Can't find a patch with index " ++ patchIndex.text ++ ", request path " ++ path))
      | some baseClass =>
        match baseClass.patch with
        | none =>
          .error (createError ("Something went wrong while loading a base class patch. "
            ++ "Can't find a patch with index " ++ patchIndex.text ++ ", request path " ++ path))
        | some patch =>
          if !Patch.truthy (some patch) then
            .error (createError ("Something went wrong while loading a base class patch. "
              ++ "Can't find a patch with index " ++ patchIndex.text ++ ", request path "
              ++ path))
          else .ok (.body patch)
  else .ok .base

/-- The path of the patch module with index `i`, as the prologue imports it:
the template `${WC_HMR_MODULE_PATCHES}${patch}.js`. -/
def patchPath (i : Nat) : String :=
  WC_HMR_MODULE_PATCHES ++ toString i ++ ".js"

/-! ## The harness of the test-suite -/

/-- The `filename` that the test-suite passes to Babel. -/
def testFilename : String := "/root/projects/my-project/src/foo.js"

/-- The `rootDir` that the test-suite passes to the plugin. -/
def testRootDir : String := "/root/projects/my-project/"

/-- The descriptor of a base class that is matched without an import. -/
def globalBaseClass (name : String) : BaseClass :=
  ⟨some name, none, none⟩

/-- The descriptor of a base class exported by a module. -/
def importedBaseClass (name origin : String) : BaseClass :=
  ⟨some name, some origin, none⟩

/-- The descriptor of a base class exported by a module, with a patch. -/
def patchedBaseClass (name origin patch : String) : BaseClass :=
  ⟨some name, some origin, some (.str patch)⟩

/-- The options that the helper `transform` of the test-suite builds. -/
def testOptions (baseClasses : List BaseClass) : Option BabelPluginWcHmrOptions :=
  some ⟨.array baseClasses, some testRootDir⟩

/-- The helper `transform` of the test-suite, run in the working directory
`/`. -/
def transform (code : List ModuleItem) (baseClasses : List BaseClass) :
    Except String (List ModuleItem) :=
  babelPluginWcHmr "/" (some testFilename) (testOptions baseClasses) code

/-- The statement `class id extends base {}`. -/
def emptyClass (id base : String) : Stmt :=
  .classDecl (some id) (some (.ident base)) []

/-! ## The test-suite of the plugin

Each test of `test/babelPluginWcHmr.test.js`, on the syntax trees of its input
and of its expected output; the `banner` of the test-suite is `prologue []`. -/

theorem test_injects_registration_when_extending_a_global :
    transform [.statement (emptyClass "Foo" "HTMLElement")] [globalBaseClass "HTMLElement"] =
      .ok [.statement (prologue []), .statement (emptyClass "Foo" "HTMLElement"),
        .statement (injectRegister "Foo")] := rfl

theorem test_injects_registration_when_using_a_mixin :
    transform
      [.statement (.classDecl (some "Foo")
        (some (.call (.ident "MyMixin") [.ident "HTMLElement"])) [])]
      [globalBaseClass "HTMLElement"] =
    .ok [.statement (prologue []),
      .statement (.classDecl (some "Foo")
        (some (.call (.ident "MyMixin") [.ident "HTMLElement"])) []),
      .statement (injectRegister "Foo")] := rfl

theorem test_injects_registration_when_using_multiple_mixins :
    transform
      [.statement (.classDecl (some "Foo")
        (some (.call (.ident "OtherMixin") [.call (.ident "MyMixin") [.ident "HTMLElement"]]))
        [])]
      [globalBaseClass "HTMLElement"] =
    .ok [.statement (prologue []),
      .statement (.classDecl (some "Foo")
        (some (.call (.ident "OtherMixin") [.call (.ident "MyMixin") [.ident "HTMLElement"]]))
        []),
      .statement (injectRegister "Foo")] := rfl

theorem test_injects_multiple_registrations :
    transform
      [.statement (emptyClass "A" "HTMLElement"), .statement (emptyClass "B" "HTMLElement"),
        .statement (emptyClass "C" "HTMLElement")]
      [globalBaseClass "HTMLElement"] =
    .ok [.statement (prologue []),
      .statement (emptyClass "A" "HTMLElement"), .statement (injectRegister "A"),
      .statement (emptyClass "B" "HTMLElement"), .statement (injectRegister "B"),
      .statement (emptyClass "C" "HTMLElement"), .statement (injectRegister "C")] := rfl

theorem test_handles_class_declaration_outside_the_root_scope :
    transform
      [.statement (.block [emptyClass "A" "HTMLElement"]),
       .statement (.funcDecl "myFunction" [] [emptyClass "B" "HTMLElement"]),
       .statement (.classDecl (some "NotAnElement") none
          [.mk "constructor" [] [emptyClass "C" "HTMLElement"]])]
      [globalBaseClass "HTMLElement"] =
    .ok [.statement (prologue []),
      .statement (.block [emptyClass "A" "HTMLElement", injectRegister "A"]),
      .statement (.funcDecl "myFunction" []
        [emptyClass "B" "HTMLElement", injectRegister "B"]),
      .statement (.classDecl (some "NotAnElement") none
        [.mk "constructor" [] [emptyClass "C" "HTMLElement", injectRegister "C"]])] := rfl

theorem test_handles_class_expression_assign_to_variables :
    transform
      [.statement (.varDecl "const" [.mk (.identifier "A")
        (some (.classExpr (some "B") (some (.ident "HTMLElement")) []))])]
      [globalBaseClass "HTMLElement"] =
    .ok [.statement (prologue []),
      .statement (.varDecl "const" [.mk (.identifier "A")
        (some (.classExpr (some "B") (some (.ident "HTMLElement")) []))]),
      .statement (injectRegister "A")] := rfl

theorem test_does_not_trip_over_classes_in_unsupported_locations :
    transform
      [.statement (.varDecl "const" [.mk (.identifier "foo") (some (.array
          [.classExpr (some "A") (some (.ident "HTMLElement")) [],
           .classExpr (some "B") (some (.ident "HTMLElement")) []]))]),
       .statement (.exprStmt (.call (.member (.ident "console") "log")
          [.classExpr (some "C") (some (.ident "HTMLElement")) []])),
       .statement (.funcDecl "bar" [.mk (.identifier "x")
          (some (.classExpr (some "D") (some (.ident "HTMLElement")) []))] [])]
      [globalBaseClass "HTMLElement"] =
    .ok
      [.statement (.varDecl "const" [.mk (.identifier "foo") (some (.array
          [.classExpr (some "A") (some (.ident "HTMLElement")) [],
           .classExpr (some "B") (some (.ident "HTMLElement")) []]))]),
       .statement (.exprStmt (.call (.member (.ident "console") "log")
          [.classExpr (some "C") (some (.ident "HTMLElement")) []])),
       .statement (.funcDecl "bar" [.mk (.identifier "x")
          (some (.classExpr (some "D") (some (.ident "HTMLElement")) []))] [])] := rfl

theorem test_can_inject_based_on_imported_symbol :
    transform
      [.importDeclaration "lit-element" [.importSpecifier "LitElement" "LitElement"],
        .statement (emptyClass "Foo" "LitElement")]
      [importedBaseClass "LitElement" "lit-element"] =
    .ok [.statement (prologue []),
      .importDeclaration "lit-element" [.importSpecifier "LitElement" "LitElement"],
      .statement (emptyClass "Foo" "LitElement"), .statement (injectRegister "Foo")] := rfl

theorem test_handles_renamed_symbols :
    transform
      [.importDeclaration "my-package" [.importSpecifier "MyElement" "Bar"],
        .statement (emptyClass "Foo" "Bar")]
      [importedBaseClass "MyElement" "my-package"] =
    .ok [.statement (prologue []),
      .importDeclaration "my-package" [.importSpecifier "MyElement" "Bar"],
      .statement (emptyClass "Foo" "Bar"), .statement (injectRegister "Foo")] := rfl

theorem test_handles_default_imports :
    transform
      [.importDeclaration "my-package" [.importDefaultSpecifier "MyElement"],
        .statement (emptyClass "Foo" "MyElement")]
      [importedBaseClass "default" "my-package"] =
    .ok [.statement (prologue []),
      .importDeclaration "my-package" [.importDefaultSpecifier "MyElement"],
      .statement (emptyClass "Foo" "MyElement"), .statement (injectRegister "Foo")] := rfl

theorem test_handles_multiple_base_classes_from_a_single_import :
    transform
      [.importDeclaration "my-package"
          [.importDefaultSpecifier "A", .importSpecifier "B" "B", .importSpecifier "C" "C"],
        .statement (emptyClass "Foo" "A"), .statement (emptyClass "Bar" "B"),
        .statement (emptyClass "Baz" "C")]
      [importedBaseClass "default" "my-package", importedBaseClass "A" "my-package",
        importedBaseClass "B" "my-package", importedBaseClass "C" "my-package"] =
    .ok [.statement (prologue []),
      .importDeclaration "my-package"
        [.importDefaultSpecifier "A", .importSpecifier "B" "B", .importSpecifier "C" "C"],
      .statement (emptyClass "Foo" "A"), .statement (injectRegister "Foo"),
      .statement (emptyClass "Bar" "B"), .statement (injectRegister "Bar"),
      .statement (emptyClass "Baz" "C"), .statement (injectRegister "Baz")] := rfl

theorem test_does_not_handle_unspecified_elements :
    transform
      [.importDeclaration "my-package" [.importSpecifier "B" "B"],
        .statement (emptyClass "Foo" "A"), .statement (emptyClass "Bar" "B"),
        .statement (emptyClass "Baz" "NotHTMLElement")]
      [importedBaseClass "HTMLElement" "my-package", importedBaseClass "A" "my-package"] =
    .ok [.importDeclaration "my-package" [.importSpecifier "B" "B"],
      .statement (emptyClass "Foo" "A"), .statement (emptyClass "Bar" "B"),
      .statement (emptyClass "Baz" "NotHTMLElement")] := rfl

theorem test_can_inject_based_on_a_local_base_class :
    transform
      [.importDeclaration "./my-base-class.js" [.importSpecifier "MyBaseClass" "MyBaseClass"],
        .statement (emptyClass "Foo" "MyBaseClass")]
      [importedBaseClass "MyBaseClass" "/root/projects/my-project/src/my-base-class.js"] =
    .ok [.statement (prologue []),
      .importDeclaration "./my-base-class.js" [.importSpecifier "MyBaseClass" "MyBaseClass"],
      .statement (emptyClass "Foo" "MyBaseClass"), .statement (injectRegister "Foo")] := rfl

theorem test_can_inject_a_base_class_patch :
    transform
      [.importDeclaration "my-package" [.importSpecifier "MyBaseClass" "MyBaseClass"],
        .statement (emptyClass "Foo" "MyBaseClass")]
      [⟨some "MyBaseClass", some "my-package", some (.other true)⟩] =
    .ok [.statement (prologue ["0"]),
      .importDeclaration "my-package" [.importSpecifier "MyBaseClass" "MyBaseClass"],
      .statement (emptyClass "Foo" "MyBaseClass"), .statement (injectRegister "Foo")] := rfl

theorem test_banner :
    prologue [] = .file ("import * as __$wc_hmr$__ from '/__web-dev-server__/wc-hmr/runtime.js';"
      ++ "\nif(import.meta.hot) { import.meta.hot.accept(() => { }) }") ∧
    prologue ["0"] = .file ("import '/__web-dev-server__/wc-hmr/patch/0.js';"
      ++ "import * as __$wc_hmr$__ from '/__web-dev-server__/wc-hmr/runtime.js';"
      ++ "\nif(import.meta.hot) { import.meta.hot.accept(() => { }) }") ∧
    injectRegister "Foo" = .file "__$wc_hmr$__.register(import.meta.url, Foo)" :=
  ⟨rfl, rfl, rfl⟩

/-! ## The traversal changes nothing where no visitor fires -/

mutual
theorem visitExpr_unchanged (n : List String) :
    ∀ e : Expr, (visitExpr n e).2 = false → (visitExpr n e).1 = e
  | .ident _, _ => by simp [visitExpr]
  | .call callee arguments, h => by
    simp [visitExpr] at h ⊢
    exact ⟨visitExpr_unchanged n callee h.1, visitExprs_unchanged n arguments h.2⟩
  | .member object _, h => by
    simp [visitExpr] at h ⊢
    exact visitExpr_unchanged n object h
  | .array elements, h => by
    simp [visitExpr] at h ⊢
    exact visitExprs_unchanged n elements h
  | .classExpr _ superClass body, h => by
    simp [visitExpr] at h ⊢
    exact ⟨visitOptExpr_unchanged n superClass h.1, visitMethods_unchanged n body h.2⟩
  | .func params body, h => by
    simp [visitExpr] at h ⊢
    exact ⟨visitParams_unchanged n params h.1, visitStmts_unchanged n body h.2⟩
  | .lit _, _ => by simp [visitExpr]
theorem visitOptExpr_unchanged (n : List String) :
    ∀ e : Option Expr, (visitOptExpr n e).2 = false → (visitOptExpr n e).1 = e
  | none, _ => by simp [visitOptExpr]
  | some e, h => by
    simp [visitOptExpr] at h ⊢
    exact visitExpr_unchanged n e h
theorem visitExprs_unchanged (n : List String) :
    ∀ es : List Expr, (visitExprs n es).2 = false → (visitExprs n es).1 = es
  | [], _ => by simp [visitExprs]
  | e :: es, h => by
    simp [visitExprs] at h ⊢
    exact ⟨visitExpr_unchanged n e h.1, visitExprs_unchanged n es h.2⟩
theorem visitMethod_unchanged (n : List String) :
    ∀ m : ClassMethod, (visitMethod n m).2 = false → (visitMethod n m).1 = m
  | .mk _ params body, h => by
    simp [visitMethod] at h ⊢
    exact ⟨visitParams_unchanged n params h.1, visitStmts_unchanged n body h.2⟩
theorem visitMethods_unchanged (n : List String) :
    ∀ ms : List ClassMethod, (visitMethods n ms).2 = false → (visitMethods n ms).1 = ms
  | [], _ => by simp [visitMethods]
  | m :: ms, h => by
    simp [visitMethods] at h ⊢
    exact ⟨visitMethod_unchanged n m h.1, visitMethods_unchanged n ms h.2⟩
theorem visitParam_unchanged (n : List String) :
    ∀ p : Param, (visitParam n p).2 = false → (visitParam n p).1 = p
  | .mk _ right, h => by
    simp [visitParam] at h ⊢
    exact visitOptExpr_unchanged n right h
theorem visitParams_unchanged (n : List String) :
    ∀ ps : List Param, (visitParams n ps).2 = false → (visitParams n ps).1 = ps
  | [], _ => by simp [visitParams]
  | p :: ps, h => by
    simp [visitParams] at h ⊢
    exact ⟨visitParam_unchanged n p h.1, visitParams_unchanged n ps h.2⟩
theorem visitDeclarator_unchanged (n : List String) :
    ∀ d : VariableDeclarator, (visitDeclarator n d).2.2 = false →
      (visitDeclarator n d).1 = d ∧ (visitDeclarator n d).2.1 = []
  | .mk _ none, _ => by simp [visitDeclarator]
  | .mk id (some init), h => by
    cases hv : visitInit n id init with
    | some name => simp [visitDeclarator, hv] at h
    | none =>
      simp [visitDeclarator, hv] at h ⊢
      exact visitExpr_unchanged n init h
theorem visitDeclarators_unchanged (n : List String) :
    ∀ ds : List VariableDeclarator, (visitDeclarators n ds).2.2 = false →
      (visitDeclarators n ds).1 = ds ∧ (visitDeclarators n ds).2.1 = []
  | [], _ => by simp [visitDeclarators]
  | d :: ds, h => by
    simp [visitDeclarators] at h ⊢
    have h1 := visitDeclarator_unchanged n d h.1
    have h2 := visitDeclarators_unchanged n ds h.2
    exact ⟨⟨h1.1, h2.1⟩, h2.2, h1.2⟩
theorem visitStmt_unchanged (n : List String) :
    ∀ s : Stmt, (visitStmt n s).2 = false → (visitStmt n s).1 = [s]
  | .classDecl id superClass body, h => by
    cases hv : ClassDeclaration n id superClass with
    | some name => simp [visitStmt, hv] at h
    | none =>
      simp [visitStmt, hv] at h ⊢
      exact ⟨visitOptExpr_unchanged n superClass h.1, visitMethods_unchanged n body h.2⟩
  | .varDecl _ declarations, h => by
    simp [visitStmt] at h ⊢
    have h1 := visitDeclarators_unchanged n declarations h
    exact ⟨h1.1, h1.2⟩
  | .block body, h => by
    simp [visitStmt] at h ⊢
    exact visitStmts_unchanged n body h
  | .funcDecl _ params body, h => by
    simp [visitStmt] at h ⊢
    exact ⟨visitParams_unchanged n params h.1, visitStmts_unchanged n body h.2⟩
  | .exprStmt expression, h => by
    simp [visitStmt] at h ⊢
    exact visitExpr_unchanged n expression h
  | .file _, _ => by simp [visitStmt]
theorem visitStmts_unchanged (n : List String) :
    ∀ ss : List Stmt, (visitStmts n ss).2 = false → (visitStmts n ss).1 = ss
  | [], _ => by simp [visitStmts]
  | s :: ss, h => by
    simp [visitStmts] at h ⊢
    rw [visitStmt_unchanged n s h.1, visitStmts_unchanged n ss h.2]
    rfl
end


/-! ## The flag `injectedRegister` is set exactly when a candidate matches -/

theorem rootMatch_eq (n : List String) (i : String) (w : Option Expr) :
    (match w with
      | some (.ident elName) => if n.any (fun name => name == elName) then some i else none
      | _ => none) =
    if (match (match w with
          | some (.ident name) => some name
          | _ => none) with
        | some name => n.any (fun x => x == name)
        | none => false) = true then some i else none := by
  cases w with
  | none => rfl
  | some el => cases el <;> rfl

theorem ClassDeclaration_eq (n : List String) (id : Option String) (superClass : Option Expr) :
    ClassDeclaration n id superClass =
      match id with
      | none => none
      | some i => if isMatch n (i, superClass) then some i else none := by
  cases id with
  | none => rfl
  | some i => exact rootMatch_eq n i (walkClassMixins superClass)

theorem ClassExpression_eq (n : List String) (id : String) (superClass : Option Expr) :
    ClassExpression n (.variableDeclarator (.identifier id)) superClass =
      if isMatch n (id, superClass) then some id else none :=
  rootMatch_eq n id (walkClassMixins superClass)

theorem visitInit_eq (n : List String) (id : LVal) (init : Expr) :
    visitInit n id init =
      match (VariableDeclarator.mk id (some init)).candidate with
      | some c => if isMatch n c then some c.1 else none
      | none => none := by
  cases init <;> cases id <;>
    simp [visitInit, Expr.classSuper, VariableDeclarator.candidate, ClassExpression_eq]
  simp [ClassExpression]

theorem visitStmt_classDecl_flag (n : List String) (id : Option String)
    (superClass : Option Expr) (body : List ClassMethod) :
    (visitStmt n (.classDecl id superClass body)).2 =
      ((ClassDeclaration n id superClass).isSome ||
        ((visitOptExpr n superClass).2 || (visitMethods n body).2)) := by
  cases hv : ClassDeclaration n id superClass <;> simp [visitStmt, hv]

theorem visitDeclarator_flag (n : List String) (id : LVal) (init : Expr) :
    (visitDeclarator n (.mk id (some init))).2.2 =
      ((visitInit n id init).isSome || (visitExpr n init).2) := by
  cases hv : visitInit n id init <;> simp [visitDeclarator, hv]

theorem candidates_classDecl_any (n : List String) (id : Option String)
    (superClass : Option Expr) (body : List ClassMethod) :
    (Stmt.classDecl id superClass body).candidates.any (isMatch n) =
      (ClassDeclaration n id superClass).isSome := by
  rw [ClassDeclaration_eq]
  cases id with
  | none => simp [Stmt.candidates]
  | some i =>
    simp only [Stmt.candidates, List.any_cons, List.any_nil, Bool.or_false]
    cases isMatch n (i, superClass) <;> simp

theorem candidate_any (n : List String) (id : LVal) (init : Expr) :
    ((VariableDeclarator.mk id (some init)).candidate.toList.any (isMatch n)) =
      (visitInit n id init).isSome := by
  rw [visitInit_eq]
  cases hc : (VariableDeclarator.mk id (some init)).candidate with
  | none => simp
  | some c => cases hm : isMatch n c <;> simp [hm]

mutual
theorem visitExpr_flag (n : List String) :
    ∀ e : Expr, (visitExpr n e).2 = e.stmtLists.any (anyMatchIn n)
  | .ident _ => by simp [visitExpr, Expr.stmtLists]
  | .call callee arguments => by
    simp [visitExpr, Expr.stmtLists, visitExpr_flag n callee, visitExprs_flag n arguments]
  | .member object _ => by
    simp [visitExpr, Expr.stmtLists, visitExpr_flag n object]
  | .array elements => by
    simp [visitExpr, Expr.stmtLists, visitExprs_flag n elements]
  | .classExpr _ superClass body => by
    simp [visitExpr, Expr.stmtLists, visitOptExpr_flag n superClass, visitMethods_flag n body]
  | .func params body => by
    simp [visitExpr, Expr.stmtLists, visitParams_flag n params, visitStmts_flag n body]
  | .lit _ => by simp [visitExpr, Expr.stmtLists]
theorem visitOptExpr_flag (n : List String) :
    ∀ e : Option Expr, (visitOptExpr n e).2 = (stmtListsOptExpr e).any (anyMatchIn n)
  | none => by simp [visitOptExpr, stmtListsOptExpr]
  | some e => by simp [visitOptExpr, stmtListsOptExpr, visitExpr_flag n e]
theorem visitExprs_flag (n : List String) :
    ∀ es : List Expr, (visitExprs n es).2 = (stmtListsExprs es).any (anyMatchIn n)
  | [] => by simp [visitExprs, stmtListsExprs]
  | e :: es => by
    simp [visitExprs, stmtListsExprs, visitExpr_flag n e, visitExprs_flag n es]
theorem visitMethod_flag (n : List String) :
    ∀ m : ClassMethod, (visitMethod n m).2 = m.stmtLists.any (anyMatchIn n)
  | .mk _ params body => by
    simp [visitMethod, ClassMethod.stmtLists, visitParams_flag n params, visitStmts_flag n body]
theorem visitMethods_flag (n : List String) :
    ∀ ms : List ClassMethod, (visitMethods n ms).2 = (stmtListsMethods ms).any (anyMatchIn n)
  | [] => by simp [visitMethods, stmtListsMethods]
  | m :: ms => by
    simp [visitMethods, stmtListsMethods, visitMethod_flag n m, visitMethods_flag n ms]
theorem visitParam_flag (n : List String) :
    ∀ p : Param, (visitParam n p).2 = p.stmtLists.any (anyMatchIn n)
  | .mk _ right => by
    simp [visitParam, Param.stmtLists, visitOptExpr_flag n right]
theorem visitParams_flag (n : List String) :
    ∀ ps : List Param, (visitParams n ps).2 = (stmtListsParams ps).any (anyMatchIn n)
  | [] => by simp [visitParams, stmtListsParams]
  | p :: ps => by
    simp [visitParams, stmtListsParams, visitParam_flag n p, visitParams_flag n ps]
theorem visitDeclarator_flag_eq (n : List String) :
    ∀ d : VariableDeclarator, (visitDeclarator n d).2.2 =
      (d.candidate.toList.any (isMatch n) || d.stmtLists.any (anyMatchIn n))
  | .mk id none => by
    cases id <;> simp [visitDeclarator, VariableDeclarator.candidate,
      VariableDeclarator.stmtLists, stmtListsOptExpr]
  | .mk id (some init) => by
    rw [visitDeclarator_flag, candidate_any, visitExpr_flag n init]
    simp [VariableDeclarator.stmtLists, stmtListsOptExpr]
theorem visitDeclarators_flag (n : List String) :
    ∀ ds : List VariableDeclarator, (visitDeclarators n ds).2.2 =
      ((ds.filterMap VariableDeclarator.candidate).any (isMatch n) ||
        (stmtListsDeclarators ds).any (anyMatchIn n))
  | [] => by simp [visitDeclarators, stmtListsDeclarators]
  | d :: ds => by
    simp only [visitDeclarators, stmtListsDeclarators, visitDeclarator_flag_eq n d,
      visitDeclarators_flag n ds, List.filterMap_cons, List.any_append]
    cases hc : d.candidate <;> simp [Bool.or_assoc, Bool.or_left_comm]
theorem visitStmt_flag (n : List String) :
    ∀ s : Stmt, (visitStmt n s).2 =
      (s.candidates.any (isMatch n) || s.stmtLists.any (anyMatchIn n))
  | .classDecl id superClass body => by
    rw [visitStmt_classDecl_flag, candidates_classDecl_any, visitOptExpr_flag n superClass,
      visitMethods_flag n body]
    simp [Stmt.stmtLists]
  | .varDecl _ declarations => by
    simp [visitStmt, Stmt.candidates, Stmt.stmtLists, visitDeclarators_flag n declarations]
  | .block body => by
    simp [visitStmt, Stmt.candidates, Stmt.stmtLists, visitStmts_flag n body]
  | .funcDecl _ params body => by
    simp [visitStmt, Stmt.candidates, Stmt.stmtLists, visitParams_flag n params,
      visitStmts_flag n body]
  | .exprStmt expression => by
    simp [visitStmt, Stmt.candidates, Stmt.stmtLists, visitExpr_flag n expression]
  | .file _ => by simp [visitStmt, Stmt.candidates, Stmt.stmtLists]
theorem visitStmts_flag (n : List String) :
    ∀ ss : List Stmt, (visitStmts n ss).2 =
      (anyMatchIn n ss || (stmtListsStmts ss).any (anyMatchIn n))
  | [] => by simp [visitStmts, stmtListsStmts, anyMatchIn]
  | s :: ss => by
    have h1 := visitStmt_flag n s
    have h2 := visitStmts_flag n ss
    simp only [visitStmts, stmtListsStmts, h1, h2, anyMatchIn, List.any_cons, List.any_append]
    simp only [Bool.or_assoc, Bool.or_left_comm]
end


/-! ## Every statement list is traversed by the same rule -/

theorem stmtListsStmts_append (a b : List Stmt) :
    stmtListsStmts (a ++ b) = stmtListsStmts a ++ stmtListsStmts b := by
  induction a with
  | nil => simp [stmtListsStmts]
  | cons s ss ih => simp [stmtListsStmts, ih]

theorem eraseStmts_append (a b : List Stmt) :
    eraseStmts (a ++ b) = eraseStmts a ++ eraseStmts b := by
  induction a with
  | nil => simp [eraseStmts]
  | cons s ss ih => simp [eraseStmts, ih]

theorem visitDeclarator_inserted (n : List String) (d : VariableDeclarator) :
    stmtListsStmts (visitDeclarator n d).2.1 = [] ∧ eraseStmts (visitDeclarator n d).2.1 = [] := by
  cases d with
  | mk id init =>
    cases init with
    | none => simp [visitDeclarator, stmtListsStmts, eraseStmts]
    | some init =>
      cases hv : visitInit n id init <;>
        simp [visitDeclarator, hv, stmtListsStmts, eraseStmts, injectRegister, parse,
          Stmt.stmtLists, eraseStmt]

theorem visitDeclarators_inserted (n : List String) (ds : List VariableDeclarator) :
    stmtListsStmts (visitDeclarators n ds).2.1 = [] ∧
      eraseStmts (visitDeclarators n ds).2.1 = [] := by
  induction ds with
  | nil => simp [visitDeclarators, stmtListsStmts, eraseStmts]
  | cons d ds ih =>
    have h := visitDeclarator_inserted n d
    simp [visitDeclarators, stmtListsStmts_append, eraseStmts_append, ih, h]

mutual
theorem visitExpr_stmtLists (n : List String) :
    ∀ e : Expr, (visitExpr n e).1.stmtLists = e.stmtLists.map (fun l => (visitStmts n l).1)
  | .ident _ => by simp [visitExpr, Expr.stmtLists]
  | .call callee arguments => by
    simp [visitExpr, Expr.stmtLists, visitExpr_stmtLists n callee,
      visitExprs_stmtLists n arguments]
  | .member object _ => by
    simp [visitExpr, Expr.stmtLists, visitExpr_stmtLists n object]
  | .array elements => by
    simp [visitExpr, Expr.stmtLists, visitExprs_stmtLists n elements]
  | .classExpr _ superClass body => by
    simp [visitExpr, Expr.stmtLists, visitOptExpr_stmtLists n superClass,
      visitMethods_stmtLists n body]
  | .func params body => by
    simp [visitExpr, Expr.stmtLists, visitParams_stmtLists n params,
      visitStmts_stmtLists n body]
  | .lit _ => by simp [visitExpr, Expr.stmtLists]
theorem visitOptExpr_stmtLists (n : List String) :
    ∀ e : Option Expr, stmtListsOptExpr (visitOptExpr n e).1 =
      (stmtListsOptExpr e).map (fun l => (visitStmts n l).1)
  | none => by simp [visitOptExpr, stmtListsOptExpr]
  | some e => by simp [visitOptExpr, stmtListsOptExpr, visitExpr_stmtLists n e]
theorem visitExprs_stmtLists (n : List String) :
    ∀ es : List Expr, stmtListsExprs (visitExprs n es).1 =
      (stmtListsExprs es).map (fun l => (visitStmts n l).1)
  | [] => by simp [visitExprs, stmtListsExprs]
  | e :: es => by
    simp [visitExprs, stmtListsExprs, visitExpr_stmtLists n e, visitExprs_stmtLists n es]
theorem visitMethod_stmtLists (n : List String) :
    ∀ m : ClassMethod, (visitMethod n m).1.stmtLists =
      m.stmtLists.map (fun l => (visitStmts n l).1)
  | .mk _ params body => by
    simp [visitMethod, ClassMethod.stmtLists, visitParams_stmtLists n params,
      visitStmts_stmtLists n body]
theorem visitMethods_stmtLists (n : List String) :
    ∀ ms : List ClassMethod, stmtListsMethods (visitMethods n ms).1 =
      (stmtListsMethods ms).map (fun l => (visitStmts n l).1)
  | [] => by simp [visitMethods, stmtListsMethods]
  | m :: ms => by
    simp [visitMethods, stmtListsMethods, visitMethod_stmtLists n m,
      visitMethods_stmtLists n ms]
theorem visitParam_stmtLists (n : List String) :
    ∀ p : Param, (visitParam n p).1.stmtLists = p.stmtLists.map (fun l => (visitStmts n l).1)
  | .mk _ right => by
    simp [visitParam, Param.stmtLists, visitOptExpr_stmtLists n right]
theorem visitParams_stmtLists (n : List String) :
    ∀ ps : List Param, stmtListsParams (visitParams n ps).1 =
      (stmtListsParams ps).map (fun l => (visitStmts n l).1)
  | [] => by simp [visitParams, stmtListsParams]
  | p :: ps => by
    simp [visitParams, stmtListsParams, visitParam_stmtLists n p, visitParams_stmtLists n ps]
theorem visitDeclarator_stmtLists (n : List String) :
    ∀ d : VariableDeclarator, (visitDeclarator n d).1.stmtLists =
      d.stmtLists.map (fun l => (visitStmts n l).1)
  | .mk _ none => by simp [visitDeclarator, VariableDeclarator.stmtLists, stmtListsOptExpr]
  | .mk id (some init) => by
    cases hv : visitInit n id init <;>
      simp [visitDeclarator, hv, VariableDeclarator.stmtLists, stmtListsOptExpr,
        visitExpr_stmtLists n init]
theorem visitDeclarators_stmtLists (n : List String) :
    ∀ ds : List VariableDeclarator, stmtListsDeclarators (visitDeclarators n ds).1 =
      (stmtListsDeclarators ds).map (fun l => (visitStmts n l).1)
  | [] => by simp [visitDeclarators, stmtListsDeclarators]
  | d :: ds => by
    simp [visitDeclarators, stmtListsDeclarators, visitDeclarator_stmtLists n d,
      visitDeclarators_stmtLists n ds]
theorem visitStmt_stmtLists (n : List String) :
    ∀ s : Stmt, stmtListsStmts (visitStmt n s).1 =
      s.stmtLists.map (fun l => (visitStmts n l).1)
  | .classDecl id superClass body => by
    cases hv : ClassDeclaration n id superClass <;>
      simp [visitStmt, hv, stmtListsStmts, Stmt.stmtLists, injectRegister, parse,
        visitOptExpr_stmtLists n superClass, visitMethods_stmtLists n body]
  | .varDecl _ declarations => by
    simp [visitStmt, stmtListsStmts, Stmt.stmtLists, visitDeclarators_stmtLists n declarations,
      (visitDeclarators_inserted n declarations).1]
  | .block body => by
    simp [visitStmt, stmtListsStmts, Stmt.stmtLists, visitStmts_stmtLists n body]
  | .funcDecl _ params body => by
    simp [visitStmt, stmtListsStmts, Stmt.stmtLists, visitParams_stmtLists n params,
      visitStmts_stmtLists n body]
  | .exprStmt expression => by
    simp [visitStmt, stmtListsStmts, Stmt.stmtLists, visitExpr_stmtLists n expression]
  | .file _ => by simp [visitStmt, stmtListsStmts, Stmt.stmtLists]
theorem visitStmts_stmtLists (n : List String) :
    ∀ ss : List Stmt, stmtListsStmts (visitStmts n ss).1 =
      (stmtListsStmts ss).map (fun l => (visitStmts n l).1)
  | [] => by simp [visitStmts, stmtListsStmts]
  | s :: ss => by
    simp [visitStmts, stmtListsStmts, stmtListsStmts_append, visitStmt_stmtLists n s,
      visitStmts_stmtLists n ss]
end

/-! ## Removing the parsed nodes from the result gives back the input -/

mutual
theorem visitExpr_erase (n : List String) :
    ∀ e : Expr, eraseExpr (visitExpr n e).1 = eraseExpr e
  | .ident _ => by simp [visitExpr, eraseExpr]
  | .call callee arguments => by
    simp [visitExpr, eraseExpr, visitExpr_erase n callee, visitExprs_erase n arguments]
  | .member object _ => by
    simp [visitExpr, eraseExpr, visitExpr_erase n object]
  | .array elements => by
    simp [visitExpr, eraseExpr, visitExprs_erase n elements]
  | .classExpr _ superClass body => by
    simp [visitExpr, eraseExpr, visitOptExpr_erase n superClass, visitMethods_erase n body]
  | .func params body => by
    simp [visitExpr, eraseExpr, visitParams_erase n params, visitStmts_erase n body]
  | .lit _ => by simp [visitExpr, eraseExpr]
theorem visitOptExpr_erase (n : List String) :
    ∀ e : Option Expr, eraseOptExpr (visitOptExpr n e).1 = eraseOptExpr e
  | none => by simp [visitOptExpr, eraseOptExpr]
  | some e => by simp [visitOptExpr, eraseOptExpr, visitExpr_erase n e]
theorem visitExprs_erase (n : List String) :
    ∀ es : List Expr, eraseExprs (visitExprs n es).1 = eraseExprs es
  | [] => by simp [visitExprs, eraseExprs]
  | e :: es => by
    simp [visitExprs, eraseExprs, visitExpr_erase n e, visitExprs_erase n es]
theorem visitMethod_erase (n : List String) :
    ∀ m : ClassMethod, eraseMethod (visitMethod n m).1 = eraseMethod m
  | .mk _ params body => by
    simp [visitMethod, eraseMethod, visitParams_erase n params, visitStmts_erase n body]
theorem visitMethods_erase (n : List String) :
    ∀ ms : List ClassMethod, eraseMethods (visitMethods n ms).1 = eraseMethods ms
  | [] => by simp [visitMethods, eraseMethods]
  | m :: ms => by
    simp [visitMethods, eraseMethods, visitMethod_erase n m, visitMethods_erase n ms]
theorem visitParam_erase (n : List String) :
    ∀ p : Param, eraseParam (visitParam n p).1 = eraseParam p
  | .mk _ right => by
    simp [visitParam, eraseParam, visitOptExpr_erase n right]
theorem visitParams_erase (n : List String) :
    ∀ ps : List Param, eraseParams (visitParams n ps).1 = eraseParams ps
  | [] => by simp [visitParams, eraseParams]
  | p :: ps => by
    simp [visitParams, eraseParams, visitParam_erase n p, visitParams_erase n ps]
theorem visitDeclarator_erase (n : List String) :
    ∀ d : VariableDeclarator, eraseDeclarator (visitDeclarator n d).1 = eraseDeclarator d
  | .mk _ none => by simp [visitDeclarator, eraseDeclarator, eraseOptExpr]
  | .mk id (some init) => by
    cases hv : visitInit n id init <;>
      simp [visitDeclarator, hv, eraseDeclarator, eraseOptExpr, visitExpr_erase n init]
theorem visitDeclarators_erase (n : List String) :
    ∀ ds : List VariableDeclarator,
      eraseDeclarators (visitDeclarators n ds).1 = eraseDeclarators ds
  | [] => by simp [visitDeclarators, eraseDeclarators]
  | d :: ds => by
    simp [visitDeclarators, eraseDeclarators, visitDeclarator_erase n d,
      visitDeclarators_erase n ds]
theorem visitStmt_erase (n : List String) :
    ∀ s : Stmt, eraseStmts (visitStmt n s).1 = eraseStmt s
  | .classDecl id superClass body => by
    cases hv : ClassDeclaration n id superClass <;>
      simp [visitStmt, hv, eraseStmts, eraseStmt, injectRegister, parse,
        visitOptExpr_erase n superClass, visitMethods_erase n body]
  | .varDecl _ declarations => by
    simp [visitStmt, eraseStmts, eraseStmt, visitDeclarators_erase n declarations,
      (visitDeclarators_inserted n declarations).2]
  | .block body => by
    simp [visitStmt, eraseStmts, eraseStmt, visitStmts_erase n body]
  | .funcDecl _ params body => by
    simp [visitStmt, eraseStmts, eraseStmt, visitParams_erase n params,
      visitStmts_erase n body]
  | .exprStmt expression => by
    simp [visitStmt, eraseStmts, eraseStmt, visitExpr_erase n expression]
  | .file _ => by simp [visitStmt, eraseStmts, eraseStmt]
theorem visitStmts_erase (n : List String) :
    ∀ ss : List Stmt, eraseStmts (visitStmts n ss).1 = eraseStmts ss
  | [] => by simp [visitStmts, eraseStmts]
  | s :: ss => by
    simp [visitStmts, eraseStmts, eraseStmts_append, visitStmt_erase n s,
      visitStmts_erase n ss]
end


/-! ## Statement lists and the module body -/

theorem visitStmts_append (n : List String) (a b : List Stmt) :
    visitStmts n (a ++ b) =
      ((visitStmts n a).1 ++ (visitStmts n b).1, (visitStmts n a).2 || (visitStmts n b).2) := by
  induction a with
  | nil => simp [visitStmts]
  | cons s ss ih => simp [visitStmts, ih, Bool.or_assoc]

theorem visitItems_append (n : List String) (a b : List ModuleItem) :
    visitItems n (a ++ b) =
      ((visitItems n a).1 ++ (visitItems n b).1, (visitItems n a).2 || (visitItems n b).2) := by
  induction a with
  | nil => simp [visitItems]
  | cons s ss ih => simp [visitItems, ih, Bool.or_assoc]

theorem topLevel_append (a b : List ModuleItem) :
    topLevel (a ++ b) = topLevel a ++ topLevel b := by
  induction a with
  | nil => simp [topLevel]
  | cons it its ih => cases it <;> simp [topLevel, ih]

theorem topLevel_map_statement (l : List Stmt) :
    topLevel (l.map ModuleItem.statement) = l := by
  induction l with
  | nil => simp [topLevel]
  | cons s ss ih => simp [topLevel, ih]

theorem eraseItems_append (a b : List ModuleItem) :
    eraseItems (a ++ b) = eraseItems a ++ eraseItems b := by
  induction a with
  | nil => simp [eraseItems]
  | cons it its ih => cases it <;> simp [eraseItems, ih]

theorem eraseItems_map_statement (l : List Stmt) :
    eraseItems (l.map ModuleItem.statement) = (eraseStmts l).map ModuleItem.statement := by
  induction l with
  | nil => simp [eraseItems, eraseStmts]
  | cons s ss ih => simp [eraseItems, eraseStmts, ih]

/-- The top level of the traversed module is the traversal of the top-level
statements. -/
theorem topLevel_visitItems (n : List String) (body : List ModuleItem) :
    topLevel (visitItems n body).1 = (visitStmts n (topLevel body)).1 := by
  induction body with
  | nil => simp [visitItems, visitStmts, topLevel]
  | cons it its ih =>
    cases it <;>
      simp [visitItems, visitItem, visitStmts, topLevel, topLevel_append,
        topLevel_map_statement, ih]

theorem visitItems_flag_topLevel (n : List String) (body : List ModuleItem) :
    (visitItems n body).2 = (visitStmts n (topLevel body)).2 := by
  induction body with
  | nil => simp [visitItems, visitStmts, topLevel]
  | cons it its ih => cases it <;> simp [visitItems, visitItem, visitStmts, topLevel, ih]

/-- The flag `injectedRegister` after the second traversal: some candidate of
the module matches. -/
theorem visitItems_flag (n : List String) (body : List ModuleItem) :
    (visitItems n body).2 = anyMatch n body := by
  rw [visitItems_flag_topLevel, visitStmts_flag]
  simp [anyMatch, allStmtLists, nestedStmtLists]

/-- Without a match the second traversal leaves the module as it is. -/
theorem visitItems_unchanged (n : List String) (body : List ModuleItem)
    (h : (visitItems n body).2 = false) : (visitItems n body).1 = body := by
  induction body with
  | nil => simp [visitItems]
  | cons it its ih =>
    cases it with
    | importDeclaration source specifiers =>
      simp [visitItems, visitItem] at h ⊢
      exact ih h
    | statement s =>
      simp [visitItems, visitItem] at h ⊢
      rw [visitStmt_unchanged n s h.1, ih h.2]
      rfl

/-- The traversal only adds parsed nodes. -/
theorem visitItems_erase (n : List String) (body : List ModuleItem) :
    eraseItems (visitItems n body).1 = eraseItems body := by
  induction body with
  | nil => simp [visitItems]
  | cons it its ih =>
    cases it <;>
      simp [visitItems, visitItem, eraseItems, eraseItems_append, eraseItems_map_statement,
        visitStmt_erase, ih]

/-- The nested statement lists of the traversed module are the traversals of
the nested statement lists of the module, in the same order. -/
theorem nestedStmtLists_visitItems (n : List String) (body : List ModuleItem) :
    nestedStmtLists (visitItems n body).1 =
      (nestedStmtLists body).map (fun l => (visitStmts n l).1) := by
  simp [nestedStmtLists, topLevel_visitItems, visitStmts_stmtLists]

/-- The statements that the traversal inserts behind a statement are the
registrations of its matching candidates, the one inserted last coming
first. -/
theorem visitDeclarators_inserted_eq (n : List String) (ds : List VariableDeclarator) :
    (visitDeclarators n ds).2.1 =
      (((ds.filterMap VariableDeclarator.candidate).filter (isMatch n)).map
        (fun c => injectRegister c.1)).reverse := by
  induction ds with
  | nil => simp [visitDeclarators]
  | cons d ds ih =>
    cases d with
    | mk id init =>
      cases init with
      | none =>
        cases id <;> simp [visitDeclarators, visitDeclarator, VariableDeclarator.candidate, ih]
      | some init =>
        have hv := visitInit_eq n id init
        cases hc : (VariableDeclarator.mk id (some init)).candidate with
        | none =>
          rw [hc] at hv
          simp [visitDeclarators, visitDeclarator, hv, hc, ih]
        | some c =>
          rw [hc] at hv
          cases hm : isMatch n c <;>
            simp [hm] at hv <;>
            simp [visitDeclarators, visitDeclarator, hv, hc, hm, ih, List.filter_cons]

theorem visitStmt_inserted_eq (n : List String) (s : Stmt) :
    (visitStmt n s).1.tail =
      ((s.candidates.filter (isMatch n)).map (fun c => injectRegister c.1)).reverse := by
  cases s with
  | classDecl id superClass body =>
    have hv := ClassDeclaration_eq n id superClass
    cases id with
    | none => simp at hv; simp [visitStmt, hv, Stmt.candidates]
    | some i =>
      cases hm : isMatch n (i, superClass) <;>
        simp [hm] at hv <;>
        simp [visitStmt, hv, Stmt.candidates, hm, List.filter_cons]
  | varDecl kind declarations =>
    simp [visitStmt, Stmt.candidates, visitDeclarators_inserted_eq]
  | block body => simp [visitStmt, Stmt.candidates]
  | funcDecl id params body => simp [visitStmt, Stmt.candidates]
  | exprStmt expression => simp [visitStmt, Stmt.candidates]
  | file code => simp [visitStmt, Stmt.candidates]

theorem visitStmt_ne_nil (n : List String) (s : Stmt) : (visitStmt n s).1 ≠ [] := by
  cases s with
  | classDecl id superClass body =>
    cases hv : ClassDeclaration n id superClass <;> simp [visitStmt, hv]
  | varDecl kind declarations => simp [visitStmt]
  | block body => simp [visitStmt]
  | funcDecl id params body => simp [visitStmt]
  | exprStmt expression => simp [visitStmt]
  | file code => simp [visitStmt]

/-! ## The visitor `Program` -/

theorem babelPluginWcHmr_ok (cwd filename : String) (opts : Option BabelPluginWcHmrOptions)
    (options : ParsedOptions) (body : List ModuleItem)
    (hf : truthy (some filename) = true) (ho : parseOptions cwd opts = .ok options) :
    babelPluginWcHmr cwd (some filename) opts body =
      .ok (if (visitItems (baseClassNames options (path.resolve cwd filename) body) body).2 then
        .statement (prologue (baseClassPatches options (path.resolve cwd filename) body)) ::
          (visitItems (baseClassNames options (path.resolve cwd filename) body) body).1
      else (visitItems (baseClassNames options (path.resolve cwd filename) body) body).1) := by
  simp only [babelPluginWcHmr, hf, ho]
  cases (visitItems (baseClassNames options (path.resolve cwd filename) body) body).2 <;> simp


/-! ## The mixin walk -/

theorem walkMixins_mixinChain (wrappers : List (Expr × List Expr)) (term : Expr) :
    walkMixins (mixinChain wrappers term) = walkMixins term := by
  induction wrappers with
  | nil => rfl
  | cons w ws ih =>
    cases w with
    | mk callee others => simpa [mixinChain, walkMixins] using ih

theorem walkMixins_of_not_call (term : Expr)
    (h : ∀ callee arguments, term ≠ .call callee arguments) : walkMixins term = some term := by
  cases term with
  | call callee arguments => exact absurd rfl (h callee arguments)
  | _ => rfl

theorem rootIdentifier_mixinChain (wrappers : List (Expr × List Expr)) (term : Expr)
    (h : ∀ callee arguments, term ≠ .call callee arguments) (b : String) :
    rootIdentifier (some (mixinChain wrappers term)) = some b ↔ term = .ident b := by
  simp only [rootIdentifier, walkClassMixins, walkMixins_mixinChain,
    walkMixins_of_not_call term h]
  cases term <;> simp

theorem isMatch_iff (n : List String) (c : String × Option Expr) :
    isMatch n c = true ↔ ∃ b, rootIdentifier c.2 = some b ∧ b ∈ n := by
  unfold isMatch
  cases h : rootIdentifier c.2 with
  | none => simp
  | some b => simp

theorem isMatch_mixinChain (n : List String) (X : String)
    (wrappers : List (Expr × List Expr)) (term : Expr)
    (h : ∀ callee arguments, term ≠ .call callee arguments) :
    isMatch n (X, some (mixinChain wrappers term)) = true ↔ ∃ b, term = .ident b ∧ b ∈ n := by
  rw [isMatch_iff]
  constructor
  · rintro ⟨b, hb, hn⟩
    exact ⟨b, (rootIdentifier_mixinChain wrappers term h b).1 hb, hn⟩
  · rintro ⟨b, hb, hn⟩
    exact ⟨b, (rootIdentifier_mixinChain wrappers term h b).2 hb, hn⟩

/-- C1: for a named class declaration `class X extends M1(M2(...Mn(T)...))`,
with any number `n ≥ 0` of wrapper calls around a term `T` that is not itself
a call, the class is registered if and only if `T` is an identifier whose name
is in the base-class name set: the visitor passes `X` to `injectRegister`, and
the statements inserted behind the class are the registration of `X`, exactly
in that case, and nothing is inserted otherwise.  The wrappers (their number,
their callees and further arguments) do not occur in the condition. -/
theorem C1_mixin_chain_registered_iff (n : List String) (X : String)
    (wrappers : List (Expr × List Expr)) (T : Expr) (body : List ClassMethod)
    (hT : ∀ callee arguments, T ≠ .call callee arguments) :
    (ClassDeclaration n (some X) (some (mixinChain wrappers T)) = some X ↔
        ∃ b, T = .ident b ∧ b ∈ n) ∧
    ((visitStmt n (.classDecl (some X) (some (mixinChain wrappers T)) body)).1.tail =
        [injectRegister X] ↔ ∃ b, T = .ident b ∧ b ∈ n) ∧
    ((visitStmt n (.classDecl (some X) (some (mixinChain wrappers T)) body)).1.tail = [] ↔
        ¬ ∃ b, T = .ident b ∧ b ∈ n) := by
  have hm := isMatch_mixinChain n X wrappers T hT
  have hv := ClassDeclaration_eq n (some X) (some (mixinChain wrappers T))
  have ht := visitStmt_inserted_eq n (.classDecl (some X) (some (mixinChain wrappers T)) body)
  simp only [Stmt.candidates] at ht
  rw [ht, ← hm]
  cases h : isMatch n (X, some (mixinChain wrappers T)) <;> simp [h] at hv <;>
    simp [hv, h, List.filter_cons]

/-- C1 at the test-suite module `class Foo extends OtherMixin(MyMixin(HTMLElement)) {}`. -/
theorem C1_mixin_chain_registered_iff_witness :
    (visitStmt ["HTMLElement"]
      (.classDecl (some "Foo")
        (some (mixinChain [(.ident "OtherMixin", []), (.ident "MyMixin", [])]
          (.ident "HTMLElement"))) [])).1.tail = [injectRegister "Foo"] :=
  (C1_mixin_chain_registered_iff ["HTMLElement"] "Foo"
    [(.ident "OtherMixin", []), (.ident "MyMixin", [])] (.ident "HTMLElement") []
    (by intro callee arguments h; cases h)).2.1.2 ⟨"HTMLElement", rfl, by simp⟩


/-! ## The text of the injected nodes -/

theorem append_left_cancel_iff (a s t b : String) : a ++ s ++ b = a ++ t ++ b ↔ s = t := by
  constructor
  · intro h
    have h2 := congrArg String.data h
    simp only [String.data_append, List.append_assoc] at h2
    have h3 := List.append_cancel_right (List.append_cancel_left h2)
    exact String.ext h3
  · intro h
    rw [h]

theorem isRegistration_injectRegister (X name : String) :
    isRegistration X (injectRegister name) = decide (name = X) := by
  simp only [isRegistration, injectRegister, parse]
  by_cases h : name = X
  · simp [h]
  · simp only [h, decide_False, beq_eq_false_iff_ne, ne_eq]
    intro h2
    exact h ((append_left_cancel_iff _ _ _ _).1 h2)

theorem prologueCode_head (patches : List String) :
    (prologueCode patches).data.head? = some 'i' := by
  cases patches with
  | nil => rfl
  | cons p ps =>
    cases ps with
    | nil =>
      simp [prologueCode, patchImports, joinWith, String.data_append, List.head?_append]
    | cons q qs =>
      simp [prologueCode, patchImports, joinWith, String.data_append, List.head?_append]

theorem prologueCode_ne_register (patches : List String) (name : String) :
    prologueCode patches ≠ WC_HMR_NAMESPACE ++ ".register(import.meta.url, " ++ name ++ ")" := by
  intro h
  have hh := prologueCode_head patches
  rw [h] at hh
  simp [String.data_append, WC_HMR_NAMESPACE] at hh

theorem isRegistration_prologue (X : String) (patches : List String) :
    isRegistration X (prologue patches) = false := by
  simp only [prologue, parse, isRegistration, beq_eq_false_iff_ne, ne_eq]
  exact prologueCode_ne_register patches X

theorem isPrologue_injectRegister (patches : List String) (name : String) :
    isPrologue patches (injectRegister name) = false := by
  simp only [injectRegister, parse, isPrologue, beq_eq_false_iff_ne, ne_eq]
  exact fun h => prologueCode_ne_register patches name h.symm

theorem isPrologue_prologue (patches : List String) :
    isPrologue patches (prologue patches) = true := by
  simp [prologue, parse, isPrologue]


/-! ## Counting registrations -/

theorem visitStmt_cons (n : List String) (s : Stmt) :
    ∃ s', (visitStmt n s).1 =
        s' :: ((s.candidates.filter (isMatch n)).map (fun c => injectRegister c.1)).reverse ∧
      ((∀ code, s ≠ .file code) → ∀ code, s' ≠ .file code) := by
  have ht := visitStmt_inserted_eq n s
  cases hl : (visitStmt n s).1 with
  | nil => exact absurd hl (visitStmt_ne_nil n s)
  | cons s' rest =>
    rw [hl] at ht
    simp only [List.tail_cons] at ht
    refine ⟨s', by rw [ht], ?_⟩
    intro hfile code
    cases s with
    | classDecl id superClass body =>
      cases hv : ClassDeclaration n id superClass <;>
        simp [visitStmt, hv] at hl <;> simp [← hl.1]
    | varDecl kind declarations => simp [visitStmt] at hl; simp [← hl.1]
    | block body => simp [visitStmt] at hl; simp [← hl.1]
    | funcDecl id params body => simp [visitStmt] at hl; simp [← hl.1]
    | exprStmt expression => simp [visitStmt] at hl; simp [← hl.1]
    | file code => exact absurd rfl (hfile code)

theorem isRegistration_of_not_file (X : String) (s : Stmt) (h : ∀ code, s ≠ .file code) :
    isRegistration X s = false := by
  cases s with
  | file code => exact absurd rfl (h code)
  | _ => rfl

theorem isPrologue_of_not_file (patches : List String) (s : Stmt)
    (h : ∀ code, s ≠ .file code) : isPrologue patches s = false := by
  cases s with
  | file code => exact absurd rfl (h code)
  | _ => rfl

theorem countP_registration_visitStmt (n : List String) (X : String) (s : Stmt)
    (hfile : ∀ code, s ≠ .file code) (hname : ∀ c ∈ s.candidates, c.1 ≠ X) :
    (visitStmt n s).1.countP (isRegistration X) = 0 := by
  obtain ⟨s', hs, hreg⟩ := visitStmt_cons n s
  rw [hs, List.countP_cons, isRegistration_of_not_file X s' (hreg hfile)]
  simp only [Bool.false_eq_true, if_false, Nat.add_zero, List.countP_reverse]
  rw [List.countP_eq_zero]
  intro r hr
  simp only [List.mem_map, List.mem_filter] at hr
  obtain ⟨c, ⟨hc, _⟩, rfl⟩ := hr
  simp [isRegistration_injectRegister, hname c hc]

theorem countP_prologue_visitStmt (n : List String) (patches : List String) (s : Stmt)
    (hfile : ∀ code, s ≠ .file code) :
    (visitStmt n s).1.countP (isPrologue patches) = 0 := by
  obtain ⟨s', hs, hreg⟩ := visitStmt_cons n s
  rw [hs, List.countP_cons, isPrologue_of_not_file patches s' (hreg hfile)]
  simp only [Bool.false_eq_true, if_false, Nat.add_zero, List.countP_reverse]
  rw [List.countP_eq_zero]
  intro r hr
  simp only [List.mem_map, List.mem_filter] at hr
  obtain ⟨c, _, rfl⟩ := hr
  simp [isPrologue_injectRegister]

theorem countP_prologue_visitStmts (n : List String) (patches : List String) (l : List Stmt)
    (hfile : ∀ s ∈ l, ∀ code, s ≠ .file code) :
    (visitStmts n l).1.countP (isPrologue patches) = 0 := by
  induction l with
  | nil => simp [visitStmts]
  | cons s ss ih =>
    simp only [visitStmts, List.countP_append]
    rw [countP_prologue_visitStmt n patches s (hfile s (List.mem_cons_self _ _)),
      ih (fun t ht => hfile t (List.mem_cons_of_mem _ ht))]

theorem countP_registration_visitStmts (n : List String) (X : String) (l : List Stmt)
    (hfile : ∀ s ∈ l, ∀ code, s ≠ .file code) (hname : ∀ s ∈ l, ∀ c ∈ s.candidates, c.1 ≠ X) :
    (visitStmts n l).1.countP (isRegistration X) = 0 := by
  induction l with
  | nil => simp [visitStmts]
  | cons s ss ih =>
    simp only [visitStmts, List.countP_append]
    rw [countP_registration_visitStmt n X s (hfile s (List.mem_cons_self _ _))
      (hname s (List.mem_cons_self _ _)),
      ih (fun t ht => hfile t (List.mem_cons_of_mem _ ht))
        (fun t ht => hname t (List.mem_cons_of_mem _ ht))]


/-! ## The transformed module -/

theorem babelPluginWcHmr_of_match (cwd filename : String)
    (opts : Option BabelPluginWcHmrOptions) (options : ParsedOptions) (body : List ModuleItem)
    (hf : truthy (some filename) = true) (ho : parseOptions cwd opts = .ok options)
    (hm : anyMatch (baseClassNames options (path.resolve cwd filename) body) body = true) :
    babelPluginWcHmr cwd (some filename) opts body =
      .ok (.statement (prologue (baseClassPatches options (path.resolve cwd filename) body)) ::
        (visitItems (baseClassNames options (path.resolve cwd filename) body) body).1) := by
  rw [babelPluginWcHmr_ok cwd filename opts options body hf ho, visitItems_flag, hm]
  rfl

theorem babelPluginWcHmr_of_no_match (cwd filename : String)
    (opts : Option BabelPluginWcHmrOptions) (options : ParsedOptions) (body : List ModuleItem)
    (hf : truthy (some filename) = true) (ho : parseOptions cwd opts = .ok options)
    (hm : anyMatch (baseClassNames options (path.resolve cwd filename) body) body = false) :
    babelPluginWcHmr cwd (some filename) opts body = .ok body := by
  rw [babelPluginWcHmr_ok cwd filename opts options body hf ho]
  have h := visitItems_flag (baseClassNames options (path.resolve cwd filename) body) body
  rw [hm] at h
  rw [h, visitItems_unchanged _ _ h]
  rfl

theorem anyMatch_of_topLevel (n : List String) (body : List ModuleItem) (s : Stmt)
    (c : String × Option Expr) (hs : s ∈ topLevel body) (hc : c ∈ s.candidates)
    (hm : isMatch n c = true) : anyMatch n body = true := by
  simp only [anyMatch, allStmtLists, List.any_cons, Bool.or_eq_true]
  left
  simp only [anyMatchIn, List.any_eq_true]
  exact ⟨s, hs, c, hc, hm⟩

theorem anyMatch_of_nested (n : List String) (body : List ModuleItem) (l : List Stmt)
    (s : Stmt) (c : String × Option Expr) (hl : l ∈ nestedStmtLists body) (hs : s ∈ l)
    (hc : c ∈ s.candidates) (hm : isMatch n c = true) : anyMatch n body = true := by
  simp only [anyMatch, allStmtLists, List.any_cons, Bool.or_eq_true]
  right
  simp only [anyMatchIn, List.any_eq_true]
  exact ⟨l, hl, s, hs, c, hc, hm⟩

theorem visitStmt_classDecl_of_match (n : List String) (X : String) (superClass : Option Expr)
    (clsBody : List ClassMethod) (hm : isMatch n (X, superClass) = true) :
    visitStmt n (.classDecl (some X) superClass clsBody) =
      ([.classDecl (some X) (visitOptExpr n superClass).1 (visitMethods n clsBody).1,
        injectRegister X], true) := by
  have hv := ClassDeclaration_eq n (some X) superClass
  simp [hm] at hv
  simp [visitStmt, hv]

theorem visitStmts_split (n : List String) (pre post : List Stmt) (s : Stmt) :
    (visitStmts n (pre ++ s :: post)).1 =
      (visitStmts n pre).1 ++ ((visitStmt n s).1 ++ (visitStmts n post).1) := by
  rw [visitStmts_append]
  simp [visitStmts]

theorem visitItems_split (n : List String) (pre post : List ModuleItem) (s : Stmt) :
    (visitItems n (pre ++ .statement s :: post)).1 =
      (visitItems n pre).1 ++ ((visitStmt n s).1.map .statement ++ (visitItems n post).1) := by
  rw [visitItems_append]
  simp [visitItems, visitItem]

/-- C2: in a module `pre ++ [class X extends ... {}] ++ post` whose class `X`
has a root identifier `B` in the resolved base-class name set, the plugin
returns the prologue, the traversal of `pre`, the class, the statement
`register(import.meta.url, X)` directly behind the class, and the traversal of
`post`.  When the input has no `File` node at its top level and no other
top-level class or variable named `X`, the top level of the output holds
exactly one registration of `X`.  The decomposition is arbitrary, so this
holds for each matching class of a module. -/
theorem C2_class_declaration_registered_once (cwd filename : String)
    (opts : Option BabelPluginWcHmrOptions) (options : ParsedOptions)
    (pre post : List ModuleItem) (X B : String) (superClass : Option Expr)
    (clsBody : List ClassMethod) (body : List ModuleItem) (names patches : List String)
    (hf : truthy (some filename) = true) (ho : parseOptions cwd opts = .ok options)
    (hbody : body = pre ++ .statement (.classDecl (some X) superClass clsBody) :: post)
    (hnames : names = baseClassNames options (path.resolve cwd filename) body)
    (hpatches : patches = baseClassPatches options (path.resolve cwd filename) body)
    (hroot : rootIdentifier superClass = some B) (hB : B ∈ names)
    (hparsed : ∀ s ∈ topLevel (pre ++ post), ∀ code, s ≠ .file code)
    (hunique : ∀ s ∈ topLevel (pre ++ post), ∀ c ∈ s.candidates, c.1 ≠ X) :
    ∃ out, babelPluginWcHmr cwd (some filename) opts body = .ok out ∧
      out = .statement (prologue patches) :: ((visitItems names pre).1 ++
        .statement (.classDecl (some X) (visitOptExpr names superClass).1
          (visitMethods names clsBody).1) ::
        .statement (injectRegister X) :: (visitItems names post).1) ∧
      injectRegister X = .file ("__$wc_hmr$__.register(import.meta.url, " ++ X ++ ")") ∧
      (topLevel out).countP (isRegistration X) = 1 := by
  have hm : isMatch names (X, superClass) = true := (isMatch_iff names _).2 ⟨B, hroot, hB⟩
  have hany : anyMatch names body = true := by
    refine anyMatch_of_topLevel names body (.classDecl (some X) superClass clsBody)
      (X, superClass) ?_ (by simp [Stmt.candidates]) hm
    rw [hbody, topLevel_append]
    simp [topLevel]
  have hsplit := visitItems_split names pre post (.classDecl (some X) superClass clsBody)
  rw [visitStmt_classDecl_of_match names X superClass clsBody hm] at hsplit
  refine ⟨_, ?_, rfl, ?_, ?_⟩
  · rw [hnames] at hany
    rw [babelPluginWcHmr_of_match cwd filename opts options body hf ho hany, ← hnames,
      ← hpatches]
    rw [hbody, hsplit]
    rfl
  · simp only [injectRegister, parse, WC_HMR_NAMESPACE, String.append_assoc]
    rfl
  · have hpre : ∀ s ∈ topLevel pre, s ∈ topLevel (pre ++ post) := by
      intro s hs; rw [topLevel_append]; exact List.mem_append_left _ hs
    have hpost : ∀ s ∈ topLevel post, s ∈ topLevel (pre ++ post) := by
      intro s hs; rw [topLevel_append]; exact List.mem_append_right _ hs
    simp only [topLevel, topLevel_append, topLevel_visitItems, List.countP_cons,
      List.countP_append, isRegistration_prologue, isRegistration_injectRegister]
    rw [countP_registration_visitStmts names X (topLevel pre)
        (fun s hs => hparsed s (hpre s hs)) (fun s hs => hunique s (hpre s hs)),
      countP_registration_visitStmts names X (topLevel post)
        (fun s hs => hparsed s (hpost s hs)) (fun s hs => hunique s (hpost s hs))]
    simp [isRegistration]


/-- C2 at the test-suite module with the classes `A`, `B` and `C`, for its
second class. -/
theorem C2_class_declaration_registered_once_witness :
    ∃ out,
      transform [.statement (emptyClass "A" "HTMLElement"),
          .statement (emptyClass "B" "HTMLElement"),
          .statement (emptyClass "C" "HTMLElement")] [globalBaseClass "HTMLElement"] =
        .ok out ∧
      out =
        [.statement (prologue []),
         .statement (emptyClass "A" "HTMLElement"), .statement (injectRegister "A"),
         .statement (emptyClass "B" "HTMLElement"), .statement (injectRegister "B"),
         .statement (emptyClass "C" "HTMLElement"), .statement (injectRegister "C")] ∧
      (topLevel out).countP (isRegistration "B") = 1 := by
  obtain ⟨out, h1, h2, _, h4⟩ :=
    C2_class_declaration_registered_once "/" testFilename
      (testOptions [globalBaseClass "HTMLElement"])
      ⟨[globalBaseClass "HTMLElement"], testRootDir⟩
      [.statement (emptyClass "A" "HTMLElement")]
      [.statement (emptyClass "C" "HTMLElement")]
      "B" "HTMLElement" (some (.ident "HTMLElement")) [] _ ["HTMLElement"] []
      rfl rfl rfl rfl rfl rfl (by simp)
      (by
        intro s hs code h
        simp [topLevel, emptyClass] at hs
        rcases hs with rfl | rfl <;> cases h)
      (by
        intro s hs c hc
        simp [topLevel, emptyClass] at hs
        rcases hs with rfl | rfl <;> simp [Stmt.candidates] at hc <;> simp [hc])
  exact ⟨out, h1, by rw [h2]; rfl, h4⟩

/-- C3: when some candidate of the module matches (however many do), the
plugin returns the module body with one node put in front of it, the
prologue.  Its code is, in this order, the patch imports (one per entry of
`baseClassPatches`, joined by line breaks), the import of the runtime module
as the namespace `__$wc_hmr$__`, and the guarded `import.meta.hot.accept`
call.  Everything behind the prologue is the traversed body: removing the
parsed nodes from the output gives the input without its parsed nodes, and
when the top level of the input has no `File` node the top level of the
output holds exactly one prologue. -/
theorem C3_single_prologue_first (cwd filename : String)
    (opts : Option BabelPluginWcHmrOptions) (options : ParsedOptions)
    (body : List ModuleItem) (names patches : List String)
    (hf : truthy (some filename) = true) (ho : parseOptions cwd opts = .ok options)
    (hnames : names = baseClassNames options (path.resolve cwd filename) body)
    (hpatches : patches = baseClassPatches options (path.resolve cwd filename) body)
    (hm : anyMatch names body = true) :
    ∃ out, babelPluginWcHmr cwd (some filename) opts body = .ok out ∧
      out = .statement (prologue patches) :: (visitItems names body).1 ∧
      prologue patches = .file
        (String.mk (joinWith ['\n'] ((patchImports patches).map String.data)) ++
          ("import * as __$wc_hmr$__ from '/__web-dev-server__/wc-hmr/runtime.js';" ++
            ("\n" ++ "if(import.meta.hot) { import.meta.hot.accept(() => { }) }"))) ∧
      patchImports patches =
        patches.map (fun i => "import '/__web-dev-server__/wc-hmr/patch/" ++ i ++ ".js';") ∧
      eraseItems out = eraseItems body ∧
      ((∀ s ∈ topLevel body, ∀ code, s ≠ .file code) →
        (topLevel out).countP (isPrologue patches) = 1) := by
  refine ⟨_, ?_, rfl, ?_, ?_, ?_, ?_⟩
  · rw [hnames] at hm
    rw [babelPluginWcHmr_of_match cwd filename opts options body hf ho hm, ← hnames,
      ← hpatches]
  · simp only [prologue, parse, prologueCode, WC_HMR_NAMESPACE, WC_HMR_MODULE_RUNTIME,
      String.append_assoc]
    rfl
  · rfl
  · simp [eraseItems, prologue, parse, eraseStmt, visitItems_erase]
  · intro hparsed
    simp only [topLevel, topLevel_visitItems, List.countP_cons, isPrologue_prologue]
    rw [countP_prologue_visitStmts names patches (topLevel body) hparsed]
    simp

/-- C3 at the test-suite module that imports a patched base class. -/
theorem C3_single_prologue_first_witness :
    ∃ out,
      transform [.importDeclaration "my-package" [.importSpecifier "MyBaseClass" "MyBaseClass"],
          .statement (emptyClass "Foo" "MyBaseClass")]
        [patchedBaseClass "MyBaseClass" "my-package" "patch code"] = .ok out ∧
      out =
        [.statement (.file ("import '/__web-dev-server__/wc-hmr/patch/0.js';" ++
            "import * as __$wc_hmr$__ from '/__web-dev-server__/wc-hmr/runtime.js';\n" ++
            "if(import.meta.hot) { import.meta.hot.accept(() => { }) }")),
         .importDeclaration "my-package" [.importSpecifier "MyBaseClass" "MyBaseClass"],
         .statement (emptyClass "Foo" "MyBaseClass"),
         .statement (injectRegister "Foo")] := by
  obtain ⟨out, h1, h2, _⟩ :=
    C3_single_prologue_first "/" testFilename
      (testOptions [patchedBaseClass "MyBaseClass" "my-package" "patch code"])
      ⟨[patchedBaseClass "MyBaseClass" "my-package" "patch code"], testRootDir⟩
      [.importDeclaration "my-package" [.importSpecifier "MyBaseClass" "MyBaseClass"],
       .statement (emptyClass "Foo" "MyBaseClass")]
      ["MyBaseClass"] ["0"] rfl rfl rfl rfl rfl
  exact ⟨out, h1, by rw [h2]; rfl⟩

/-- C4: when no candidate of the module matches the resolved base-class name
set, the plugin returns the module body as it received it: no prologue (so no
patch import, whatever the import declarations matched) and no registration. -/
theorem C4_no_match_module_unchanged (cwd filename : String)
    (opts : Option BabelPluginWcHmrOptions) (options : ParsedOptions)
    (body : List ModuleItem)
    (hf : truthy (some filename) = true) (ho : parseOptions cwd opts = .ok options)
    (hm : anyMatch (baseClassNames options (path.resolve cwd filename) body) body = false) :
    babelPluginWcHmr cwd (some filename) opts body = .ok body :=
  babelPluginWcHmr_of_no_match cwd filename opts options body hf ho hm

/-- C4 at the test-suite module whose classes extend unspecified elements:
its import declaration matches a descriptor that carries a patch, and index
`0` is in `baseClassPatches`, yet the module is returned as it is. -/
theorem C4_no_match_module_unchanged_witness :
    baseClassPatches
        ⟨[patchedBaseClass "HTMLElement" "my-package" "patch code",
          importedBaseClass "A" "my-package"], testRootDir⟩
        (path.resolve "/" testFilename)
        [.importDeclaration "my-package" [.importSpecifier "B" "B"],
         .statement (emptyClass "Foo" "A"),
         .statement (emptyClass "Bar" "B"),
         .statement (emptyClass "Baz" "NotHTMLElement")] = ["0"] ∧
    transform [.importDeclaration "my-package" [.importSpecifier "B" "B"],
        .statement (emptyClass "Foo" "A"),
        .statement (emptyClass "Bar" "B"),
        .statement (emptyClass "Baz" "NotHTMLElement")]
      [patchedBaseClass "HTMLElement" "my-package" "patch code",
        importedBaseClass "A" "my-package"] =
      .ok [.importDeclaration "my-package" [.importSpecifier "B" "B"],
        .statement (emptyClass "Foo" "A"),
        .statement (emptyClass "Bar" "B"),
        .statement (emptyClass "Baz" "NotHTMLElement")] :=
  ⟨rfl, C4_no_match_module_unchanged "/" testFilename
    (testOptions [patchedBaseClass "HTMLElement" "my-package" "patch code",
      importedBaseClass "A" "my-package"])
    ⟨[patchedBaseClass "HTMLElement" "my-package" "patch code",
      importedBaseClass "A" "my-package"], testRootDir⟩
    _ rfl rfl rfl⟩


theorem visitStmt_varDecl_of_match (n : List String) (kind A : String) (B : Option String)
    (superClass : Option Expr) (clsBody : List ClassMethod)
    (hm : isMatch n (A, superClass) = true) :
    visitStmt n (.varDecl kind [.mk (.identifier A) (some (.classExpr B superClass clsBody))]) =
      ([.varDecl kind
          [.mk (.identifier A) (some (visitExpr n (.classExpr B superClass clsBody)).1)],
        injectRegister A], true) := by
  have hv := visitInit_eq n (.identifier A) (.classExpr B superClass clsBody)
  simp [VariableDeclarator.candidate, hm] at hv
  simp [visitStmt, visitDeclarators, visitDeclarator, hv]

/-- C5: in a module `pre ++ [const A = class B extends ... {}] ++ post` whose
declarator binds the plain identifier `A` and whose class expression has a
root identifier in the resolved base-class name set, the plugin returns the
prologue, the traversal of `pre`, the variable declaration, the statement
`register(import.meta.url, A)` directly behind the declaration, and the
traversal of `post`; any statement list with such a declaration, at whatever
nesting level, is traversed in the same way.  The registration names the
variable `A`: it is not the registration of a different class name `B`.  The
declaration keeps its kind,
its binding and its class; it differs from the input at most by nodes parsed
into statement lists nested in the class, and it is the input declaration when
nothing nested in the class matches (as for an empty class body). -/
theorem C5_variable_class_expression_registered (cwd filename : String)
    (opts : Option BabelPluginWcHmrOptions) (options : ParsedOptions)
    (pre post : List ModuleItem) (kind A Base : String) (B : Option String)
    (superClass : Option Expr) (clsBody : List ClassMethod) (body : List ModuleItem)
    (names patches : List String)
    (hf : truthy (some filename) = true) (ho : parseOptions cwd opts = .ok options)
    (hbody : body = pre ++ .statement (.varDecl kind
      [.mk (.identifier A) (some (.classExpr B superClass clsBody))]) :: post)
    (hnames : names = baseClassNames options (path.resolve cwd filename) body)
    (hpatches : patches = baseClassPatches options (path.resolve cwd filename) body)
    (hroot : rootIdentifier superClass = some Base) (hBase : Base ∈ names) :
    babelPluginWcHmr cwd (some filename) opts body =
      .ok (.statement (prologue patches) :: ((visitItems names pre).1 ++
        .statement (.varDecl kind
          [.mk (.identifier A) (some (visitExpr names (.classExpr B superClass clsBody)).1)]) ::
        .statement (injectRegister A) :: (visitItems names post).1)) ∧
    (∀ lpre lpost : List Stmt,
      (visitStmts names (lpre ++ .varDecl kind
        [.mk (.identifier A) (some (.classExpr B superClass clsBody))] :: lpost)).1 =
      (visitStmts names lpre).1 ++ .varDecl kind
        [.mk (.identifier A) (some (visitExpr names (.classExpr B superClass clsBody)).1)] ::
        injectRegister A :: (visitStmts names lpost).1) ∧
    injectRegister A = .file ("__$wc_hmr$__.register(import.meta.url, " ++ A ++ ")") ∧
    (∀ b, B = some b → b ≠ A → isRegistration b (injectRegister A) = false) ∧
    eraseExpr (visitExpr names (.classExpr B superClass clsBody)).1 =
      eraseExpr (.classExpr B superClass clsBody) ∧
    ((stmtListsOptExpr superClass ++ stmtListsMethods clsBody).any (anyMatchIn names) = false →
      (visitExpr names (.classExpr B superClass clsBody)).1 = .classExpr B superClass clsBody) := by
  have hm : isMatch names (A, superClass) = true := (isMatch_iff names _).2 ⟨Base, hroot, hBase⟩
  have hany : anyMatch names body = true := by
    refine anyMatch_of_topLevel names body
      (.varDecl kind [.mk (.identifier A) (some (.classExpr B superClass clsBody))])
      (A, superClass) ?_ ?_ hm
    · rw [hbody, topLevel_append]
      simp [topLevel]
    · simp [Stmt.candidates, VariableDeclarator.candidate]
  have hsplit := visitItems_split names pre post
    (.varDecl kind [.mk (.identifier A) (some (.classExpr B superClass clsBody))])
  rw [visitStmt_varDecl_of_match names kind A B superClass clsBody hm] at hsplit
  refine ⟨?_, ?_, ?_, ?_, visitExpr_erase names _, ?_⟩
  · rw [hnames] at hany
    rw [babelPluginWcHmr_of_match cwd filename opts options body hf ho hany, ← hnames,
      ← hpatches]
    rw [hbody, hsplit]
    rfl
  · intro lpre lpost
    rw [visitStmts_split, visitStmt_varDecl_of_match names kind A B superClass clsBody hm]
    rfl
  · simp only [injectRegister, parse, WC_HMR_NAMESPACE, String.append_assoc]
    rfl
  · intro b _ hne
    simp [isRegistration_injectRegister, Ne.symm hne]
  · intro hnone
    apply visitExpr_unchanged
    rw [visitExpr_flag]
    simpa [Expr.stmtLists] using hnone

/-- C5 at the test-suite module `const A = class B extends HTMLElement {};`. -/
theorem C5_variable_class_expression_registered_witness :
    transform [.statement (.varDecl "const"
        [.mk (.identifier "A") (some (.classExpr (some "B") (some (.ident "HTMLElement")) []))])]
      [globalBaseClass "HTMLElement"] =
    .ok [.statement (prologue []),
      .statement (.varDecl "const"
        [.mk (.identifier "A") (some (.classExpr (some "B") (some (.ident "HTMLElement")) []))]),
      .statement (.file "__$wc_hmr$__.register(import.meta.url, A)")] :=
  (C5_variable_class_expression_registered "/" testFilename
    (testOptions [globalBaseClass "HTMLElement"])
    ⟨[globalBaseClass "HTMLElement"], testRootDir⟩ [] [] "const" "A" "HTMLElement" (some "B")
    (some (.ident "HTMLElement")) [] _ ["HTMLElement"] [] rfl rfl rfl rfl rfl rfl (by simp)).1

/-- C6: the visitor `ClassExpression` returns without injecting whenever the
parent of the class expression is not a variable declarator binding a plain
identifier, whatever the super class and the name set.  Accordingly the
statements inserted behind any statement are the registrations of its
candidates that match and nothing else: a class expression that is an array
element, a call argument, a parameter default or the initializer of a
destructuring pattern is no candidate, so none is inserted for it.  A module
without any candidate, at any nesting level, is returned as it is, without
registration and without prologue, for every configuration. -/
theorem C6_class_expression_elsewhere_never_registered :
    (∀ (n : List String) (parent : Parent) (superClass : Option Expr),
      (∀ idName, parent ≠ .variableDeclarator (.identifier idName)) →
        ClassExpression n parent superClass = none) ∧
    (∀ (n : List String) (s : Stmt),
      (visitStmt n s).1.tail =
        ((s.candidates.filter (isMatch n)).map (fun c => injectRegister c.1)).reverse) ∧
    (∀ (kind : String) (id : LVal) (e : Expr) (ps : List String) (callee : Expr)
        (elements arguments : List Expr) (f : String) (params : List Param) (b : List Stmt),
      (Stmt.exprStmt e).candidates = [] ∧
      (Stmt.funcDecl f params b).candidates = [] ∧
      (Stmt.varDecl kind [.mk id (some (.array elements))]).candidates = [] ∧
      (Stmt.varDecl kind [.mk id (some (.call callee arguments))]).candidates = [] ∧
      (Stmt.varDecl kind [.mk (.pattern ps) (some e)]).candidates = []) ∧
    (∀ (cwd filename : String) (opts : Option BabelPluginWcHmrOptions)
        (options : ParsedOptions) (body : List ModuleItem),
      truthy (some filename) = true → parseOptions cwd opts = .ok options →
      (∀ l ∈ allStmtLists body, ∀ s ∈ l, s.candidates = []) →
        babelPluginWcHmr cwd (some filename) opts body = .ok body) := by
  refine ⟨?_, visitStmt_inserted_eq, ?_, ?_⟩
  · intro n parent superClass h
    cases parent with
    | other => rfl
    | variableDeclarator id =>
      cases id with
      | identifier idName => exact absurd rfl (h idName)
      | pattern names => rfl
  · intro kind id e ps callee elements arguments f params b
    refine ⟨rfl, rfl, ?_, ?_, ?_⟩
    · cases id <;> rfl
    · cases id <;> rfl
    · cases e <;> rfl
  · intro cwd filename opts options body hf ho hnone
    apply babelPluginWcHmr_of_no_match cwd filename opts options body hf ho
    rw [Bool.eq_false_iff]
    intro h
    simp only [anyMatch, anyMatchIn, List.any_eq_true] at h
    obtain ⟨l, hl, s, hs, c, hc, _⟩ := h
    rw [hnone l hl s hs] at hc
    simp at hc

/-- C6 at the test-suite module with classes in unsupported locations: an
array, a call and a parameter default. -/
theorem C6_class_expression_elsewhere_never_registered_witness :
    transform
      [.statement (.varDecl "const" [.mk (.identifier "foo") (some (.array
          [.classExpr (some "A") (some (.ident "HTMLElement")) [],
           .classExpr (some "B") (some (.ident "HTMLElement")) []]))]),
       .statement (.exprStmt (.call (.member (.ident "console") "log")
          [.classExpr (some "C") (some (.ident "HTMLElement")) []])),
       .statement (.funcDecl "bar" [.mk (.identifier "x")
          (some (.classExpr (some "D") (some (.ident "HTMLElement")) []))] [])]
      [globalBaseClass "HTMLElement"] =
    .ok
      [.statement (.varDecl "const" [.mk (.identifier "foo") (some (.array
          [.classExpr (some "A") (some (.ident "HTMLElement")) [],
           .classExpr (some "B") (some (.ident "HTMLElement")) []]))]),
       .statement (.exprStmt (.call (.member (.ident "console") "log")
          [.classExpr (some "C") (some (.ident "HTMLElement")) []])),
       .statement (.funcDecl "bar" [.mk (.identifier "x")
          (some (.classExpr (some "D") (some (.ident "HTMLElement")) []))] [])] :=
  C6_class_expression_elsewhere_never_registered.2.2.2 "/" testFilename
    (testOptions [globalBaseClass "HTMLElement"])
    ⟨[globalBaseClass "HTMLElement"], testRootDir⟩ _ rfl rfl
    (by
      intro l hl s hs
      simp [allStmtLists, nestedStmtLists, topLevel, stmtListsStmts, Stmt.stmtLists,
        stmtListsDeclarators, VariableDeclarator.stmtLists, stmtListsOptExpr, Expr.stmtLists,
        stmtListsExprs, stmtListsMethods, stmtListsParams, Param.stmtLists] at hl
      rcases hl with rfl | rfl
      · simp at hs
        rcases hs with rfl | rfl | rfl <;> rfl
      · simp at hs)


/-- C7: a matching class declaration in a nested statement list of the module
(the body of a block, of a function or of a method or constructor, at any
depth) is registered there.  The nested statement lists of the output are the
traversals of the nested statement lists of the input, in the same order; the
traversal of the list `pre ++ [class X ...] ++ post` is the traversal of
`pre`, the class, the statement `register(import.meta.url, X)` directly behind
it, and the traversal of `post`; the top level of the output is the traversal
of the top level of the input, so nothing is added there for this class; and
the prologue is the first statement of the output, the only prologue at the
top level when the top level of the input has no `File` node. -/
theorem C7_nested_class_declaration_registered (cwd filename : String)
    (opts : Option BabelPluginWcHmrOptions) (options : ParsedOptions)
    (body : List ModuleItem) (names patches : List String) (l pre post : List Stmt)
    (X B : String) (superClass : Option Expr) (clsBody : List ClassMethod)
    (hf : truthy (some filename) = true) (ho : parseOptions cwd opts = .ok options)
    (hnames : names = baseClassNames options (path.resolve cwd filename) body)
    (hpatches : patches = baseClassPatches options (path.resolve cwd filename) body)
    (hl : l ∈ nestedStmtLists body)
    (hsplit : l = pre ++ .classDecl (some X) superClass clsBody :: post)
    (hroot : rootIdentifier superClass = some B) (hB : B ∈ names) :
    ∃ out, babelPluginWcHmr cwd (some filename) opts body =
        .ok (.statement (prologue patches) :: out) ∧
      nestedStmtLists out = (nestedStmtLists body).map (fun l => (visitStmts names l).1) ∧
      (visitStmts names l).1 ∈ nestedStmtLists out ∧
      (visitStmts names l).1 = (visitStmts names pre).1 ++
        .classDecl (some X) (visitOptExpr names superClass).1 (visitMethods names clsBody).1 ::
        injectRegister X :: (visitStmts names post).1 ∧
      topLevel out = (visitStmts names (topLevel body)).1 ∧
      ((∀ s ∈ topLevel body, ∀ code, s ≠ .file code) →
        (topLevel (.statement (prologue patches) :: out)).countP (isPrologue patches) = 1) := by
  have hm : isMatch names (X, superClass) = true := (isMatch_iff names _).2 ⟨B, hroot, hB⟩
  have hany : anyMatch names body = true := by
    refine anyMatch_of_nested names body l (.classDecl (some X) superClass clsBody)
      (X, superClass) hl ?_ (by simp [Stmt.candidates]) hm
    rw [hsplit]
    simp
  refine ⟨(visitItems names body).1, ?_, nestedStmtLists_visitItems names body, ?_, ?_,
    topLevel_visitItems names body, ?_⟩
  · rw [hnames] at hany
    rw [babelPluginWcHmr_of_match cwd filename opts options body hf ho hany, ← hnames,
      ← hpatches]
  · rw [nestedStmtLists_visitItems]
    exact List.mem_map.2 ⟨l, hl, rfl⟩
  · rw [hsplit, visitStmts_split, visitStmt_classDecl_of_match names X superClass clsBody hm]
    rfl
  · intro hparsed
    simp only [topLevel, topLevel_visitItems, List.countP_cons, isPrologue_prologue]
    rw [countP_prologue_visitStmts names patches (topLevel body) hparsed]
    simp

/-- C7 at the test-suite module with a class in a block, in a function and in
a constructor, for the class in the constructor. -/
theorem C7_nested_class_declaration_registered_witness :
    ∃ out,
      transform
        [.statement (.block [emptyClass "A" "HTMLElement"]),
         .statement (.funcDecl "myFunction" [] [emptyClass "B" "HTMLElement"]),
         .statement (.classDecl (some "NotAnElement") none
            [.mk "constructor" [] [emptyClass "C" "HTMLElement"]])]
        [globalBaseClass "HTMLElement"] = .ok (.statement (prologue []) :: out) ∧
      out =
        [.statement (.block [emptyClass "A" "HTMLElement", injectRegister "A"]),
         .statement (.funcDecl "myFunction" []
            [emptyClass "B" "HTMLElement", injectRegister "B"]),
         .statement (.classDecl (some "NotAnElement") none
            [.mk "constructor" [] [emptyClass "C" "HTMLElement", injectRegister "C"]])] ∧
      [emptyClass "C" "HTMLElement", injectRegister "C"] ∈ nestedStmtLists out := by
  obtain ⟨out, h1, _, h3, _, _, _⟩ :=
    C7_nested_class_declaration_registered "/" testFilename
      (testOptions [globalBaseClass "HTMLElement"])
      ⟨[globalBaseClass "HTMLElement"], testRootDir⟩
      [.statement (.block [emptyClass "A" "HTMLElement"]),
       .statement (.funcDecl "myFunction" [] [emptyClass "B" "HTMLElement"]),
       .statement (.classDecl (some "NotAnElement") none
          [.mk "constructor" [] [emptyClass "C" "HTMLElement"]])]
      ["HTMLElement"] [] [emptyClass "C" "HTMLElement"] [] [] "C" "HTMLElement"
      (some (.ident "HTMLElement")) [] rfl rfl rfl rfl
      (by simp [nestedStmtLists, topLevel, stmtListsStmts, Stmt.stmtLists, stmtListsParams,
        stmtListsOptExpr, stmtListsMethods, ClassMethod.stmtLists, emptyClass])
      rfl rfl (by simp)
  refine ⟨out, h1, ?_, h3⟩
  have h : transform
      [.statement (.block [emptyClass "A" "HTMLElement"]),
       .statement (.funcDecl "myFunction" [] [emptyClass "B" "HTMLElement"]),
       .statement (.classDecl (some "NotAnElement") none
          [.mk "constructor" [] [emptyClass "C" "HTMLElement"]])]
      [globalBaseClass "HTMLElement"] = .ok (.statement (prologue []) ::
        [.statement (.block [emptyClass "A" "HTMLElement", injectRegister "A"]),
         .statement (.funcDecl "myFunction" []
            [emptyClass "B" "HTMLElement", injectRegister "B"]),
         .statement (.classDecl (some "NotAnElement") none
            [.mk "constructor" [] [emptyClass "C" "HTMLElement", injectRegister "C"]])]) := rfl
  have h5 := h.symm.trans h1
  injection h5 with h5
  injection h5 with _ h5
  exact h5.symm


/-! ## The resolved base-class names -/

/-- The test that `getImportedBaseClassNames` applies to each specifier. -/
theorem mem_getImportedBaseClassNames (baseClasses : List BaseClass)
    (specifiers : List ImportSpecifier) (L : String) :
    L ∈ getImportedBaseClassNames baseClasses specifiers ↔
      (.importDefaultSpecifier L ∈ specifiers ∧ ∃ cl ∈ baseClasses, cl.name = some "default") ∨
      ∃ X, .importSpecifier X L ∈ specifiers ∧ ∃ cl ∈ baseClasses, cl.name = some X := by
  induction specifiers with
  | nil => simp [getImportedBaseClassNames]
  | cons sp rest ih =>
    cases sp with
    | importDefaultSpecifier l =>
      by_cases hd : ∃ cl ∈ baseClasses, cl.name = some "default"
      · have hd' : baseClasses.any (fun cl => cl.name == some "default") = true := by
          simpa [List.any_eq_true] using hd
        simp only [getImportedBaseClassNames, if_pos hd', List.mem_cons, ih]
        simp only [ImportSpecifier.importDefaultSpecifier.injEq, hd, and_true, false_or,
          reduceCtorEq]
        tauto
      · have hd' : ¬ baseClasses.any (fun cl => cl.name == some "default") = true := by
          simpa [List.any_eq_true] using hd
        simp only [getImportedBaseClassNames, if_neg hd', List.mem_cons, ih]
        simp only [ImportSpecifier.importDefaultSpecifier.injEq, hd, and_false, false_or,
          reduceCtorEq]
    | importNamespaceSpecifier l =>
      simp only [getImportedBaseClassNames, List.mem_cons, ih, reduceCtorEq, false_or]
    | importSpecifier imported l =>
      by_cases hd : ∃ cl ∈ baseClasses, cl.name = some imported
      · have hd' : baseClasses.any (fun cl => cl.name == some imported) = true := by
          simpa [List.any_eq_true] using hd
        simp only [getImportedBaseClassNames, if_pos hd', List.mem_cons, ih, reduceCtorEq,
          false_or, ImportSpecifier.importSpecifier.injEq]
        constructor
        · rintro (rfl | h | ⟨X, hX, hc⟩)
          · exact Or.inr ⟨imported, Or.inl ⟨rfl, rfl⟩, hd⟩
          · exact Or.inl h
          · exact Or.inr ⟨X, Or.inr hX, hc⟩
        · rintro (h | ⟨X, ⟨_, h⟩ | h, hc⟩)
          · exact Or.inr (Or.inl h)
          · exact Or.inl h
          · exact Or.inr (Or.inr ⟨X, h, hc⟩)
      · have hd' : ¬ baseClasses.any (fun cl => cl.name == some imported) = true := by
          simpa [List.any_eq_true] using hd
        simp only [getImportedBaseClassNames, if_neg hd', List.mem_cons, ih, reduceCtorEq,
          false_or, ImportSpecifier.importSpecifier.injEq]
        constructor
        · rintro (h | ⟨X, hX, hc⟩)
          · exact Or.inl h
          · exact Or.inr ⟨X, Or.inr hX, hc⟩
        · rintro (h | ⟨X, ⟨h1, _⟩ | h, hc⟩)
          · exact Or.inl h
          · rw [h1] at hc
            exact absurd hc hd
          · exact Or.inr ⟨X, h, hc⟩
theorem localName_of_mem_getImportedBaseClassNames (baseClasses : List BaseClass)
    (specifiers : List ImportSpecifier) (L : String)
    (h : L ∈ getImportedBaseClassNames baseClasses specifiers) :
    baseClasses ≠ [] ∧ ∃ sp ∈ specifiers, sp.localName = L := by
  rcases (mem_getImportedBaseClassNames baseClasses specifiers L).1 h with
    ⟨hs, cl, hcl, _⟩ | ⟨X, hs, cl, hcl, _⟩
  · exact ⟨List.ne_nil_of_mem hcl, _, hs, rfl⟩
  · exact ⟨List.ne_nil_of_mem hcl, _, hs, rfl⟩

theorem mem_globalBaseClassNames (baseClasses : List BaseClass) (A : String) :
    A ∈ globalBaseClassNames baseClasses ↔
      ∃ b ∈ baseClasses, truthy b.import_ = false ∧ b.name = some A := by
  induction baseClasses with
  | nil => simp [globalBaseClassNames]
  | cons b rest ih =>
    cases ht : truthy b.import_ with
    | true => simp [globalBaseClassNames, ht, ih]
    | false =>
      cases hn : b.name with
      | none => simp [globalBaseClassNames, ht, hn, ih]
      | some name =>
        simp only [globalBaseClassNames, ht, hn, Bool.not_false, if_true, List.mem_cons, ih,
          exists_eq_or_imp, Option.some.injEq, true_and]
        constructor
        · rintro (h | h)
          · exact Or.inl h.symm
          · exact Or.inr h
        · rintro (h | h)
          · exact Or.inl h.symm
          · exact Or.inr h

theorem mem_traverseImports (options : ParsedOptions) (resolvedFilename : String)
    (body : List ModuleItem) (A : String) :
    A ∈ (traverseImports options resolvedFilename body).1 ↔
      ∃ source specifiers, .importDeclaration source specifiers ∈ body ∧
        A ∈ (ImportDeclaration options resolvedFilename source specifiers).1 := by
  induction body with
  | nil => simp [traverseImports]
  | cons it rest ih =>
    cases it with
    | importDeclaration source specifiers =>
      simp only [traverseImports, List.mem_append, ih, List.mem_cons]
      constructor
      · rintro (h | ⟨s, sp, hm, h⟩)
        · exact ⟨source, specifiers, Or.inl rfl, h⟩
        · exact ⟨s, sp, Or.inr hm, h⟩
      · rintro ⟨s, sp, hm | hm, h⟩
        · injection hm with h1 h2
          subst h1 h2
          exact Or.inl h
        · exact Or.inr ⟨s, sp, hm, h⟩
    | statement s =>
      simp only [traverseImports, ih, List.mem_cons]
      constructor
      · rintro ⟨s, sp, hm, h⟩
        exact ⟨s, sp, Or.inr hm, h⟩
      · rintro ⟨s, sp, hm | hm, h⟩
        · cases hm
        · exact ⟨s, sp, hm, h⟩

/-- Membership in the resolved base-class name set. -/
theorem mem_baseClassNames (options : ParsedOptions) (resolvedFilename : String)
    (body : List ModuleItem) (A : String) :
    A ∈ baseClassNames options resolvedFilename body ↔
      (∃ b ∈ options.baseClasses, truthy b.import_ = false ∧ b.name = some A) ∨
      ∃ source specifiers, .importDeclaration source specifiers ∈ body ∧
        A ∈ getImportedBaseClassNames
          ((getBaseClassesForImport options.baseClasses source resolvedFilename
            options.rootDir).map (fun b => b.baseClass)) specifiers := by
  simp only [baseClassNames, List.mem_append, mem_globalBaseClassNames, mem_traverseImports,
    ImportDeclaration]


theorem visitStmt_classDecl_ident_of_mem (n : List String) (X L : String)
    (clsBody : List ClassMethod) (hL : L ∈ n) :
    visitStmt n (.classDecl (some X) (some (.ident L)) clsBody) =
      ([.classDecl (some X) (some (.ident L)) (visitMethods n clsBody).1,
        injectRegister X], true) := by
  rw [visitStmt_classDecl_of_match n X (some (.ident L)) clsBody
    ((isMatch_iff n _).2 ⟨L, rfl, hL⟩)]
  simp [visitOptExpr, visitExpr]

/-- C8: for a named import binding `{ X as L }` of an import declaration (the
only binding of the declaration with the local name `L`), the function
`getImportedBaseClassNames`, applied to the descriptors matched for the
declaration, includes `L` if and only if one of these descriptors has the name
`X`, the imported name.  In that case `L` is in the resolved base-class name
set of the module, and a class `Foo` extending `L` is registered with the
statement `register(import.meta.url, Foo)`, which names the class itself. -/
theorem C8_named_import_binding (options : ParsedOptions) (resolvedFilename : String)
    (body : List ModuleItem) (source : String) (specifiers : List ImportSpecifier)
    (X L : String) (matched : List BaseClass)
    (hmatched : matched = (getBaseClassesForImport options.baseClasses source
      resolvedFilename options.rootDir).map (fun b => b.baseClass))
    (hdecl : .importDeclaration source specifiers ∈ body)
    (hspec : .importSpecifier X L ∈ specifiers)
    (hbinding : ∀ sp ∈ specifiers, sp.localName = L → sp = .importSpecifier X L) :
    (L ∈ getImportedBaseClassNames matched specifiers ↔ ∃ cl ∈ matched, cl.name = some X) ∧
    ((∃ cl ∈ matched, cl.name = some X) →
      L ∈ baseClassNames options resolvedFilename body ∧
      ∀ (Foo : String) (clsBody : List ClassMethod),
        (visitStmt (baseClassNames options resolvedFilename body)
          (.classDecl (some Foo) (some (.ident L)) clsBody)).1 =
        [.classDecl (some Foo) (some (.ident L))
          (visitMethods (baseClassNames options resolvedFilename body) clsBody).1,
         injectRegister Foo]) := by
  have hiff : L ∈ getImportedBaseClassNames matched specifiers ↔
      ∃ cl ∈ matched, cl.name = some X := by
    rw [mem_getImportedBaseClassNames]
    constructor
    · rintro (⟨hd, _⟩ | ⟨X', hs, hc⟩)
      · exact absurd (hbinding _ hd rfl) (by simp)
      · have h := hbinding _ hs rfl
        injection h with h1 _
        rw [← h1]
        exact hc
    · intro h
      exact Or.inr ⟨X, hspec, h⟩
  refine ⟨hiff, ?_⟩
  intro h
  have hL : L ∈ baseClassNames options resolvedFilename body := by
    rw [mem_baseClassNames]
    exact Or.inr ⟨source, specifiers, hdecl, by rw [← hmatched]; exact hiff.2 h⟩
  refine ⟨hL, ?_⟩
  intro Foo clsBody
  rw [visitStmt_classDecl_ident_of_mem _ Foo L clsBody hL]

/-- C8 at the test-suite module
`import { MyElement as Bar } from 'my-package'; class Foo extends Bar {}`. -/
theorem C8_named_import_binding_witness :
    "Bar" ∈ getImportedBaseClassNames [importedBaseClass "MyElement" "my-package"]
      [.importSpecifier "MyElement" "Bar"] ∧
    transform [.importDeclaration "my-package" [.importSpecifier "MyElement" "Bar"],
        .statement (emptyClass "Foo" "Bar")] [importedBaseClass "MyElement" "my-package"] =
      .ok [.statement (prologue []),
        .importDeclaration "my-package" [.importSpecifier "MyElement" "Bar"],
        .statement (emptyClass "Foo" "Bar"),
        .statement (.file "__$wc_hmr$__.register(import.meta.url, Foo)")] :=
  ⟨((C8_named_import_binding
      ⟨[importedBaseClass "MyElement" "my-package"], testRootDir⟩
      (path.resolve "/" testFilename)
      [.importDeclaration "my-package" [.importSpecifier "MyElement" "Bar"],
        .statement (emptyClass "Foo" "Bar")]
      "my-package" [.importSpecifier "MyElement" "Bar"] "MyElement" "Bar"
      [importedBaseClass "MyElement" "my-package"] rfl (by simp) (by simp)
      (by
        intro sp hsp _
        simpa using hsp)).1).2 ⟨_, List.mem_singleton.2 rfl, rfl⟩, rfl⟩

/-- C9, the code against the claim: the module
`import MyElement from 'my-package'; class Foo extends MyElement {}` with the
single descriptor `MyElement`, which has no origin.  No descriptor is matched
for the import declaration, so none of them is named `default`; yet the local
name `MyElement` is in the resolved base-class name set and `Foo` is
registered. -/
theorem C9_default_binding_named_by_global_descriptor :
    (getBaseClassesForImport [globalBaseClass "MyElement"] "my-package"
      (path.resolve "/" testFilename) testRootDir).map (fun b => b.baseClass) = [] ∧
    baseClassNames ⟨[globalBaseClass "MyElement"], testRootDir⟩ (path.resolve "/" testFilename)
      [.importDeclaration "my-package" [.importDefaultSpecifier "MyElement"],
        .statement (emptyClass "Foo" "MyElement")] = ["MyElement"] ∧
    transform
      [.importDeclaration "my-package" [.importDefaultSpecifier "MyElement"],
        .statement (emptyClass "Foo" "MyElement")]
      [globalBaseClass "MyElement"] =
    .ok [.statement (prologue []),
      .importDeclaration "my-package" [.importDefaultSpecifier "MyElement"],
      .statement (emptyClass "Foo" "MyElement"),
      .statement (.file "__$wc_hmr$__.register(import.meta.url, Foo)")] :=
  ⟨rfl, rfl, rfl⟩

/-- C9, amended: let `import L from "m"` be a default-import binding of a
module in which `L` is bound by no other import specifier.  Its declaration
contributes `L` (the function `getImportedBaseClassNames` yields it) if and
only if some descriptor matched for the declaration has the name `default`.
The local name `L` is in the resolved base-class name set of the module if and
only if that holds or some descriptor without an origin has the name `L`.  A
descriptor with an origin whose name is `L` does not make the binding match:
when no matched descriptor is named `default` and every descriptor named `L`
has an origin, `L` is not in the name set and no class whose root identifier
is `L` is registered.  When `L` is in the name set, a class `Foo` extending
`L` is followed by its registration. -/
theorem C9_default_import_binding_in_name_set (options : ParsedOptions)
    (resolvedFilename : String) (body : List ModuleItem) (source : String)
    (specifiers : List ImportSpecifier) (L : String) (matched : List BaseClass)
    (hmatched : matched = (getBaseClassesForImport options.baseClasses source
      resolvedFilename options.rootDir).map (fun b => b.baseClass))
    (hdecl : .importDeclaration source specifiers ∈ body)
    (hspec : .importDefaultSpecifier L ∈ specifiers)
    (hbinding : ∀ source1 specifiers1, .importDeclaration source1 specifiers1 ∈ body →
      ∀ sp ∈ specifiers1, sp.localName = L →
        source1 = source ∧ specifiers1 = specifiers ∧ sp = .importDefaultSpecifier L) :
    (L ∈ getImportedBaseClassNames matched specifiers ↔
      ∃ cl ∈ matched, cl.name = some "default") ∧
    (L ∈ baseClassNames options resolvedFilename body ↔
      (∃ cl ∈ matched, cl.name = some "default") ∨
      ∃ b ∈ options.baseClasses, truthy b.import_ = false ∧ b.name = some L) ∧
    ((∀ cl ∈ matched, cl.name ≠ some "default") →
      (∀ b ∈ options.baseClasses, b.name = some L → truthy b.import_ = true) →
      L ∉ baseClassNames options resolvedFilename body ∧
      ∀ superClass, rootIdentifier superClass = some L →
        (∀ id, ClassDeclaration (baseClassNames options resolvedFilename body) id superClass =
          none) ∧
        (∀ parent, ClassExpression (baseClassNames options resolvedFilename body) parent
          superClass = none)) ∧
    (L ∈ baseClassNames options resolvedFilename body →
      ∀ (Foo : String) (clsBody : List ClassMethod),
        (visitStmt (baseClassNames options resolvedFilename body)
          (.classDecl (some Foo) (some (.ident L)) clsBody)).1 =
        [.classDecl (some Foo) (some (.ident L))
          (visitMethods (baseClassNames options resolvedFilename body) clsBody).1,
         injectRegister Foo]) := by
  have hiff : L ∈ getImportedBaseClassNames matched specifiers ↔
      ∃ cl ∈ matched, cl.name = some "default" := by
    rw [mem_getImportedBaseClassNames]
    constructor
    · rintro (⟨_, hc⟩ | ⟨X, hs, _⟩)
      · exact hc
      · exact absurd (hbinding source specifiers hdecl _ hs rfl).2.2 (by simp)
    · intro h
      exact Or.inl ⟨hspec, h⟩
  have hset : L ∈ baseClassNames options resolvedFilename body ↔
      (∃ cl ∈ matched, cl.name = some "default") ∨
      ∃ b ∈ options.baseClasses, truthy b.import_ = false ∧ b.name = some L := by
    rw [mem_baseClassNames]
    constructor
    · rintro (hg | ⟨source1, specifiers1, hd1, hmem⟩)
      · exact Or.inr hg
      · obtain ⟨_, sp, hsp, hl⟩ := localName_of_mem_getImportedBaseClassNames _ _ _ hmem
        obtain ⟨hs1, hs2, _⟩ := hbinding source1 specifiers1 hd1 sp hsp hl
        subst hs1
        subst hs2
        rw [← hmatched] at hmem
        exact Or.inl (hiff.1 hmem)
    · rintro (hd | hg)
      · exact Or.inr ⟨source, specifiers, hdecl, by rw [← hmatched]; exact hiff.2 hd⟩
      · exact Or.inl hg
  refine ⟨hiff, hset, ?_, ?_⟩
  · intro hno horigin
    have hL : L ∉ baseClassNames options resolvedFilename body := by
      rw [hset]
      rintro (⟨cl, hcl, hn⟩ | ⟨b, hb, ht, hn⟩)
      · exact hno cl hcl hn
      · rw [horigin b hb hn] at ht
        cases ht
    refine ⟨hL, ?_⟩
    intro superClass hroot
    have hm : ∀ X, isMatch (baseClassNames options resolvedFilename body) (X, superClass) =
        false := by
      intro X
      rw [Bool.eq_false_iff]
      intro h
      obtain ⟨b, hb, hn⟩ := (isMatch_iff _ _).1 h
      rw [hroot] at hb
      injection hb with hb
      rw [← hb] at hn
      exact hL hn
    constructor
    · intro id
      rw [ClassDeclaration_eq]
      cases id with
      | none => rfl
      | some i => simp [hm i]
    · intro parent
      cases parent with
      | other => rfl
      | variableDeclarator id =>
        cases id with
        | pattern names => rfl
        | identifier i =>
          rw [ClassExpression_eq]
          simp [hm i]
  · intro hL Foo clsBody
    rw [visitStmt_classDecl_ident_of_mem _ Foo L clsBody hL]

/-- C9, amended, at the import `import A, { B, C } from 'my-package'` of the
test-suite: `A` is in the name set through the descriptor named `default`. -/
theorem C9_default_import_binding_in_name_set_witness :
    "A" ∈ baseClassNames
      ⟨[importedBaseClass "default" "my-package", importedBaseClass "A" "my-package"],
        testRootDir⟩
      (path.resolve "/" testFilename)
      [.importDeclaration "my-package"
        [.importDefaultSpecifier "A", .importSpecifier "B" "B", .importSpecifier "C" "C"],
        .statement (emptyClass "Foo" "A")] :=
  ((C9_default_import_binding_in_name_set
      ⟨[importedBaseClass "default" "my-package", importedBaseClass "A" "my-package"],
        testRootDir⟩
      (path.resolve "/" testFilename)
      [.importDeclaration "my-package"
        [.importDefaultSpecifier "A", .importSpecifier "B" "B", .importSpecifier "C" "C"],
        .statement (emptyClass "Foo" "A")]
      "my-package"
      [.importDefaultSpecifier "A", .importSpecifier "B" "B", .importSpecifier "C" "C"] "A"
      [importedBaseClass "default" "my-package", importedBaseClass "A" "my-package"]
      rfl (by simp) (by simp)
      (by
        intro source1 specifiers1 hd sp hsp hl
        simp at hd
        obtain ⟨h1, h2⟩ := hd
        subst h1
        subst h2
        refine ⟨rfl, rfl, ?_⟩
        simp at hsp
        rcases hsp with rfl | rfl | rfl
        · rfl
        · simp [ImportSpecifier.localName] at hl
        · simp [ImportSpecifier.localName] at hl)).2.1).2
    (Or.inl ⟨_, List.mem_cons_self _ _, rfl⟩)

/-- C10: a descriptor with an origin puts a name into the resolved base-class
name set only through an import binding.  If every descriptor named `A` has
an origin, and no import declaration of the module whose source matches a
descriptor binds the local name `A`, then `A` is not in the resolved name set
and no class whose root identifier is `A` is registered: neither visitor
injects for it, at any class name and any parent. -/
theorem C10_origin_descriptor_needs_import_binding (options : ParsedOptions)
    (resolvedFilename : String) (body : List ModuleItem) (A : String)
    (horigin : ∀ b ∈ options.baseClasses, b.name = some A → truthy b.import_ = true)
    (hbinding : ∀ source specifiers, .importDeclaration source specifiers ∈ body →
      getBaseClassesForImport options.baseClasses source resolvedFilename options.rootDir ≠ [] →
      ∀ sp ∈ specifiers, sp.localName ≠ A) :
    A ∉ baseClassNames options resolvedFilename body ∧
    ∀ superClass, rootIdentifier superClass = some A →
      (∀ id, ClassDeclaration (baseClassNames options resolvedFilename body) id superClass =
        none) ∧
      (∀ parent, ClassExpression (baseClassNames options resolvedFilename body) parent
        superClass = none) := by
  have hA : A ∉ baseClassNames options resolvedFilename body := by
    rw [mem_baseClassNames]
    rintro (⟨b, hb, ht, hn⟩ | ⟨source, specifiers, hdecl, hmem⟩)
    · rw [horigin b hb hn] at ht
      cases ht
    · obtain ⟨hne, sp, hsp, hl⟩ := localName_of_mem_getImportedBaseClassNames _ _ _ hmem
      refine hbinding source specifiers hdecl ?_ sp hsp hl
      intro h
      rw [h] at hne
      exact hne rfl
  refine ⟨hA, ?_⟩
  intro superClass hroot
  have hm : ∀ X, isMatch (baseClassNames options resolvedFilename body) (X, superClass) =
      false := by
    intro X
    rw [Bool.eq_false_iff]
    intro h
    obtain ⟨b, hb, hn⟩ := (isMatch_iff _ _).1 h
    rw [hroot] at hb
    injection hb with hb
    rw [← hb] at hn
    exact hA hn
  constructor
  · intro id
    rw [ClassDeclaration_eq]
    cases id with
    | none => rfl
    | some i => simp [hm i]
  · intro parent
    cases parent with
    | other => rfl
    | variableDeclarator id =>
      cases id with
      | pattern names => rfl
      | identifier i =>
        rw [ClassExpression_eq]
        simp [hm i]

/-- C10 at the test-suite module whose class `Foo` extends `A`: the module
imports `B` from the origin of the descriptor named `A`, and is returned as it
is. -/
theorem C10_origin_descriptor_needs_import_binding_witness :
    "A" ∉ baseClassNames
      ⟨[importedBaseClass "HTMLElement" "my-package", importedBaseClass "A" "my-package"],
        testRootDir⟩
      (path.resolve "/" testFilename)
      [.importDeclaration "my-package" [.importSpecifier "B" "B"],
        .statement (emptyClass "Foo" "A")] ∧
    transform [.importDeclaration "my-package" [.importSpecifier "B" "B"],
        .statement (emptyClass "Foo" "A")]
      [importedBaseClass "HTMLElement" "my-package", importedBaseClass "A" "my-package"] =
      .ok [.importDeclaration "my-package" [.importSpecifier "B" "B"],
        .statement (emptyClass "Foo" "A")] :=
  ⟨(C10_origin_descriptor_needs_import_binding
      ⟨[importedBaseClass "HTMLElement" "my-package", importedBaseClass "A" "my-package"],
        testRootDir⟩
      (path.resolve "/" testFilename)
      [.importDeclaration "my-package" [.importSpecifier "B" "B"],
        .statement (emptyClass "Foo" "A")] "A"
      (by
        intro b hb _
        simp at hb
        rcases hb with rfl | rfl <;> rfl)
      (by
        intro source specifiers hdecl _ sp hsp
        simp at hdecl
        obtain ⟨_, rfl⟩ := hdecl
        simp at hsp
        rw [hsp]
        decide)).1, rfl⟩


/-! ## Decimal numerals -/

theorem digitChar_value (k : Nat) (h : k < 10) :
    (Nat.digitChar k).toNat - '0'.toNat = k := by
  interval_cases k <;> rfl

theorem decimalValue_append_singleton (ds : List Char) (c : Char) :
    decimalValue (ds ++ [c]) = decimalValue ds * 10 + (c.toNat - '0'.toNat) := by
  simp [decimalValue, List.foldl_append]

theorem toDigitsCore_decimalValue (fuel : Nat) :
    ∀ (n : Nat) (ds : List Char), n < fuel →
      ∃ digits, Nat.toDigitsCore 10 fuel n ds = digits ++ ds ∧ decimalValue digits = n := by
  induction fuel with
  | zero => intro n ds h; omega
  | succ fuel ih =>
    intro n ds h
    simp only [Nat.toDigitsCore]
    by_cases h0 : n / 10 = 0
    · refine ⟨[Nat.digitChar (n % 10)], by simp [h0], ?_⟩
      have hn : n < 10 := by omega
      have := decimalValue_append_singleton [] (Nat.digitChar (n % 10))
      simp only [List.nil_append] at this
      rw [this, digitChar_value _ (Nat.mod_lt _ (by omega))]
      simp [decimalValue]
      omega
    · obtain ⟨digits, hd, hv⟩ := ih (n / 10) (Nat.digitChar (n % 10) :: ds) (by omega)
      refine ⟨digits ++ [Nat.digitChar (n % 10)], by simp [h0, hd], ?_⟩
      rw [decimalValue_append_singleton, hv, digitChar_value _ (Nat.mod_lt _ (by omega))]
      omega

/-- The decimal numeral of a number writes that number. -/
theorem decimalValue_toString (n : Nat) : decimalValue (toString n).data = n := by
  obtain ⟨digits, hd, hv⟩ := toDigitsCore_decimalValue (n + 1) n [] (by omega)
  have : (toString n).data = digits := by
    show (Nat.repr n).data = digits
    simp [Nat.repr, Nat.toDigits, hd, List.asString]
  rw [this, hv]

theorem toString_injective (i j : Nat) (h : toString i = toString j) : i = j := by
  have := congrArg (fun s : String => decimalValue s.data) h
  simpa [decimalValue_toString] using this

theorem patchImportOf_injective (i j : Nat) (h : patchImportOf i = patchImportOf j) : i = j :=
  toString_injective i j ((append_left_cancel_iff _ _ _ _).1 h)

theorem patchImports_eq (patches : List Nat) :
    patchImports (patches.map toString) = patches.map patchImportOf := by
  simp only [patchImports, patchImportOf, WC_HMR_MODULE_PATCHES, List.map_map]
  apply List.map_congr_left
  intro i _
  simp only [Function.comp, String.append_assoc]
  rfl

/-! ## Splitting and joining -/

theorem splitSlash_ne_nil (cs : List Char) : splitSlash cs ≠ [] := by
  induction cs with
  | nil => simp [splitSlash]
  | cons c cs ih =>
    simp only [splitSlash]
    split
    · simp
    · split <;> simp

theorem joinWith_cons_cons (seg : List Char) (s : List Char) (ss : List (List Char)) :
    joinWith ['/'] (seg :: s :: ss) = seg ++ '/' :: joinWith ['/'] (s :: ss) := by
  simp [joinWith]

theorem joinWith_splitSlash (cs : List Char) : joinWith ['/'] (splitSlash cs) = cs := by
  induction cs with
  | nil => rfl
  | cons c cs ih =>
    simp only [splitSlash]
    split
    · next h =>
      cases hs : splitSlash cs with
      | nil => exact absurd hs (splitSlash_ne_nil cs)
      | cons s ss =>
        rw [hs] at ih
        rw [joinWith_cons_cons, ih, h]
        rfl
    · cases hs : splitSlash cs with
      | nil => exact absurd hs (splitSlash_ne_nil cs)
      | cons s ss =>
        rw [hs] at ih
        simp only
        cases ss with
        | nil =>
          simp only [joinWith] at ih ⊢
          rw [ih]
        | cons t ts =>
          rw [joinWith_cons_cons] at ih ⊢
          rw [← ih]
          rfl

theorem platformPath_eq (s : String) : String.mk (joinWith path.sep (splitSlash s.data)) = s := by
  show String.mk (joinWith ['/'] (splitSlash s.data)) = s
  rw [joinWith_splitSlash]


/-! ## Facts about the paths -/

theorem truthy_some_iff (s : String) : truthy (some s) = true ↔ s ≠ "" := by
  simp only [truthy, Bool.not_eq_true', List.isEmpty_eq_false]
  constructor
  · intro h he
    rw [he] at h
    exact h rfl
  · intro h he
    exact h (String.ext he)

theorem startsWith_slash_iff (s : String) :
    startsWith s "/" = true ↔ ∃ rest, s.data = '/' :: rest := by
  simp only [startsWith]
  cases h : s.data with
  | nil => simp [List.isPrefixOf]
  | cons c cs =>
    show List.isPrefixOf ['/'] (c :: cs) = true ↔ _
    simp only [List.isPrefixOf, Bool.and_true, beq_iff_eq, List.cons.injEq]
    constructor
    · intro h
      exact ⟨cs, h.symm, rfl⟩
    · rintro ⟨r, h, _⟩
      exact h.symm

theorem startsWith_dotSlash_not_slash (s : String) (h : startsWith s "./" = true) :
    startsWith s "/" = false := by
  simp only [startsWith] at h ⊢
  cases hs : s.data with
  | nil => rw [hs] at h; simp [List.isPrefixOf] at h
  | cons c cs =>
    rw [hs] at h
    have h1 : List.isPrefixOf ['.', '/'] (c :: cs) = true := h
    have hc : c = '.' := by
      simp [List.isPrefixOf] at h1
      exact h1.1.symm
    show List.isPrefixOf ['/'] (c :: cs) = false
    rw [hc]
    simp [List.isPrefixOf]

theorem normalize_ne_nil (p : List Char) : path.normalize p ≠ [] := by
  unfold path.normalize
  cases p with
  | nil => simp
  | cons c cs =>
    simp only
    split
    · split
      · simp
      · split <;> simp
    · next h =>
      split
      · simp
      · split
        · simp
        · exact h

theorem normalize_absolute (cs : List Char) :
    ∃ rest, path.normalize ('/' :: cs) = '/' :: rest := by
  simp only [path.normalize, if_true]
  split
  · exact ⟨[], rfl⟩
  · exact ⟨_, rfl⟩

/-- The result of `path.join` is never the empty string. -/
theorem join_ne_empty (a b : String) : path.join a b ≠ "" := by
  unfold path.join
  simp only
  split
  · decide
  · intro h
    have := congrArg String.data h
    exact normalize_ne_nil _ this

theorem join_truthy (a b : String) : truthy (some (path.join a b)) = true :=
  (truthy_some_iff _).2 (join_ne_empty a b)

/-- Joining onto an absolute path gives an absolute path. -/
theorem join_absolute (a b : String) (ha : startsWith a "/" = true) :
    startsWith (path.join a b) "/" = true := by
  obtain ⟨rest, hr⟩ := (startsWith_slash_iff a).1 ha
  rw [startsWith_slash_iff]
  unfold path.join
  simp only [hr, List.filter_cons, List.isEmpty_cons, Bool.not_false, if_true]
  cases hb : b.data with
  | nil =>
    simp only [List.filter_cons, List.isEmpty_nil, Bool.not_true, List.filter_nil, joinWith]
    obtain ⟨r, hn⟩ := normalize_absolute rest
    exact ⟨r, by simp [hn]⟩
  | cons c cs =>
    simp only [List.filter_cons, List.isEmpty_cons, Bool.not_false, if_true, List.filter_nil,
      joinWith, List.cons_append]
    obtain ⟨r, hn⟩ := normalize_absolute (rest ++ '/' :: c :: cs)
    exact ⟨r, by simp [hn]⟩

/-- The directory of an absolute path is an absolute path. -/
theorem dirname_absolute (p : String) (hp : startsWith p "/" = true) :
    startsWith (path.dirname p) "/" = true := by
  obtain ⟨rest, hr⟩ := (startsWith_slash_iff p).1 hp
  rw [startsWith_slash_iff]
  unfold path.dirname
  simp only [hr]
  split
  · exact ⟨[], by simp⟩
  · split
    · exact ⟨['/'], rfl⟩
    · exact ⟨_, rfl⟩

theorem resolve_absolute (cwd p : String) : startsWith (path.resolve cwd p) "/" = true := by
  rw [startsWith_slash_iff]
  exact ⟨_, rfl⟩

theorem resolve_truthy (cwd p : String) : truthy (some (path.resolve cwd p)) = true := by
  rw [truthy_some_iff]
  intro h
  have := congrArg String.data h
  simp [path.resolve] at this

theorem extname_isEmpty_iff (p : String) :
    (path.extname p).data.isEmpty = true ↔ path.extname p = "" := by
  rw [List.isEmpty_iff]
  constructor
  · intro h
    exact String.ext h
  · intro h
    rw [h]


/-! ## The descriptors selected for an import -/

theorem mem_withIndexFrom (start : Nat) (l : List BaseClass) (x : IndexedBaseClass) :
    x ∈ withIndexFrom start l ↔ ∃ j, l[j]? = some x.baseClass ∧ x.i = start + j := by
  induction l generalizing start with
  | nil => simp [withIndexFrom]
  | cons b rest ih =>
    simp only [withIndexFrom, List.mem_cons, ih]
    constructor
    · rintro (h | ⟨j, hj, hi⟩)
      · exact ⟨0, by simp [h], by simp [h]⟩
      · exact ⟨j + 1, by simpa using hj, by omega⟩
    · rintro ⟨j, hj, hi⟩
      cases j with
      | zero =>
        left
        cases x with
        | mk xb xi =>
          simp at hj hi
          simp [hj, hi]
      | succ j =>
        right
        exact ⟨j, by simpa using hj, by omega⟩

/-- The function `getBaseClassesForImport` selects the descriptor at position
`i` exactly when the filter callback accepts it. -/
theorem mem_getBaseClassesForImport (baseClasses : List BaseClass)
    (importSpecifier filename rootDir : String) (b : BaseClass) (i : Nat) :
    ⟨b, i⟩ ∈ getBaseClassesForImport baseClasses importSpecifier filename rootDir ↔
      baseClasses[i]? = some b ∧ matchesImport importSpecifier filename rootDir b = true := by
  simp only [getBaseClassesForImport, List.mem_filter, mem_withIndexFrom]
  constructor
  · rintro ⟨⟨j, hj, hi⟩, hm⟩
    simp only [Nat.zero_add] at hi
    rw [hi]
    exact ⟨hj, hm⟩
  · rintro ⟨hj, hm⟩
    exact ⟨⟨i, hj, by simp⟩, hm⟩

theorem matchesImport_of_no_origin (importSpecifier filename rootDir : String) (b : BaseClass)
    (h : truthy b.import_ = false) : matchesImport importSpecifier filename rootDir b = false := by
  unfold matchesImport
  cases hi : b.import_ with
  | none => rfl
  | some imp =>
    rw [hi] at h
    simp [h]

/-- The filter callback for a bare import specifier. -/
theorem matchesImport_bare (s filename rootDir : String) (b : BaseClass) (o : String)
    (h1 : startsWith s "./" = false) (h2 : startsWith s "/" = false)
    (ho : b.import_ = some o) (ht : truthy (some o) = true) :
    matchesImport s filename rootDir b = true ↔
      (s = o ∨ (path.extname o = "" ∧ o ++ ".js" = s)) := by
  unfold matchesImport
  simp only [ho, ht, h1, h2, Bool.not_true, Bool.false_eq_true, if_false, Bool.or_false]
  by_cases he : o = s
  · simp [he]
  · have he' : (o == s) = false := by simpa using he
    simp only [he', Bool.false_eq_true, if_false]
    by_cases hx : ((path.extname o).data.isEmpty && (o ++ ".js" == s)) = true
    · simp only [hx, if_true, true_iff]
      simp only [Bool.and_eq_true, extname_isEmpty_iff, beq_iff_eq] at hx
      exact Or.inr hx
    · simp only [hx, if_false, Bool.false_eq_true, false_iff]
      simp only [Bool.and_eq_true, extname_isEmpty_iff, beq_iff_eq] at hx
      rintro (h | h)
      · exact he h.symm
      · exact hx h

/-- The filter callback for an import specifier that starts with `./` or
with `/`. -/
theorem matchesImport_relative (s filename rootDir : String) (b : BaseClass)
    (h : startsWith s "./" = true ∨ startsWith s "/" = true) :
    matchesImport s filename rootDir b = true ↔
      b.import_ = some
        (path.join (if startsWith s "/" = true then rootDir else path.dirname filename) s) := by
  have hor : (startsWith s "./" || startsWith s "/") = true := by
    rcases h with h | h <;> simp [h]
  unfold matchesImport
  cases ho : b.import_ with
  | none => simp
  | some o =>
    by_cases ht : truthy (some o) = true
    · simp only [ht, hor, platformPath_eq, Bool.not_true, Bool.false_eq_true, if_false, if_true,
        beq_iff_eq, Option.some.injEq]
      exact eq_comm
    · have ht' : truthy (some o) = false := by simpa using ht
      simp only [ht', Bool.not_false, if_true, Bool.false_eq_true, false_iff, Option.some.injEq]
      intro he
      rw [he, join_truthy] at ht'
      cases ht'

/-! ## The result of `parseOptions` -/

theorem parseBaseClasses_eq (cwd : String) (l : List BaseClass) :
    parseBaseClasses cwd l =
      if l.all (fun b => truthy b.name) = true then .ok (l.map (parseBaseClass cwd))
      else .error (createError "Missing name option in base class") := by
  induction l with
  | nil => simp [parseBaseClasses]
  | cons b rest ih =>
    simp only [parseBaseClasses, List.all_cons, List.map_cons, ih]
    cases hb : truthy b.name with
    | false => simp
    | true =>
      cases hr : rest.all (fun b => truthy b.name) <;> simp

theorem parseBaseClasses_ok_iff (cwd : String) (l : List BaseClass) :
    (∀ b ∈ l, truthy b.name = true) ↔
      parseBaseClasses cwd l = .ok (l.map (parseBaseClass cwd)) := by
  rw [parseBaseClasses_eq]
  by_cases h : l.all (fun b => truthy b.name) = true
  · simp only [h, if_true, iff_true]
    simpa using h
  · simp only [h, if_false, reduceCtorEq, iff_false]
    simpa using h

theorem parseBaseClasses_error_iff (cwd : String) (l : List BaseClass) :
    (∃ b ∈ l, truthy b.name = false) ↔
      parseBaseClasses cwd l = .error (createError "Missing name option in base class") := by
  rw [parseBaseClasses_eq]
  by_cases h : l.all (fun b => truthy b.name) = true
  · simp only [h, if_true, reduceCtorEq, iff_false]
    simp only [List.all_eq_true] at h
    rintro ⟨b, hb, hf⟩
    rw [h b hb] at hf
    cases hf
  · simp only [h, if_false, iff_true]
    simpa using h

theorem parseBaseClass_of_no_origin (cwd : String) (b : BaseClass)
    (h : truthy b.import_ = false) : parseBaseClass cwd b = b := by
  unfold parseBaseClass
  cases hi : b.import_ with
  | none => rfl
  | some imp =>
    rw [hi] at h
    simp [h]

theorem parseBaseClass_name_patch (cwd : String) (b : BaseClass) :
    (parseBaseClass cwd b).name = b.name ∧ (parseBaseClass cwd b).patch = b.patch := by
  unfold parseBaseClass
  cases hi : b.import_ with
  | none => simp
  | some imp => by_cases ht : truthy (some imp) = true <;> simp [ht]

theorem parseBaseClass_origin (cwd : String) (b : BaseClass) (o : String)
    (ho : b.import_ = some o) (ht : truthy (some o) = true) :
    parseBaseClass cwd b =
      { b with import_ := some (if startsWith o "./" = true then path.resolve cwd o else o) } := by
  unfold parseBaseClass
  simp only [ho, ht, platformPath_eq, Bool.not_true, Bool.false_eq_true, if_false]


theorem parseOptions_ok_iff (cwd : String) (opts : Option BabelPluginWcHmrOptions)
    (options : ParsedOptions) :
    parseOptions cwd opts = .ok options ↔
      ∃ l rootDir, opts = some ⟨.array l, some rootDir⟩ ∧ truthy (some rootDir) = true ∧
        (∀ b ∈ l, truthy b.name = true) ∧ options = ⟨l.map (parseBaseClass cwd), rootDir⟩ := by
  cases opts with
  | none => simp [parseOptions]
  | some o =>
    cases o with
    | mk bcs rd =>
      cases rd with
      | none => simp [parseOptions]
      | some rootDir =>
        cases ht : truthy (some rootDir) with
        | false =>
          simp only [parseOptions, ht, Bool.not_false, if_true, reduceCtorEq, false_iff]
          rintro ⟨l, r, h, hr, _⟩
          injection h with h
          injection h with _ h
          injection h with h
          rw [← h, ht] at hr
          cases hr
        | true =>
          cases bcs with
          | missing => simp [parseOptions, ht]
          | notArray => simp [parseOptions, ht]
          | array l =>
            simp only [parseOptions, ht, Bool.not_true, Bool.false_eq_true, if_false,
              parseBaseClasses_eq]
            by_cases hall : l.all (fun b => truthy b.name) = true
            · simp only [hall, if_true, Except.ok.injEq]
              constructor
              · intro h
                exact ⟨l, rootDir, rfl, ht, by simpa using hall, h.symm⟩
              · rintro ⟨l', r', h, _, _, ho⟩
                injection h with h
                injection h with h1 h2
                injection h1 with h1
                injection h2 with h2
                rw [ho, ← h1, ← h2]
            · simp only [hall, if_false, reduceCtorEq, false_iff]
              rintro ⟨l', r', h, _, hn, _⟩
              injection h with h
              injection h with h1 h2
              injection h1 with h1
              rw [← h1] at hn
              exact hall (by simpa using hn)

/-- Every error that `parseOptions` raises comes from `createError`. -/
theorem parseOptions_error (cwd : String) (opts : Option BabelPluginWcHmrOptions) (e : String)
    (h : parseOptions cwd opts = .error e) : isConfigurationError e = true := by
  cases opts with
  | none =>
    simp [parseOptions] at h
    rw [← h]; rfl
  | some o =>
    cases o with
    | mk bcs rd =>
      cases rd with
      | none =>
        simp [parseOptions] at h
        rw [← h]; rfl
      | some rootDir =>
        cases ht : truthy (some rootDir) with
        | false =>
          simp [parseOptions, ht] at h
          rw [← h]; rfl
        | true =>
          cases bcs with
          | missing =>
            simp [parseOptions, ht] at h
            rw [← h]; rfl
          | notArray =>
            simp [parseOptions, ht] at h
            rw [← h]; rfl
          | array l =>
            simp only [parseOptions, ht, Bool.not_true, Bool.false_eq_true, if_false,
              parseBaseClasses_eq] at h
            by_cases hall : l.all (fun b => truthy b.name) = true
            · simp [hall] at h
            · simp [hall] at h
              rw [← h]; rfl

theorem babelPluginWcHmr_error_of_parseOptions (cwd : String) (filename : Option String)
    (opts : Option BabelPluginWcHmrOptions) (body : List ModuleItem) (e : String)
    (h : parseOptions cwd opts = .error e) :
    ∃ e', babelPluginWcHmr cwd filename opts body = .error e' ∧
      isConfigurationError e' = true := by
  unfold babelPluginWcHmr
  cases filename with
  | none => exact ⟨_, rfl, rfl⟩
  | some f =>
    cases ht : truthy (some f) with
    | false =>
      refine ⟨createError "Missing filename", ?_, rfl⟩
      simp [ht]
    | true =>
      refine ⟨e, ?_, parseOptions_error cwd opts e h⟩
      simp [ht, h]

/-- A module whose class `X` matches the name set: the plugin returns the
prologue, then the body with the registration of `X` behind the class. -/
theorem babelPluginWcHmr_classDecl (cwd filename : String)
    (opts : Option BabelPluginWcHmrOptions) (options : ParsedOptions)
    (pre post : List ModuleItem) (X : String) (superClass : Option Expr)
    (clsBody : List ClassMethod)
    (hf : truthy (some filename) = true) (ho : parseOptions cwd opts = .ok options)
    (hm : isMatch (baseClassNames options (path.resolve cwd filename)
      (pre ++ .statement (.classDecl (some X) superClass clsBody) :: post))
      (X, superClass) = true) :
    babelPluginWcHmr cwd (some filename) opts
        (pre ++ .statement (.classDecl (some X) superClass clsBody) :: post) =
      .ok (.statement (prologue (baseClassPatches options (path.resolve cwd filename)
          (pre ++ .statement (.classDecl (some X) superClass clsBody) :: post))) ::
        ((visitItems (baseClassNames options (path.resolve cwd filename)
          (pre ++ .statement (.classDecl (some X) superClass clsBody) :: post)) pre).1 ++
        .statement (.classDecl (some X)
          (visitOptExpr (baseClassNames options (path.resolve cwd filename)
            (pre ++ .statement (.classDecl (some X) superClass clsBody) :: post)) superClass).1
          (visitMethods (baseClassNames options (path.resolve cwd filename)
            (pre ++ .statement (.classDecl (some X) superClass clsBody) :: post)) clsBody).1) ::
        .statement (injectRegister X) ::
        (visitItems (baseClassNames options (path.resolve cwd filename)
          (pre ++ .statement (.classDecl (some X) superClass clsBody) :: post)) post).1)) := by
  have hany := anyMatch_of_topLevel _ (pre ++ .statement (.classDecl (some X) superClass clsBody)
    :: post) (.classDecl (some X) superClass clsBody) (X, superClass)
    (by rw [topLevel_append]; simp [topLevel]) (by simp [Stmt.candidates]) hm
  rw [babelPluginWcHmr_of_match cwd filename opts options _ hf ho hany, visitItems_split,
    visitStmt_classDecl_of_match _ X superClass clsBody hm]
  rfl


/-! ## Global base classes and the selection of descriptors -/

/-- C11: a descriptor of the configured list without an origin (its `import`
is absent or empty) has its name in the resolved base-class name set of every
module, whatever the import declarations of the module (also when it has
none).  Hence, in every module, a named class whose root identifier is that
name is registered: the plugin returns the prologue and the body with the
statement `register(import.meta.url, X)` directly behind the class. -/
theorem C11_global_descriptor_always_matches (cwd filename : String) (l : List BaseClass)
    (rootDir : String) (options : ParsedOptions) (b : BaseClass) (A : String)
    (hf : truthy (some filename) = true)
    (ho : parseOptions cwd (some ⟨.array l, some rootDir⟩) = .ok options)
    (hb : b ∈ l) (horigin : truthy b.import_ = false) (hname : b.name = some A) :
    (∀ body : List ModuleItem, A ∈ baseClassNames options (path.resolve cwd filename) body) ∧
    (∀ (pre post : List ModuleItem) (X : String) (superClass : Option Expr)
        (clsBody : List ClassMethod) (body : List ModuleItem) (names : List String),
      body = pre ++ .statement (.classDecl (some X) superClass clsBody) :: post →
      names = baseClassNames options (path.resolve cwd filename) body →
      rootIdentifier superClass = some A →
      babelPluginWcHmr cwd (some filename) (some ⟨.array l, some rootDir⟩) body =
        .ok (.statement (prologue (baseClassPatches options (path.resolve cwd filename) body)) ::
          ((visitItems names pre).1 ++
          .statement (.classDecl (some X) (visitOptExpr names superClass).1
            (visitMethods names clsBody).1) ::
          .statement (injectRegister X) :: (visitItems names post).1))) := by
  have hmem : ∀ body : List ModuleItem,
      A ∈ baseClassNames options (path.resolve cwd filename) body := by
    intro body
    rw [mem_baseClassNames]
    left
    obtain ⟨l', r', h, _, _, hopt⟩ := (parseOptions_ok_iff cwd _ options).1 ho
    injection h with h
    injection h with h1 _
    injection h1 with h1
    refine ⟨b, ?_, horigin, hname⟩
    rw [hopt, ← h1]
    simp only [List.mem_map]
    exact ⟨b, hb, parseBaseClass_of_no_origin cwd b horigin⟩
  refine ⟨hmem, ?_⟩
  intro pre post X superClass clsBody body names hbody hnames hroot
  subst hbody
  subst hnames
  exact babelPluginWcHmr_classDecl cwd filename _ options pre post X superClass clsBody hf ho
    ((isMatch_iff _ _).2 ⟨A, hroot, hmem _⟩)

/-- C11 at the test-suite module `class Foo extends HTMLElement {}` with the
global descriptor `HTMLElement`. -/
theorem C11_global_descriptor_always_matches_witness :
    transform [.statement (emptyClass "Foo" "HTMLElement")] [globalBaseClass "HTMLElement"] =
      .ok [.statement (.file ("import * as __$wc_hmr$__ from "
          ++ "'/__web-dev-server__/wc-hmr/runtime.js';"
          ++ "\nif(import.meta.hot) { import.meta.hot.accept(() => { }) }")),
        .statement (emptyClass "Foo" "HTMLElement"),
        .statement (.file "__$wc_hmr$__.register(import.meta.url, Foo)")] :=
  (C11_global_descriptor_always_matches "/" testFilename [globalBaseClass "HTMLElement"]
    testRootDir ⟨[globalBaseClass "HTMLElement"], testRootDir⟩ (globalBaseClass "HTMLElement")
    "HTMLElement" rfl rfl (by simp) rfl rfl).2 [] [] "Foo" (some (.ident "HTMLElement")) []
    _ _ rfl rfl rfl

/-- C12: for an import specifier `s` that starts neither with `./` nor with
`/`, the function `getBaseClassesForImport` selects the descriptor at
position `i`, whose origin is the non-empty string `o`, if and only if `s`
equals `o`, or `o` has no file extension (`path.extname` gives the empty
string) and `o` followed by `.js` equals `s`.  A descriptor without an origin
is never selected, for any specifier. -/
theorem C12_bare_specifier_selection (baseClasses : List BaseClass)
    (s filename rootDir : String)
    (hbare : startsWith s "./" = false ∧ startsWith s "/" = false) :
    (∀ (b : BaseClass) (i : Nat) (o : String), b.import_ = some o → truthy (some o) = true →
      (⟨b, i⟩ ∈ getBaseClassesForImport baseClasses s filename rootDir ↔
        baseClasses[i]? = some b ∧ (s = o ∨ (path.extname o = "" ∧ o ++ ".js" = s)))) ∧
    (∀ (b : BaseClass) (i : Nat) (s' : String), truthy b.import_ = false →
      ⟨b, i⟩ ∉ getBaseClassesForImport baseClasses s' filename rootDir) := by
  constructor
  · intro b i o ho ht
    rw [mem_getBaseClassesForImport, matchesImport_bare s filename rootDir b o hbare.1 hbare.2 ho ht]
  · intro b i s' hno h
    rw [mem_getBaseClassesForImport, matchesImport_of_no_origin s' filename rootDir b hno] at h
    cases h.2

/-- C12 at the descriptor `lit-element` of the test-suite: the specifier
`lit-element` selects it, and so does `lit-element.js`. -/
theorem C12_bare_specifier_selection_witness :
    (⟨importedBaseClass "LitElement" "lit-element", 0⟩ ∈
      getBaseClassesForImport [importedBaseClass "LitElement" "lit-element"] "lit-element"
        testFilename testRootDir) ∧
    (⟨importedBaseClass "LitElement" "lit-element", 0⟩ ∈
      getBaseClassesForImport [importedBaseClass "LitElement" "lit-element"] "lit-element.js"
        testFilename testRootDir) :=
  ⟨((C12_bare_specifier_selection [importedBaseClass "LitElement" "lit-element"] "lit-element"
      testFilename testRootDir ⟨rfl, rfl⟩).1 _ 0 "lit-element" rfl rfl).2 ⟨rfl, Or.inl rfl⟩,
    ((C12_bare_specifier_selection [importedBaseClass "LitElement" "lit-element"]
      "lit-element.js" testFilename testRootDir ⟨rfl, rfl⟩).1 _ 0 "lit-element" rfl rfl).2
      ⟨rfl, Or.inr ⟨by decide, by decide⟩⟩⟩

/-- C13: for an import specifier `s` that starts with `./` or with `/`, the
function `getBaseClassesForImport` selects the descriptor at position `i` if
and only if its origin is the path that `path.join` makes of the specifier
and of its base: the project root when `s` starts with `/`, the directory of
the current module otherwise.  The comparison of the origin with the
specifier itself plays no part: a descriptor whose origin is the string `s`
is selected only when the joined path is `s` again, and for `s` starting with
`./` in a module with an absolute path it is never selected. -/
theorem C13_relative_specifier_selection (baseClasses : List BaseClass)
    (s filename rootDir : String)
    (hrel : startsWith s "./" = true ∨ startsWith s "/" = true) :
    (∀ (b : BaseClass) (i : Nat),
      (⟨b, i⟩ ∈ getBaseClassesForImport baseClasses s filename rootDir ↔
        baseClasses[i]? = some b ∧ b.import_ = some
          (path.join (if startsWith s "/" = true then rootDir else path.dirname filename) s))) ∧
    (∀ (b : BaseClass) (i : Nat), b.import_ = some s →
      ⟨b, i⟩ ∈ getBaseClassesForImport baseClasses s filename rootDir →
      path.join (if startsWith s "/" = true then rootDir else path.dirname filename) s = s) ∧
    (startsWith s "./" = true → startsWith filename "/" = true →
      ∀ (b : BaseClass) (i : Nat), b.import_ = some s →
        ⟨b, i⟩ ∉ getBaseClassesForImport baseClasses s filename rootDir) := by
  have hiff : ∀ (b : BaseClass) (i : Nat),
      (⟨b, i⟩ ∈ getBaseClassesForImport baseClasses s filename rootDir ↔
        baseClasses[i]? = some b ∧ b.import_ = some
          (path.join (if startsWith s "/" = true then rootDir else path.dirname filename) s)) := by
    intro b i
    rw [mem_getBaseClassesForImport, matchesImport_relative s filename rootDir b hrel]
  refine ⟨hiff, ?_, ?_⟩
  · intro b i ho h
    have h2 := ((hiff b i).1 h).2
    rw [ho] at h2
    injection h2 with h2
    exact h2.symm
  · intro hdot habs b i ho h
    have h2 := ((hiff b i).1 h).2
    rw [ho, startsWith_dotSlash_not_slash s hdot] at h2
    injection h2 with h2
    have h3 := join_absolute (path.dirname filename) s (dirname_absolute filename habs)
    simp only [Bool.false_eq_true, if_false] at h2
    rw [← h2, startsWith_dotSlash_not_slash s hdot] at h3
    cases h3

/-- C13 at the test-suite module that imports `./my-base-class.js`: the
descriptor with the absolute path of that file is selected, a descriptor with
the origin `./my-base-class.js` is not. -/
theorem C13_relative_specifier_selection_witness :
    (⟨importedBaseClass "MyBaseClass" "/root/projects/my-project/src/my-base-class.js", 0⟩ ∈
      getBaseClassesForImport
        [importedBaseClass "MyBaseClass" "/root/projects/my-project/src/my-base-class.js"]
        "./my-base-class.js" testFilename testRootDir) ∧
    (⟨importedBaseClass "MyBaseClass" "./my-base-class.js", 0⟩ ∉
      getBaseClassesForImport [importedBaseClass "MyBaseClass" "./my-base-class.js"]
        "./my-base-class.js" testFilename testRootDir) :=
  ⟨((C13_relative_specifier_selection
      [importedBaseClass "MyBaseClass" "/root/projects/my-project/src/my-base-class.js"]
      "./my-base-class.js" testFilename testRootDir (Or.inl rfl)).1 _ 0).2 ⟨rfl, by decide⟩,
    (C13_relative_specifier_selection [importedBaseClass "MyBaseClass" "./my-base-class.js"]
      "./my-base-class.js" testFilename testRootDir (Or.inl rfl)).2.2 rfl rfl _ 0 rfl⟩


/-! ## Relative origins -/

theorem truthy_of_startsWith_dotSlash (o : String) (h : startsWith o "./" = true) :
    truthy (some o) = true := by
  rw [truthy_some_iff]
  intro he
  rw [he] at h
  cases h

theorem parseBaseClass_of_not_relative (cwd : String) (b : BaseClass) (o : String)
    (ho : b.import_ = some o) (h : startsWith o "./" = false) : parseBaseClass cwd b = b := by
  by_cases ht : truthy (some o) = true
  · rw [parseBaseClass_origin cwd b o ho ht]
    cases b with
    | mk name imp patch =>
      simp only [h, Bool.false_eq_true, if_false]
      simp only at ho
      rw [ho]
  · apply parseBaseClass_of_no_origin
    rw [ho]
    simpa using ht

/-- C14, the code against the claim: in the working directory `/work`, with
the project root `/root/projects/my-project/`, the origin `./my-base.js` is
parsed to `/work/my-base.js`, which is neither the join nor the resolution of
the origin against the project root.  The module
`/root/projects/my-project/foo.js` imports `./my-base.js`; its directory
joined with the specifier equals the project root joined with the origin, yet
the descriptor is not selected and the module is returned as it is. -/
theorem C14_relative_origin_not_resolved_against_rootDir :
    parseOptions "/work" (testOptions [importedBaseClass "MyBase" "./my-base.js"]) =
      .ok ⟨[importedBaseClass "MyBase" "/work/my-base.js"], testRootDir⟩ ∧
    "/work/my-base.js" ≠ path.join testRootDir "./my-base.js" ∧
    "/work/my-base.js" ≠ path.resolve testRootDir "./my-base.js" ∧
    path.join (path.dirname "/root/projects/my-project/foo.js") "./my-base.js" =
      path.join testRootDir "./my-base.js" ∧
    getBaseClassesForImport [importedBaseClass "MyBase" "/work/my-base.js"] "./my-base.js"
      "/root/projects/my-project/foo.js" testRootDir = [] ∧
    babelPluginWcHmr "/work" (some "/root/projects/my-project/foo.js")
        (testOptions [importedBaseClass "MyBase" "./my-base.js"])
        [.importDeclaration "./my-base.js" [.importSpecifier "MyBase" "MyBase"],
          .statement (emptyClass "Foo" "MyBase")] =
      .ok [.importDeclaration "./my-base.js" [.importSpecifier "MyBase" "MyBase"],
        .statement (emptyClass "Foo" "MyBase")] :=
  ⟨rfl, by decide, by decide, by decide, rfl, rfl⟩

/-- C14, amended: option parsing maps each descriptor through
`parseBaseClass`, which resolves an origin starting with `./` with
`path.resolve` against the working directory `cwd` of the process (the
project root `rootDir` plays no part) to an absolute path.  So the parsed
descriptor matches a module's import of a specifier starting with `./`
exactly when the directory of the module joined with the specifier equals
the origin resolved against the working directory.  A descriptor whose
origin does not start with `./`, or that has no origin, is kept as it is. -/
theorem C14_relative_origin_resolved_against_cwd (cwd : String) (l : List BaseClass)
    (rootDir : String) (options : ParsedOptions)
    (ho : parseOptions cwd (some ⟨.array l, some rootDir⟩) = .ok options) :
    options.baseClasses = l.map (parseBaseClass cwd) ∧
    (∀ (b : BaseClass) (o : String), b.import_ = some o → startsWith o "./" = true →
      parseBaseClass cwd b = { b with import_ := some (path.resolve cwd o) } ∧
      startsWith (path.resolve cwd o) "/" = true ∧
      ∀ (s filename : String), startsWith s "./" = true →
        (matchesImport s filename rootDir (parseBaseClass cwd b) = true ↔
          path.join (path.dirname filename) s = path.resolve cwd o)) ∧
    (∀ (b : BaseClass) (o : String), b.import_ = some o → startsWith o "./" = false →
      parseBaseClass cwd b = b) ∧
    (∀ b : BaseClass, b.import_ = none → parseBaseClass cwd b = b) := by
  refine ⟨?_, ?_, ?_, ?_⟩
  · obtain ⟨l', r', h, _, _, hopt⟩ := (parseOptions_ok_iff cwd _ options).1 ho
    injection h with h
    injection h with h1 _
    injection h1 with h1
    rw [hopt, h1]
  · intro b o hb hrel
    have hp := parseBaseClass_origin cwd b o hb (truthy_of_startsWith_dotSlash o hrel)
    simp only [hrel, if_true] at hp
    refine ⟨hp, resolve_absolute cwd o, ?_⟩
    intro s filename hs
    rw [matchesImport_relative s filename rootDir _ (Or.inl hs), hp,
      startsWith_dotSlash_not_slash s hs]
    simp only [Bool.false_eq_true, if_false, Option.some.injEq]
    exact eq_comm
  · intro b o hb hrel
    exact parseBaseClass_of_not_relative cwd b o hb hrel
  · intro b hb
    apply parseBaseClass_of_no_origin
    rw [hb]
    rfl

/-- C14, amended, in the working directory `/work`: the origin `./my-base.js`
becomes `/work/my-base.js`, whatever the project root. -/
theorem C14_relative_origin_resolved_against_cwd_witness :
    parseBaseClass "/work" (importedBaseClass "MyBase" "./my-base.js") =
      importedBaseClass "MyBase" "/work/my-base.js" ∧
    matchesImport "./my-base.js" "/work/foo.js" testRootDir
      (parseBaseClass "/work" (importedBaseClass "MyBase" "./my-base.js")) = true :=
  ⟨((C14_relative_origin_resolved_against_cwd "/work"
      [importedBaseClass "MyBase" "./my-base.js"] testRootDir
      ⟨[importedBaseClass "MyBase" "/work/my-base.js"], testRootDir⟩ rfl).2.1
      (importedBaseClass "MyBase" "./my-base.js") "./my-base.js" rfl rfl).1,
    (((C14_relative_origin_resolved_against_cwd "/work"
      [importedBaseClass "MyBase" "./my-base.js"] testRootDir
      ⟨[importedBaseClass "MyBase" "/work/my-base.js"], testRootDir⟩ rfl).2.1
      (importedBaseClass "MyBase" "./my-base.js") "./my-base.js" rfl rfl).2.2
      "./my-base.js" "/work/foo.js" rfl).2 (by decide)⟩


/-! ## The accumulated patch indices -/

theorem withIndexFrom_map_i (start : Nat) (l : List BaseClass) :
    (withIndexFrom start l).map (fun b => b.i) = List.range' start l.length := by
  induction l generalizing start with
  | nil => rfl
  | cons b rest ih => simp [withIndexFrom, ih, List.range'_succ]

/-- Within one import declaration the patch indices are in ascending order:
each occurs at most once, in the order of the configured list. -/
theorem patchIndicesForImport_pairwise (baseClasses : List BaseClass)
    (importSpecifier filename rootDir : String) :
    (patchIndicesForImport baseClasses importSpecifier filename rootDir).Pairwise (· < ·) := by
  have hsub : (patchIndicesForImport baseClasses importSpecifier filename rootDir).Sublist
      ((withIndexFrom 0 baseClasses).map (fun b => b.i)) := by
    unfold patchIndicesForImport getBaseClassesForImport
    exact ((List.filter_sublist _).trans (List.filter_sublist _)).map _
  rw [withIndexFrom_map_i] at hsub
  exact List.Pairwise.sublist hsub (List.pairwise_lt_range' 0 baseClasses.length)

theorem patchIndicesForImport_nodup (baseClasses : List BaseClass)
    (importSpecifier filename rootDir : String) :
    (patchIndicesForImport baseClasses importSpecifier filename rootDir).Nodup :=
  (patchIndicesForImport_pairwise baseClasses importSpecifier filename rootDir).imp
    (fun h => Nat.ne_of_lt h)

theorem mem_patchIndicesForImport (baseClasses : List BaseClass)
    (importSpecifier filename rootDir : String) (i : Nat) :
    i ∈ patchIndicesForImport baseClasses importSpecifier filename rootDir ↔
      ∃ b, baseClasses[i]? = some b ∧
        matchesImport importSpecifier filename rootDir b = true ∧
        Patch.truthy b.patch = true := by
  simp only [patchIndicesForImport, List.mem_map, List.mem_filter]
  constructor
  · rintro ⟨x, ⟨hx, hp⟩, rfl⟩
    cases x with
    | mk b i =>
      obtain ⟨h1, h2⟩ := (mem_getBaseClassesForImport _ _ _ _ b i).1 hx
      exact ⟨b, h1, h2, hp⟩
  · rintro ⟨b, h1, h2, hp⟩
    exact ⟨⟨b, i⟩, ⟨(mem_getBaseClassesForImport _ _ _ _ b i).2 ⟨h1, h2⟩, hp⟩, rfl⟩

theorem ImportDeclaration_patches (options : ParsedOptions) (resolvedFilename : String)
    (importSpecifier : String) (specifiers : List ImportSpecifier) :
    (ImportDeclaration options resolvedFilename importSpecifier specifiers).2 =
      (patchIndicesForImport options.baseClasses importSpecifier resolvedFilename
        options.rootDir).map toString := by
  simp [ImportDeclaration, patchIndicesForImport, List.map_map, Function.comp]

/-- The array `baseClassPatches`: for each import declaration in source
order, the patch indices of that declaration, as decimal numerals. -/
theorem baseClassPatches_eq (options : ParsedOptions) (resolvedFilename : String)
    (body : List ModuleItem) :
    baseClassPatches options resolvedFilename body =
      ((importDeclarations body).flatMap (fun d =>
        patchIndicesForImport options.baseClasses d.1 resolvedFilename options.rootDir)).map
        toString := by
  unfold baseClassPatches
  induction body with
  | nil => rfl
  | cons it rest ih =>
    cases it with
    | importDeclaration source specifiers =>
      simp only [traverseImports, importDeclarations, List.flatMap_cons, List.map_append, ih,
        ImportDeclaration_patches]
    | statement s => simpa [traverseImports, importDeclarations] using ih

theorem mem_patchImports_baseClassPatches (options : ParsedOptions) (resolvedFilename : String)
    (body : List ModuleItem) (i : Nat) :
    patchImportOf i ∈ patchImports (baseClassPatches options resolvedFilename body) ↔
      ∃ b, options.baseClasses[i]? = some b ∧ Patch.truthy b.patch = true ∧
        ∃ d ∈ importDeclarations body,
          matchesImport d.1 resolvedFilename options.rootDir b = true := by
  rw [baseClassPatches_eq, patchImports_eq]
  simp only [List.mem_map, List.mem_flatMap, mem_patchIndicesForImport]
  constructor
  · rintro ⟨j, ⟨d, hd, b, hb, hm, hp⟩, hj⟩
    have := patchImportOf_injective j i hj
    subst this
    exact ⟨b, hb, hp, d, hd, hm⟩
  · rintro ⟨b, hb, hp, d, hd, hm⟩
    exact ⟨i, ⟨d, hd, b, hb, hm, hp⟩, rfl⟩

theorem patchImports_baseClassPatches_form (options : ParsedOptions)
    (resolvedFilename : String) (body : List ModuleItem) (line : String)
    (h : line ∈ patchImports (baseClassPatches options resolvedFilename body)) :
    ∃ i, line = patchImportOf i := by
  rw [baseClassPatches_eq, patchImports_eq] at h
  simp only [List.mem_map] at h
  obtain ⟨i, _, hi⟩ := h
  exact ⟨i, hi.symm⟩

theorem count_map_toString (l : List Nat) (hl : l.Nodup) (i : Nat) :
    (l.map toString).count (toString i) = if i ∈ l then 1 else 0 := by
  rw [List.count_map_of_injective l toString (fun a b h => toString_injective a b h) i]
  by_cases h : i ∈ l
  · simp only [h, if_true]
    exact List.count_eq_one_of_mem hl h
  · simp only [h, if_false]
    exact List.count_eq_zero_of_not_mem h

/-- An index occurs in `baseClassPatches` once for each import declaration
that selects its patch-carrying descriptor. -/
theorem count_baseClassPatches (options : ParsedOptions) (resolvedFilename : String)
    (body : List ModuleItem) (i : Nat) :
    (baseClassPatches options resolvedFilename body).count (toString i) =
      (importDeclarations body).countP (fun d => decide
        (i ∈ patchIndicesForImport options.baseClasses d.1 resolvedFilename options.rootDir)) := by
  unfold baseClassPatches
  induction body with
  | nil => rfl
  | cons it rest ih =>
    cases it with
    | importDeclaration source specifiers =>
      simp only [traverseImports, importDeclarations, List.count_append, ih,
        ImportDeclaration_patches, List.countP_cons, decide_eq_true_eq]
      rw [count_map_toString _ (patchIndicesForImport_nodup _ _ _ _) i]
      omega
    | statement s => simpa [traverseImports, importDeclarations] using ih


/-! ## The patch imports of the prologue -/

/-- C15, the code against the claim: the module
`import { LitElement } from 'lit-element'; import { html } from 'lit-element';
class Foo extends LitElement {}`, with the single descriptor `LitElement` of
`lit-element` carrying a patch, has the index `0` twice in `baseClassPatches`,
and its prologue has the patch import of index `0` twice. -/
theorem C15_patch_index_repeated_per_import :
    baseClassPatches ⟨[patchedBaseClass "LitElement" "lit-element" "patch code"], testRootDir⟩
        (path.resolve "/" testFilename)
        [.importDeclaration "lit-element" [.importSpecifier "LitElement" "LitElement"],
          .importDeclaration "lit-element" [.importSpecifier "html" "html"],
          .statement (emptyClass "Foo" "LitElement")] = ["0", "0"] ∧
    ¬ (["0", "0"] : List String).Nodup ∧
    transform
        [.importDeclaration "lit-element" [.importSpecifier "LitElement" "LitElement"],
          .importDeclaration "lit-element" [.importSpecifier "html" "html"],
          .statement (emptyClass "Foo" "LitElement")]
        [patchedBaseClass "LitElement" "lit-element" "patch code"] =
      .ok [.statement (.file ("import '/__web-dev-server__/wc-hmr/patch/0.js';\n"
          ++ "import '/__web-dev-server__/wc-hmr/patch/0.js';"
          ++ "import * as __$wc_hmr$__ from '/__web-dev-server__/wc-hmr/runtime.js';\n"
          ++ "if(import.meta.hot) { import.meta.hot.accept(() => { }) }")),
        .importDeclaration "lit-element" [.importSpecifier "LitElement" "LitElement"],
        .importDeclaration "lit-element" [.importSpecifier "html" "html"],
        .statement (emptyClass "Foo" "LitElement"),
        .statement (injectRegister "Foo")] ∧
    (patchImports ["0", "0"]).count "import '/__web-dev-server__/wc-hmr/patch/0.js';" = 2 :=
  ⟨rfl, by decide, rfl, by decide⟩

/-- C15, amended: the array `baseClassPatches` lists, for each import
declaration of the module in source order, the indices of the patch-carrying
descriptors that the declaration selects, as decimal numerals.  Within one
declaration the indices are ascending, so each occurs at most once and in the
order of the configured list; over the module an index occurs once for each
declaration that selects its descriptor, and the prologue has one
patch import for each occurrence. -/
theorem C15_patch_index_once_per_import (options : ParsedOptions) (resolvedFilename : String)
    (body : List ModuleItem) :
    baseClassPatches options resolvedFilename body =
      ((importDeclarations body).flatMap (fun d =>
        patchIndicesForImport options.baseClasses d.1 resolvedFilename options.rootDir)).map
        toString ∧
    (∀ s : String,
      (patchIndicesForImport options.baseClasses s resolvedFilename options.rootDir).Pairwise
        (· < ·)) ∧
    (∀ i : Nat,
      (baseClassPatches options resolvedFilename body).count (toString i) =
        (importDeclarations body).countP (fun d => decide
          (i ∈ patchIndicesForImport options.baseClasses d.1 resolvedFilename
            options.rootDir))) ∧
    patchImports (baseClassPatches options resolvedFilename body) =
      ((importDeclarations body).flatMap (fun d =>
        patchIndicesForImport options.baseClasses d.1 resolvedFilename options.rootDir)).map
        patchImportOf :=
  ⟨baseClassPatches_eq options resolvedFilename body,
    fun s => patchIndicesForImport_pairwise options.baseClasses s resolvedFilename options.rootDir,
    count_baseClassPatches options resolvedFilename body,
    by rw [baseClassPatches_eq, patchImports_eq]⟩

/-- C15, amended, at a module with two import declarations of `lit-element`:
the index `0` occurs twice in `baseClassPatches`, once for each declaration. -/
theorem C15_patch_index_once_per_import_witness :
    (baseClassPatches ⟨[patchedBaseClass "LitElement" "lit-element" "patch code"], testRootDir⟩
        (path.resolve "/" testFilename)
        [.importDeclaration "lit-element" [.importSpecifier "LitElement" "LitElement"],
          .importDeclaration "lit-element" [.importSpecifier "html" "html"],
          .statement (emptyClass "Foo" "LitElement")]).count (toString 0) =
      (importDeclarations
        [.importDeclaration "lit-element" [.importSpecifier "LitElement" "LitElement"],
          .importDeclaration "lit-element" [.importSpecifier "html" "html"],
          .statement (emptyClass "Foo" "LitElement")]).countP (fun d => decide
          (0 ∈ patchIndicesForImport [patchedBaseClass "LitElement" "lit-element" "patch code"]
            d.1 (path.resolve "/" testFilename) testRootDir)) :=
  (C15_patch_index_once_per_import
    ⟨[patchedBaseClass "LitElement" "lit-element" "patch code"], testRootDir⟩
    (path.resolve "/" testFilename)
    [.importDeclaration "lit-element" [.importSpecifier "LitElement" "LitElement"],
      .importDeclaration "lit-element" [.importSpecifier "html" "html"],
      .statement (emptyClass "Foo" "LitElement")]).2.2.1 0

/-- C16: in a module in which a registration is injected, the plugin puts the
prologue for `baseClassPatches` first.  For every descriptor at position `i`
of the parsed list (the positions of the configured list) that carries a
patch and that an import declaration of the module selects, the patch imports
of the prologue contain `import '/__web-dev-server__/wc-hmr/patch/<i>.js';`
with `i` as a decimal numeral.  Every patch import of the prologue has this
form, and the index of each is the position of a descriptor that carries a
patch and is selected by an import declaration of the module.  The parsed
list is the configured list passed through `parseBaseClass` position by
position, with the same patches. -/
theorem C16_patch_imports_by_index (cwd filename : String)
    (opts : Option BabelPluginWcHmrOptions) (options : ParsedOptions)
    (body : List ModuleItem) (names patches : List String)
    (hf : truthy (some filename) = true) (ho : parseOptions cwd opts = .ok options)
    (hnames : names = baseClassNames options (path.resolve cwd filename) body)
    (hpatches : patches = baseClassPatches options (path.resolve cwd filename) body)
    (hm : anyMatch names body = true) :
    babelPluginWcHmr cwd (some filename) opts body =
      .ok (.statement (prologue patches) :: (visitItems names body).1) ∧
    prologue patches = .file
      (String.mk (joinWith ['\n'] ((patchImports patches).map String.data)) ++
        ("import * as __$wc_hmr$__ from '/__web-dev-server__/wc-hmr/runtime.js';" ++
          ("\n" ++ "if(import.meta.hot) { import.meta.hot.accept(() => { }) }"))) ∧
    (∀ (i : Nat) (b : BaseClass), options.baseClasses[i]? = some b →
      Patch.truthy b.patch = true →
      (∃ d ∈ importDeclarations body,
        matchesImport d.1 (path.resolve cwd filename) options.rootDir b = true) →
      patchImportOf i ∈ patchImports patches) ∧
    (∀ line ∈ patchImports patches, ∃ i, line = patchImportOf i) ∧
    (∀ i : Nat, patchImportOf i ∈ patchImports patches →
      ∃ b, options.baseClasses[i]? = some b ∧ Patch.truthy b.patch = true ∧
        ∃ d ∈ importDeclarations body,
          matchesImport d.1 (path.resolve cwd filename) options.rootDir b = true) ∧
    (∀ i : Nat,
      patchImportOf i = "import '/__web-dev-server__/wc-hmr/patch/" ++ toString i ++ ".js';" ∧
      decimalValue (toString i).data = i) ∧
    (∀ (l : List BaseClass) (rootDir : String), opts = some ⟨.array l, some rootDir⟩ →
      options.baseClasses = l.map (parseBaseClass cwd) ∧
      options.baseClasses.map (fun b => b.patch) = l.map (fun b => b.patch)) := by
  subst hnames
  subst hpatches
  refine ⟨babelPluginWcHmr_of_match cwd filename opts options body hf ho hm, ?_, ?_, ?_, ?_,
    ?_, ?_⟩
  · simp only [prologue, parse, prologueCode, WC_HMR_NAMESPACE, WC_HMR_MODULE_RUNTIME,
      String.append_assoc]
    rfl
  · intro i b hb hp hd
    exact (mem_patchImports_baseClassPatches options _ body i).2 ⟨b, hb, hp, hd⟩
  · intro line hl
    exact patchImports_baseClassPatches_form options _ body line hl
  · intro i hi
    exact (mem_patchImports_baseClassPatches options _ body i).1 hi
  · intro i
    exact ⟨rfl, decimalValue_toString i⟩
  · intro l rootDir hopts
    obtain ⟨l', r', h, _, _, hopt⟩ := (parseOptions_ok_iff cwd _ options).1 ho
    rw [hopts] at h
    injection h with h
    injection h with h1 _
    injection h1 with h1
    rw [hopt, h1, List.map_map]
    refine ⟨rfl, ?_⟩
    apply List.map_congr_left
    intro b _
    exact (parseBaseClass_name_patch cwd b).2

/-- C16 at the test-suite module that imports a patched base class, with a
second descriptor, without patch, in front of it: the patch import names the
position `1`. -/
theorem C16_patch_imports_by_index_witness :
    transform [.importDeclaration "my-package" [.importSpecifier "MyBaseClass" "MyBaseClass"],
        .statement (emptyClass "Foo" "MyBaseClass")]
      [importedBaseClass "Other" "my-package",
        patchedBaseClass "MyBaseClass" "my-package" "patch code"] =
      .ok [.statement (prologue ["1"]),
        .importDeclaration "my-package" [.importSpecifier "MyBaseClass" "MyBaseClass"],
        .statement (emptyClass "Foo" "MyBaseClass"),
        .statement (injectRegister "Foo")] ∧
    "import '/__web-dev-server__/wc-hmr/patch/1.js';" ∈ patchImports ["1"] :=
  ⟨(C16_patch_imports_by_index "/" testFilename
      (testOptions [importedBaseClass "Other" "my-package",
        patchedBaseClass "MyBaseClass" "my-package" "patch code"])
      ⟨[importedBaseClass "Other" "my-package",
        patchedBaseClass "MyBaseClass" "my-package" "patch code"], testRootDir⟩
      [.importDeclaration "my-package" [.importSpecifier "MyBaseClass" "MyBaseClass"],
        .statement (emptyClass "Foo" "MyBaseClass")]
      ["MyBaseClass"] ["1"] rfl rfl rfl rfl rfl).1,
    (C16_patch_imports_by_index "/" testFilename
      (testOptions [importedBaseClass "Other" "my-package",
        patchedBaseClass "MyBaseClass" "my-package" "patch code"])
      ⟨[importedBaseClass "Other" "my-package",
        patchedBaseClass "MyBaseClass" "my-package" "patch code"], testRootDir⟩
      [.importDeclaration "my-package" [.importSpecifier "MyBaseClass" "MyBaseClass"],
        .statement (emptyClass "Foo" "MyBaseClass")]
      ["MyBaseClass"] ["1"] rfl rfl rfl rfl rfl).2.2.1 1
      (patchedBaseClass "MyBaseClass" "my-package" "patch code") rfl rfl
      ⟨("my-package", [.importSpecifier "MyBaseClass" "MyBaseClass"]),
        by simp [importDeclarations], rfl⟩⟩

/-- C17, the code against the claim: the global descriptor `HTMLElement`
carries a patch, and the module `class Foo extends HTMLElement {}` registers
`Foo`; `baseClassPatches` is empty and the prologue has no patch import. -/
theorem C17_global_descriptor_patch_not_imported :
    transform [.statement (emptyClass "Foo" "HTMLElement")]
        [⟨some "HTMLElement", none, some (.str "patch code")⟩] =
      .ok [.statement (.file ("import * as __$wc_hmr$__ from "
          ++ "'/__web-dev-server__/wc-hmr/runtime.js';"
          ++ "\nif(import.meta.hot) { import.meta.hot.accept(() => { }) }")),
        .statement (emptyClass "Foo" "HTMLElement"),
        .statement (injectRegister "Foo")] ∧
    baseClassPatches ⟨[⟨some "HTMLElement", none, some (.str "patch code")⟩], testRootDir⟩
      (path.resolve "/" testFilename) [.statement (emptyClass "Foo" "HTMLElement")] = [] ∧
    patchImportOf 0 ∉ patchImports
      (baseClassPatches ⟨[⟨some "HTMLElement", none, some (.str "patch code")⟩], testRootDir⟩
        (path.resolve "/" testFilename) [.statement (emptyClass "Foo" "HTMLElement")]) :=
  ⟨rfl, rfl, by simp [show baseClassPatches
      ⟨[⟨some "HTMLElement", none, some (.str "patch code")⟩], testRootDir⟩
      (path.resolve "/" testFilename) [.statement (emptyClass "Foo" "HTMLElement")] = [] from rfl,
    patchImports]⟩

/-- C17, amended: in a module in which a registration is injected, the plugin
puts the prologue for `baseClassPatches` first; the prologue holds the
patch import of every descriptor that carries a patch and that an import
declaration of the module selects (which requires an origin), and it holds
no patch import of a descriptor without an origin, whatever classes of the
module extend that global base class.  A module in which no registration is
injected is returned as it is, without a prologue and so without a patch
import. -/
theorem C17_patch_import_in_prologue_only_through_import (cwd filename : String)
    (opts : Option BabelPluginWcHmrOptions) (options : ParsedOptions)
    (body : List ModuleItem) (names patches : List String)
    (hf : truthy (some filename) = true) (ho : parseOptions cwd opts = .ok options)
    (hnames : names = baseClassNames options (path.resolve cwd filename) body)
    (hpatches : patches = baseClassPatches options (path.resolve cwd filename) body) :
    (anyMatch names body = true →
      babelPluginWcHmr cwd (some filename) opts body =
        .ok (.statement (prologue patches) :: (visitItems names body).1) ∧
      prologue patches = .file
        (String.mk (joinWith ['\n'] ((patchImports patches).map String.data)) ++
          ("import * as __$wc_hmr$__ from '/__web-dev-server__/wc-hmr/runtime.js';" ++
            ("\n" ++ "if(import.meta.hot) { import.meta.hot.accept(() => { }) }"))) ∧
      (∀ (i : Nat) (b : BaseClass), options.baseClasses[i]? = some b →
        Patch.truthy b.patch = true →
        (∃ d ∈ importDeclarations body,
          matchesImport d.1 (path.resolve cwd filename) options.rootDir b = true) →
        patchImportOf i ∈ patchImports patches) ∧
      (∀ (i : Nat) (b : BaseClass), options.baseClasses[i]? = some b →
        truthy b.import_ = false → patchImportOf i ∉ patchImports patches)) ∧
    (anyMatch names body = false →
      babelPluginWcHmr cwd (some filename) opts body = .ok body) := by
  subst hnames
  subst hpatches
  constructor
  · intro hm
    refine ⟨babelPluginWcHmr_of_match cwd filename opts options body hf ho hm, ?_, ?_, ?_⟩
    · simp only [prologue, parse, prologueCode, WC_HMR_NAMESPACE, WC_HMR_MODULE_RUNTIME,
        String.append_assoc]
      rfl
    · intro i b hb hp hd
      exact (mem_patchImports_baseClassPatches options _ body i).2 ⟨b, hb, hp, hd⟩
    · intro i b hb hno h
      obtain ⟨b1, hb1, _, d, _, hmi⟩ := (mem_patchImports_baseClassPatches options _ body i).1 h
      rw [hb] at hb1
      injection hb1 with hb1
      rw [← hb1, matchesImport_of_no_origin d.1 _ options.rootDir b hno] at hmi
      cases hmi
  · intro hm
    exact babelPluginWcHmr_of_no_match cwd filename opts options body hf ho hm

/-- C17, amended, at a module that imports the patched base class of the
test-suite and extends it, with a patched global descriptor in front: the
prologue holds the patch import of index `1` and not that of index `0`. -/
theorem C17_patch_import_in_prologue_only_through_import_witness :
    transform
      [.importDeclaration "my-package" [.importSpecifier "MyBaseClass" "MyBaseClass"],
        .statement (emptyClass "Foo" "MyBaseClass"),
        .statement (emptyClass "Bar" "HTMLElement")]
      [⟨some "HTMLElement", none, some (.str "global patch")⟩,
        patchedBaseClass "MyBaseClass" "my-package" "patch code"] =
      .ok [.statement (prologue ["1"]),
        .importDeclaration "my-package" [.importSpecifier "MyBaseClass" "MyBaseClass"],
        .statement (emptyClass "Foo" "MyBaseClass"),
        .statement (injectRegister "Foo"),
        .statement (emptyClass "Bar" "HTMLElement"),
        .statement (injectRegister "Bar")] ∧
    patchImportOf 1 ∈ patchImports ["1"] ∧
    patchImportOf 0 ∉ patchImports ["1"] :=
  ⟨((C17_patch_import_in_prologue_only_through_import "/" testFilename
      (testOptions [⟨some "HTMLElement", none, some (.str "global patch")⟩,
        patchedBaseClass "MyBaseClass" "my-package" "patch code"])
      ⟨[⟨some "HTMLElement", none, some (.str "global patch")⟩,
        patchedBaseClass "MyBaseClass" "my-package" "patch code"], testRootDir⟩
      [.importDeclaration "my-package" [.importSpecifier "MyBaseClass" "MyBaseClass"],
        .statement (emptyClass "Foo" "MyBaseClass"),
        .statement (emptyClass "Bar" "HTMLElement")]
      ["HTMLElement", "MyBaseClass"] ["1"] rfl rfl rfl rfl).1 rfl).1,
    ((C17_patch_import_in_prologue_only_through_import "/" testFilename
      (testOptions [⟨some "HTMLElement", none, some (.str "global patch")⟩,
        patchedBaseClass "MyBaseClass" "my-package" "patch code"])
      ⟨[⟨some "HTMLElement", none, some (.str "global patch")⟩,
        patchedBaseClass "MyBaseClass" "my-package" "patch code"], testRootDir⟩
      [.importDeclaration "my-package" [.importSpecifier "MyBaseClass" "MyBaseClass"],
        .statement (emptyClass "Foo" "MyBaseClass"),
        .statement (emptyClass "Bar" "HTMLElement")]
      ["HTMLElement", "MyBaseClass"] ["1"] rfl rfl rfl rfl).1 rfl).2.2.1 1
      (patchedBaseClass "MyBaseClass" "my-package" "patch code") rfl rfl
      ⟨("my-package", [.importSpecifier "MyBaseClass" "MyBaseClass"]),
        by simp [importDeclarations], rfl⟩,
    ((C17_patch_import_in_prologue_only_through_import "/" testFilename
      (testOptions [⟨some "HTMLElement", none, some (.str "global patch")⟩,
        patchedBaseClass "MyBaseClass" "my-package" "patch code"])
      ⟨[⟨some "HTMLElement", none, some (.str "global patch")⟩,
        patchedBaseClass "MyBaseClass" "my-package" "patch code"], testRootDir⟩
      [.importDeclaration "my-package" [.importSpecifier "MyBaseClass" "MyBaseClass"],
        .statement (emptyClass "Foo" "MyBaseClass"),
        .statement (emptyClass "Bar" "HTMLElement")]
      ["HTMLElement", "MyBaseClass"] ["1"] rfl rfl rfl rfl).1 rfl).2.2.2 0
      ⟨some "HTMLElement", none, some (.str "global patch")⟩ rfl rfl⟩

/-! ## Validation of the configuration -/

theorem parseOptions_error_iff (cwd : String) (opts : Option BabelPluginWcHmrOptions) :
    (∃ e, parseOptions cwd opts = .error e) ↔
      opts = none ∨ ∃ o, opts = some o ∧
        (truthy o.rootDir = false ∨ o.baseClasses = .missing ∨ o.baseClasses = .notArray ∨
          ∃ l, o.baseClasses = .array l ∧ ∃ b ∈ l, truthy b.name = false) := by
  cases opts with
  | none => simp [parseOptions]
  | some o =>
    cases o with
    | mk bcs rd =>
      cases rd with
      | none => simp [parseOptions, truthy]
      | some r =>
        by_cases hr : truthy (some r) = true
        · cases bcs with
          | missing => simp [parseOptions, hr]
          | notArray => simp [parseOptions, hr]
          | array l =>
            have hiff := parseBaseClasses_error_iff cwd l
            constructor
            · rintro ⟨e, he⟩
              simp only [parseOptions, hr, Bool.not_true, Bool.false_eq_true, if_false] at he
              cases hp : parseBaseClasses cwd l with
              | error e' =>
                rw [parseBaseClasses_eq] at hp
                by_cases hall : (l.all (fun b => truthy b.name)) = true
                · simp [hall] at hp
                · simp only [List.all_eq_true, not_forall, Bool.not_eq_true] at hall
                  obtain ⟨b, hb, hbn⟩ := hall
                  exact Or.inr ⟨_, rfl, Or.inr (Or.inr (Or.inr ⟨l, rfl, b, hb, hbn⟩))⟩
              | ok parsed => simp [hp] at he
            · rintro (h | ⟨o, ho, h⟩)
              · cases h
              · injection ho with ho
                subst ho
                rcases h with h | h | h | ⟨l', hl, b, hb, hbn⟩
                · simp only at h
                  rw [hr] at h
                  cases h
                · cases h
                · cases h
                · injection hl with hl
                  subst hl
                  have he := hiff.1 ⟨b, hb, hbn⟩
                  exact ⟨createError "Missing name option in base class",
                    by simp only [parseOptions, hr, he, Bool.not_true,
                      Bool.false_eq_true, if_false]⟩
        · simp only [Bool.not_eq_true] at hr
          constructor
          · intro _
            exact Or.inr ⟨_, rfl, Or.inl hr⟩
          · intro _
            exact ⟨createError "Missing rootDir in babel plugin options",
              by simp [parseOptions, hr]⟩

theorem checkBaseClasses_ok_iff (l : List BaseClass) :
    checkBaseClasses l = .ok () ↔
      ∀ b ∈ l, truthy b.name = true ∧ Patch.isNonString b.patch = false := by
  induction l with
  | nil => simp [checkBaseClasses]
  | cons b rest ih =>
    unfold checkBaseClasses
    by_cases hn : truthy b.name = true
    · by_cases hp : Patch.isNonString b.patch = true
      · simp [hn, hp]
      · simp only [Bool.not_eq_true] at hp
        simp [hn, hp, ih]
    · simp only [Bool.not_eq_true] at hn
      simp [hn]

theorem checkBaseClasses_error (l : List BaseClass) (e : String)
    (h : checkBaseClasses l = .error e) : isConfigurationError e = true := by
  induction l with
  | nil => simp [checkBaseClasses] at h
  | cons b rest ih =>
    unfold checkBaseClasses at h
    by_cases hn : truthy b.name = true
    · by_cases hp : Patch.isNonString b.patch = true
      · simp [hn, hp] at h
        rw [← h]; rfl
      · simp only [Bool.not_eq_true] at hp
        simp [hn, hp] at h
        exact ih h
    · simp only [Bool.not_eq_true] at hn
      simp [hn] at h
      rw [← h]; rfl

theorem parseConfig_of_patterns (config : WcHmrPluginConfig)
    (h : config.include_.isArray = true ∨ config.exclude.isArray = true)
    (hi : config.include_ ≠ .notArray) (he : config.exclude ≠ .notArray) :
    parseConfig config =
      match config.baseClasses with
      | none => .error (createError "Must provide a baseClass option in config.")
      | some baseClasses =>
        match checkBaseClasses baseClasses with
        | .error e => .error e
        | .ok _ => .ok config := by
  cases config with
  | mk inc exc bcs =>
    cases inc with
    | notArray => exact absurd rfl hi
    | missing =>
      cases exc with
      | notArray => exact absurd rfl he
      | missing => simp [PatternsOption.isArray] at h
      | array _ => rfl
    | array _ =>
      cases exc with
      | notArray => exact absurd rfl he
      | missing => rfl
      | array _ => rfl

/-- C18: the function `parseOptions` fails exactly when the options are
missing, `rootDir` is missing (falsy), `baseClasses` is missing (falsy) or is
not an array, or some descriptor has no name (a falsy one).  Every failure is
a configuration error, and with such options the plugin fails on every
module, whatever its file name and body.  In every other case the parsed
options have the given `rootDir` and, position by position, the given
descriptors passed through `parseBaseClass`: the same number, in the same
order, with the same names and patches. -/
theorem C18_parseOptions_fails_iff (cwd : String) (opts : Option BabelPluginWcHmrOptions) :
    ((∃ e, parseOptions cwd opts = .error e) ↔
      opts = none ∨ ∃ o, opts = some o ∧
        (truthy o.rootDir = false ∨ o.baseClasses = .missing ∨ o.baseClasses = .notArray ∨
          ∃ l, o.baseClasses = .array l ∧ ∃ b ∈ l, truthy b.name = false)) ∧
    (∀ e, parseOptions cwd opts = .error e →
      isConfigurationError e = true ∧
      ∀ (filename : Option String) (body : List ModuleItem),
        ∃ e', babelPluginWcHmr cwd filename opts body = .error e' ∧
          isConfigurationError e' = true) ∧
    ((¬ ∃ e, parseOptions cwd opts = .error e) →
      ∃ (l : List BaseClass) (rootDir : String) (options : ParsedOptions),
        opts = some ⟨.array l, some rootDir⟩ ∧
        parseOptions cwd opts = .ok options ∧
        options.rootDir = rootDir ∧
        options.baseClasses.length = l.length ∧
        (∀ (i : Nat) (b : BaseClass), l[i]? = some b →
          options.baseClasses[i]? = some (parseBaseClass cwd b) ∧
          (parseBaseClass cwd b).name = b.name ∧ (parseBaseClass cwd b).patch = b.patch)) := by
  refine ⟨parseOptions_error_iff cwd opts, ?_, ?_⟩
  · intro e he
    exact ⟨parseOptions_error cwd opts e he,
      fun filename body => babelPluginWcHmr_error_of_parseOptions cwd filename opts body e he⟩
  · intro hne
    cases hp : parseOptions cwd opts with
    | error e => exact absurd ⟨e, hp⟩ hne
    | ok options =>
      obtain ⟨l, rootDir, ho, _, _, hopt⟩ := (parseOptions_ok_iff cwd opts options).1 hp
      refine ⟨l, rootDir, options, ho, rfl, ?_, ?_, ?_⟩
      · rw [hopt]
      · rw [hopt]
        simp
      · intro i b hb
        refine ⟨?_, parseBaseClass_name_patch cwd b⟩
        rw [hopt]
        simp [List.getElem?_map, hb]

/-- C18 at options whose second descriptor has no name. -/
theorem C18_parseOptions_fails_iff_witness :
    ∃ e, parseOptions "/" (testOptions [globalBaseClass "HTMLElement", ⟨none, none, none⟩]) =
      .error e :=
  (C18_parseOptions_fails_iff "/"
    (testOptions [globalBaseClass "HTMLElement", ⟨none, none, none⟩])).1.2
    (Or.inr ⟨_, rfl, Or.inr (Or.inr (Or.inr
      ⟨_, rfl, ⟨none, none, none⟩, by simp, rfl⟩))⟩)

/-- C19, the code against the claim: the test `can inject a base class patch`
gives the descriptor a patch that is an object, not a string; option parsing
succeeds and keeps the patch, the transform succeeds, and the prologue has
the patch import of index `0`. -/
theorem C19_non_string_patch_not_rejected :
    Patch.isNonString (some (.other true)) = true ∧
    parseOptions "/" (testOptions [⟨some "MyBaseClass", some "my-package", some (.other true)⟩]) =
      .ok ⟨[⟨some "MyBaseClass", some "my-package", some (.other true)⟩], testRootDir⟩ ∧
    transform
      [.importDeclaration "my-package" [.importSpecifier "MyBaseClass" "MyBaseClass"],
        .statement (emptyClass "Foo" "MyBaseClass")]
      [⟨some "MyBaseClass", some "my-package", some (.other true)⟩] =
    .ok [.statement (.file ("import '/__web-dev-server__/wc-hmr/patch/0.js';"
        ++ "import * as __$wc_hmr$__ from '/__web-dev-server__/wc-hmr/runtime.js';"
        ++ "\nif(import.meta.hot) { import.meta.hot.accept(() => { }) }")),
      .importDeclaration "my-package" [.importSpecifier "MyBaseClass" "MyBaseClass"],
      .statement (emptyClass "Foo" "MyBaseClass"), .statement (injectRegister "Foo")] :=
  ⟨rfl, rfl, rfl⟩

/-- C19, amended: the transform does not inspect the type of a patch.  When
the file name and `rootDir` are set and every descriptor has a name, option
parsing succeeds and keeps every patch as given, and the transform of every
module succeeds.  A descriptor at position `i` whose patch is not a string
but truthy, and which an import declaration of the module selects, gets the
patch import of `i` in the prologue of a module in which a registration is
injected. -/
theorem C19_patch_type_not_checked (cwd filename rootDir : String) (l : List BaseClass)
    (body : List ModuleItem)
    (hf : truthy (some filename) = true) (hr : truthy (some rootDir) = true)
    (hn : ∀ b ∈ l, truthy b.name = true) :
    parseOptions cwd (some ⟨.array l, some rootDir⟩) =
      .ok ⟨l.map (parseBaseClass cwd), rootDir⟩ ∧
    (∀ b ∈ l, (parseBaseClass cwd b).patch = b.patch) ∧
    (∃ out, babelPluginWcHmr cwd (some filename) (some ⟨.array l, some rootDir⟩) body =
      .ok out) ∧
    (∀ (i : Nat) (b : BaseClass), l[i]? = some b →
      Patch.isNonString b.patch = true → Patch.truthy b.patch = true →
      (∃ d ∈ importDeclarations body,
        matchesImport d.1 (path.resolve cwd filename) rootDir (parseBaseClass cwd b) = true) →
      anyMatch (baseClassNames ⟨l.map (parseBaseClass cwd), rootDir⟩
        (path.resolve cwd filename) body) body = true →
      ∃ out patches,
        babelPluginWcHmr cwd (some filename) (some ⟨.array l, some rootDir⟩) body =
          .ok (.statement (prologue patches) :: out) ∧
        patchImportOf i ∈ patchImports patches) := by
  have ho : parseOptions cwd (some ⟨.array l, some rootDir⟩) =
      .ok ⟨l.map (parseBaseClass cwd), rootDir⟩ :=
    (parseOptions_ok_iff cwd _ _).2 ⟨l, rootDir, rfl, hr, hn, rfl⟩
  refine ⟨ho, fun b _ => (parseBaseClass_name_patch cwd b).2, ?_, ?_⟩
  · exact ⟨_, babelPluginWcHmr_ok cwd filename _ _ body hf ho⟩
  · intro i b hb _ hp hd hm
    refine ⟨_, _, babelPluginWcHmr_of_match cwd filename _ _ body hf ho hm, ?_⟩
    refine (mem_patchImports_baseClassPatches _ _ body i).2
      ⟨parseBaseClass cwd b, ?_, ?_, hd⟩
    · simp [List.getElem?_map, hb]
    · rw [(parseBaseClass_name_patch cwd b).2]
      exact hp

/-- C19 at the module of the test `can inject a base class patch`, whose
descriptor has an object as patch. -/
theorem C19_patch_type_not_checked_witness :
    ∃ out patches,
      babelPluginWcHmr "/" (some testFilename)
        (some ⟨.array [⟨some "MyBaseClass", some "my-package", some (.other true)⟩],
          some testRootDir⟩)
        [.importDeclaration "my-package" [.importSpecifier "MyBaseClass" "MyBaseClass"],
          .statement (emptyClass "Foo" "MyBaseClass")] =
        .ok (.statement (prologue patches) :: out) ∧
      patchImportOf 0 ∈ patchImports patches :=
  (C19_patch_type_not_checked "/" testFilename testRootDir
    [⟨some "MyBaseClass", some "my-package", some (.other true)⟩]
    [.importDeclaration "my-package" [.importSpecifier "MyBaseClass" "MyBaseClass"],
      .statement (emptyClass "Foo" "MyBaseClass")]
    rfl rfl (by simp [truthy])).2.2.2 0
    ⟨some "MyBaseClass", some "my-package", some (.other true)⟩ rfl rfl rfl
    ⟨("my-package", [.importSpecifier "MyBaseClass" "MyBaseClass"]),
      by simp [importDeclarations], rfl⟩ rfl

/-- C20, the code against the claim: a configuration with an `include` array
and an empty `baseClasses` array is accepted and returned as it is. -/
theorem C20_empty_baseClasses_accepted :
    parseConfig ⟨.array ["src/**/*.js"], .missing, some []⟩ =
      .ok ⟨.array ["src/**/*.js"], .missing, some []⟩ := rfl

/-- C20, amended: for every plugin configuration in which `include` or
`exclude` is an array, neither is a non-array value and `baseClasses` is
absent or an array, `parseConfig` fails exactly when `baseClasses` is
missing, or some descriptor has no name, or the patch of some descriptor is
present and not a string; every failure is a configuration error.  Otherwise,
in particular for an empty array `baseClasses`, it returns the configuration
with the same fields and the same descriptor list. -/
theorem C20_parseConfig_fails_iff (config : WcHmrPluginConfig)
    (h : config.include_.isArray = true ∨ config.exclude.isArray = true)
    (hi : config.include_ ≠ .notArray) (he : config.exclude ≠ .notArray) :
    ((∃ e, parseConfig config = .error e) ↔
      config.baseClasses = none ∨ ∃ l, config.baseClasses = some l ∧
        ∃ b ∈ l, truthy b.name = false ∨ Patch.isNonString b.patch = true) ∧
    (∀ e, parseConfig config = .error e → isConfigurationError e = true) ∧
    ((¬ ∃ e, parseConfig config = .error e) → parseConfig config = .ok config) ∧
    (config.baseClasses = some [] → parseConfig config = .ok config) := by
  have hpc := parseConfig_of_patterns config h hi he
  cases hb : config.baseClasses with
  | none =>
    rw [hb] at hpc
    simp only at hpc
    refine ⟨?_, ?_, ?_, ?_⟩
    · simp [hpc]
    · intro e hpe
      rw [hpc] at hpe
      injection hpe with hpe
      rw [← hpe]; rfl
    · intro hne
      exact absurd ⟨_, hpc⟩ hne
    · intro hc
      cases hc
  | some l =>
    rw [hb] at hpc
    simp only at hpc
    cases hc : checkBaseClasses l with
    | error e =>
      rw [hc] at hpc
      simp only at hpc
      have hnot : ¬ ∀ b ∈ l, truthy b.name = true ∧ Patch.isNonString b.patch = false := by
        intro hall
        rw [(checkBaseClasses_ok_iff l).2 hall] at hc
        cases hc
      simp only [not_forall, not_and_or, Bool.not_eq_true, Bool.not_eq_false] at hnot
      obtain ⟨b, hbl, hbad⟩ := hnot
      refine ⟨?_, ?_, ?_, ?_⟩
      · constructor
        · intro _
          exact Or.inr ⟨l, rfl, b, hbl, hbad⟩
        · intro _
          exact ⟨e, hpc⟩
      · intro e' hpe
        rw [hpc] at hpe
        injection hpe with hpe
        rw [← hpe]
        exact checkBaseClasses_error l e hc
      · intro hne
        exact absurd ⟨_, hpc⟩ hne
      · intro hl
        injection hl with hl
        subst hl
        simp [checkBaseClasses] at hc
    | ok u =>
      rw [hc] at hpc
      simp only at hpc
      have hall := (checkBaseClasses_ok_iff l).1 hc
      refine ⟨?_, ?_, ?_, ?_⟩
      · constructor
        · rintro ⟨e, hpe⟩
          rw [hpc] at hpe
          cases hpe
        · rintro (hnone | ⟨l', hl', b, hbl, hbad⟩)
          · cases hnone
          · injection hl' with hl'
            subst hl'
            have := hall b hbl
            rcases hbad with hbad | hbad
            · rw [this.1] at hbad
              cases hbad
            · rw [this.2] at hbad
              cases hbad
      · intro e hpe
        rw [hpc] at hpe
        cases hpe
      · intro _
        exact hpc
      · intro _
        exact hpc

/-- C20 at a configuration with an `exclude` array and an empty `baseClasses`
array. -/
theorem C20_parseConfig_fails_iff_witness :
    parseConfig ⟨.missing, .array ["node_modules/**"], some []⟩ =
      .ok ⟨.missing, .array ["node_modules/**"], some []⟩ :=
  (C20_parseConfig_fails_iff ⟨.missing, .array ["node_modules/**"], some []⟩
    (Or.inr rfl) (by decide) (by decide)).2.2.2 rfl


/-! ## The patch path and the hook `serve` -/

theorem toDigitsCore_digits (fuel : Nat) :
    ∀ (n : Nat) (ds : List Char), n < fuel →
      ∃ digits, Nat.toDigitsCore 10 fuel n ds = digits ++ ds ∧
        ∀ c ∈ digits, 48 ≤ c.toNat ∧ c.toNat ≤ 57 := by
  induction fuel with
  | zero => intro n ds h; omega
  | succ fuel ih =>
    intro n ds h
    simp only [Nat.toDigitsCore]
    have hd : ∀ k, k < 10 → 48 ≤ (Nat.digitChar k).toNat ∧ (Nat.digitChar k).toNat ≤ 57 := by
      intro k hk
      interval_cases k <;> decide
    by_cases h0 : n / 10 = 0
    · refine ⟨[Nat.digitChar (n % 10)], by simp [h0], ?_⟩
      intro c hc
      simp only [List.mem_singleton] at hc
      rw [hc]
      exact hd _ (Nat.mod_lt _ (by omega))
    · obtain ⟨digits, hdg, hv⟩ := ih (n / 10) (Nat.digitChar (n % 10) :: ds) (by omega)
      refine ⟨digits ++ [Nat.digitChar (n % 10)], by simp [h0, hdg], ?_⟩
      intro c hc
      simp only [List.mem_append, List.mem_singleton] at hc
      rcases hc with hc | hc
      · exact hv c hc
      · rw [hc]
        exact hd _ (Nat.mod_lt _ (by omega))

theorem toString_digits (n : Nat) :
    ∀ c ∈ (toString n).data, 48 ≤ c.toNat ∧ c.toNat ≤ 57 := by
  obtain ⟨digits, hd, hv⟩ := toDigitsCore_digits (n + 1) n [] (by omega)
  have : (toString n).data = digits := by
    show (Nat.repr n).data = digits
    simp [Nat.repr, Nat.toDigits, hd, List.asString]
  rw [this]
  exact hv

theorem codeUnits_append (a b : String) : codeUnits (a ++ b) = codeUnits a ++ codeUnits b := by
  simp [codeUnits, String.data_append]

theorem flatMap_utf16_digits (cs : List Char) (h : ∀ c ∈ cs, 48 ≤ c.toNat ∧ c.toNat ≤ 57) :
    cs.flatMap utf16 = cs.map Char.toNat := by
  induction cs with
  | nil => rfl
  | cons c cs ih =>
    have hc := h c (List.mem_cons_self _ _)
    have hu : utf16 c = [c.toNat] := by
      unfold utf16
      rw [if_pos (by omega)]
    simp only [List.flatMap_cons, List.map_cons, hu, List.singleton_append]
    rw [ih (fun c hc => h c (List.mem_cons_of_mem _ hc))]

theorem unitsValue_map_toNat (cs : List Char) :
    unitsValue (cs.map Char.toNat) = decimalValue cs := by
  have h : ∀ (v : Nat), List.foldl (fun value u => value * 10 + (u - 48)) v (cs.map Char.toNat) =
      List.foldl (fun value c => value * 10 + (c.toNat - '0'.toNat)) v cs := by
    induction cs with
    | nil => intro v; rfl
    | cons c cs ih =>
      intro v
      simp only [List.map_cons, List.foldl_cons]
      rw [ih]
      rfl
  exact h 0

theorem codeUnits_toString (n : Nat) :
    codeUnits (toString n) = (toString n).data.map Char.toNat :=
  flatMap_utf16_digits _ (toString_digits n)

theorem Number_toString (other : List Nat → NumberValue) (n : Nat) (h : n < 2 ^ 53) :
    Number other (codeUnits (toString n)) = ⟨some n, toString n⟩ := by
  have hv : unitsValue (codeUnits (toString n)) = n := by
    rw [codeUnits_toString, unitsValue_map_toNat, decimalValue_toString]
  have hall : (codeUnits (toString n)).all isDigitUnit = true := by
    rw [codeUnits_toString, List.all_eq_true]
    intro u hu
    obtain ⟨c, hc, rfl⟩ := List.mem_map.1 hu
    have := toString_digits n c hc
    simp [isDigitUnit, this.1, this.2]
  unfold Number
  rw [hall, hv]
  rw [if_pos (by simpa using h)]

theorem substring_middle (p d j : List Nat) (hj : j.length = 3) :
    substring (p ++ d ++ j) p.length ((p ++ d ++ j).length - 3) = d := by
  unfold substring
  have h1 : (p ++ d ++ j).length = p.length + d.length + 3 := by
    simp [hj]
    omega
  simp only [h1, Nat.add_sub_cancel]
  have h2 : min p.length (p.length + d.length + 3) = p.length := by omega
  have h3 : min (p.length + d.length) (p.length + d.length + 3) = p.length + d.length := by omega
  have h4 : min p.length (p.length + d.length) = p.length := by omega
  have h5 : max p.length (p.length + d.length) = p.length + d.length := by omega
  rw [h2, h3, h4, h5, List.append_assoc, List.drop_left, Nat.add_sub_cancel_left,
    List.take_left]

theorem patchIndexString_patchPath (i : Nat) :
    patchIndexString (patchPath i) = codeUnits (toString i) := by
  unfold patchIndexString patchPath
  rw [codeUnits_append, codeUnits_append]
  exact substring_middle _ _ _ rfl

theorem startsWith_append (p x : String) : startsWith (p ++ x) p = true := by
  simp [startsWith, String.data_append]

theorem startsWith_patchPath (i : Nat) :
    startsWith (patchPath i) WC_HMR_MODULE_PATCHES = true := by
  unfold patchPath
  rw [String.append_assoc]
  exact startsWith_append _ _

theorem patchPath_ne_runtime (i : Nat) : patchPath i ≠ WC_HMR_MODULE_RUNTIME := by
  intro h
  have h1 := startsWith_patchPath i
  rw [h] at h1
  revert h1
  decide

theorem patchImportOf_patchPath (i : Nat) :
    patchImportOf i = "import '" ++ patchPath i ++ "';" := by
  simp only [patchImportOf, patchPath, WC_HMR_MODULE_PATCHES, String.append_assoc]
  rfl

theorem isConfigurationError_createError (msg : String) :
    isConfigurationError (createError msg) = true :=
  startsWith_append _ _

theorem parseConfig_ok (config parsed : WcHmrPluginConfig)
    (h : parseConfig config = .ok parsed) :
    parsed = config ∧ ∃ l, config.baseClasses = some l ∧ checkBaseClasses l = .ok () := by
  unfold parseConfig at h
  split at h
  · cases h
  · cases hb : config.baseClasses with
    | none =>
      rw [hb] at h
      cases h
    | some l =>
      rw [hb] at h
      simp only at h
      cases hc : checkBaseClasses l with
      | error e =>
        rw [hc] at h
        cases h
      | ok u =>
        rw [hc] at h
        simp only at h
        split at h
        · cases h
        · split at h
          · cases h
          · injection h with h
            exact ⟨h.symm, l, rfl, hc⟩

theorem serve_patch (wcHmrRuntime : String) (other : List Nat → NumberValue)
    (config : WcHmrPluginConfig) (l : List BaseClass) (path : String)
    (hl : config.baseClasses = some l)
    (hs : startsWith path WC_HMR_MODULE_PATCHES = true) :
    serve wcHmrRuntime other config path =
      match baseClassAt l (Number other (patchIndexString path)) with
      | none =>
        .error (createError ("Something went wrong while loading a base class patch. "
          ++ "Can't find a patch with index " ++ (Number other (patchIndexString path)).text
          ++ ", request path " ++ path))
      | some baseClass =>
        if Patch.truthy baseClass.patch = true then
          match baseClass.patch with
          | some patch => .ok (.body patch)
          | none => .ok .base
        else
          .error (createError ("Something went wrong while loading a base class patch. "
            ++ "Can't find a patch with index " ++ (Number other (patchIndexString path)).text
            ++ ", request path " ++ path)) := by
  have hne : path ≠ WC_HMR_MODULE_RUNTIME := by
    intro h
    rw [h] at hs
    revert hs
    decide
  unfold serve
  rw [if_neg hne, if_pos hs, hl]
  simp only
  cases baseClassAt l (Number other (patchIndexString path)) with
  | none => rfl
  | some b =>
    simp only
    cases hp : b.patch with
    | none => simp [Patch.truthy]
    | some patch =>
      cases ht : Patch.truthy (some patch) <;> simp [ht]

/-- C21: let `parseConfig` accept a plugin configuration whose descriptor list
is a JavaScript array (fewer than `2 ^ 32` entries).  For every position `i`
of a descriptor that carries a non-empty string as patch, the patch import
that the transform emits for `i` imports the path
`/__web-dev-server__/wc-hmr/patch/<i>.js`, and `serve` answers a request of
that path with exactly the patch text of descriptor `i`.  For every request
path that starts with the patch path stem, `serve` fails with an error when
the index parsed from the path names no descriptor or a descriptor without a
patch (an absent or empty one), and returns the patch of the named descriptor
otherwise. -/
theorem C21_patch_path_round_trip (wcHmrRuntime : String) (other : List Nat → NumberValue)
    (pluginConfig parsedPluginConfig : WcHmrPluginConfig) (baseClasses : List BaseClass)
    (hp : parseConfig pluginConfig = .ok parsedPluginConfig)
    (hb : pluginConfig.baseClasses = some baseClasses)
    (hlen : baseClasses.length < 2 ^ 32) :
    (∀ (i : Nat) (b : BaseClass) (p : String), baseClasses[i]? = some b →
      b.patch = some (.str p) → p ≠ "" →
      patchImportOf i = "import '" ++ patchPath i ++ "';" ∧
      patchPath i = "/__web-dev-server__/wc-hmr/patch/" ++ toString i ++ ".js" ∧
      serve wcHmrRuntime other parsedPluginConfig (patchPath i) = .ok (.body (.str p))) ∧
    (∀ path : String, startsWith path WC_HMR_MODULE_PATCHES = true →
      (baseClassAt baseClasses (Number other (patchIndexString path)) = none ∨
        ∃ b, baseClassAt baseClasses (Number other (patchIndexString path)) = some b ∧
          Patch.truthy b.patch = false) →
      ∃ e, serve wcHmrRuntime other parsedPluginConfig path = .error e ∧
        isConfigurationError e = true) ∧
    (∀ (path : String) (b : BaseClass), startsWith path WC_HMR_MODULE_PATCHES = true →
      baseClassAt baseClasses (Number other (patchIndexString path)) = some b →
      Patch.truthy b.patch = true →
      ∃ p, b.patch = some (.str p) ∧
        serve wcHmrRuntime other parsedPluginConfig path = .ok (.body (.str p))) := by
  obtain ⟨hparsed, l, hl, hcheck⟩ := parseConfig_ok pluginConfig parsedPluginConfig hp
  subst hparsed
  rw [hb] at hl
  injection hl with hl
  subst hl
  have hstr := (checkBaseClasses_ok_iff baseClasses).1 hcheck
  refine ⟨?_, ?_, ?_⟩
  · intro i b p hi hpatch hne
    refine ⟨patchImportOf_patchPath i, rfl, ?_⟩
    have hlt : i < baseClasses.length := by
      rcases Nat.lt_or_ge i baseClasses.length with h | h
      · exact h
      · rw [List.getElem?_eq_none h] at hi
        cases hi
    have hi53 : i < 2 ^ 53 := by
      have : (2 : Nat) ^ 32 < 2 ^ 53 := by decide
      omega
    rw [serve_patch wcHmrRuntime other parsedPluginConfig baseClasses (patchPath i) hb
      (startsWith_patchPath i), patchIndexString_patchPath, Number_toString other i hi53]
    simp only [baseClassAt, hi]
    have ht : Patch.truthy b.patch = true := by
      rw [hpatch]
      simp only [Patch.truthy, Bool.not_eq_true', List.isEmpty_eq_false]
      intro hd
      exact hne (String.ext hd)
    rw [if_pos ht, hpatch]
  · intro path hs hbad
    rw [serve_patch wcHmrRuntime other parsedPluginConfig baseClasses path hb hs]
    rcases hbad with h | ⟨b, h, hf⟩
    · rw [h]
      exact ⟨_, rfl, isConfigurationError_createError _⟩
    · rw [h]
      simp only [hf, Bool.false_eq_true, if_false]
      exact ⟨_, rfl, isConfigurationError_createError _⟩
  · intro path b hs h ht
    rw [serve_patch wcHmrRuntime other parsedPluginConfig baseClasses path hb hs, h]
    simp only [ht, if_true]
    have hmem : b ∈ baseClasses := by
      unfold baseClassAt at h
      cases hidx : (Number other (patchIndexString path)).index with
      | none =>
        rw [hidx] at h
        cases h
      | some i =>
        rw [hidx] at h
        exact List.getElem?_mem h
    have hns := (hstr b hmem).2
    cases hpatch : b.patch with
    | none =>
      rw [hpatch] at ht
      cases ht
    | some patch =>
      cases patch with
      | str p => exact ⟨p, rfl, rfl⟩
      | other t =>
        rw [hpatch] at hns
        cases hns

/-- C21 at a configuration with two descriptors, the second with the patch
`patch code`: the request of `/__web-dev-server__/wc-hmr/patch/1.js` is
answered with that text. -/
theorem C21_patch_path_round_trip_witness :
    serve "runtime code" (fun _ => ⟨none, "NaN"⟩)
      ⟨.array ["src/**/*.js"], .missing,
        some [globalBaseClass "HTMLElement",
          patchedBaseClass "MyBaseClass" "my-package" "patch code"]⟩
      (patchPath 1) = .ok (.body (.str "patch code")) :=
  ((C21_patch_path_round_trip "runtime code" (fun _ => ⟨none, "NaN"⟩)
    ⟨.array ["src/**/*.js"], .missing,
      some [globalBaseClass "HTMLElement",
        patchedBaseClass "MyBaseClass" "my-package" "patch code"]⟩
    ⟨.array ["src/**/*.js"], .missing,
      some [globalBaseClass "HTMLElement",
        patchedBaseClass "MyBaseClass" "my-package" "patch code"]⟩
    [globalBaseClass "HTMLElement", patchedBaseClass "MyBaseClass" "my-package" "patch code"]
    rfl rfl (by decide)).1 1 (patchedBaseClass "MyBaseClass" "my-package" "patch code")
    "patch code" rfl rfl (by decide)).2.2


/-! ## The order of the registrations -/

/-- C22, the code against the claim: for the module
`const A = class extends HTMLElement {}, B = class extends HTMLElement {};`
the registration of `B` stands before the registration of `A`. -/
theorem C22_second_declarator_registered_first :
    transform
      [.statement (.varDecl "const"
        [.mk (.identifier "A") (some (.classExpr none (some (.ident "HTMLElement")) [])),
          .mk (.identifier "B") (some (.classExpr none (some (.ident "HTMLElement")) []))])]
      [globalBaseClass "HTMLElement"] =
    .ok [.statement (prologue []),
      .statement (.varDecl "const"
        [.mk (.identifier "A") (some (.classExpr none (some (.ident "HTMLElement")) [])),
          .mk (.identifier "B") (some (.classExpr none (some (.ident "HTMLElement")) []))]),
      .statement (.file "__$wc_hmr$__.register(import.meta.url, B)"),
      .statement (.file "__$wc_hmr$__.register(import.meta.url, A)")] := rfl

/-- C22, amended: the registrations of a statement are inserted directly
behind it, before the traversal of the statements that follow, so the
registrations of classes of different statements of a list are in the source
order of those statements.  Behind one statement they stand in the reverse of
the source order of its matching candidates: for a variable declaration whose
two declarators are initialised with matching class expressions, the
registration of the second declarator comes first.  So a module
`pre ++ [kind declarations] ++ post` with a matching declarator is returned as
the prologue, the traversal of `pre`, the declaration, the registrations of
its matching declarators in reverse declarator order, and the traversal of
`post`. -/
theorem C22_declarator_registrations_reversed (cwd filename : String)
    (opts : Option BabelPluginWcHmrOptions) (options : ParsedOptions)
    (pre post : List ModuleItem) (kind : String) (declarations : List VariableDeclarator)
    (body : List ModuleItem) (names patches : List String)
    (hf : truthy (some filename) = true) (ho : parseOptions cwd opts = .ok options)
    (hbody : body = pre ++ .statement (.varDecl kind declarations) :: post)
    (hnames : names = baseClassNames options (path.resolve cwd filename) body)
    (hpatches : patches = baseClassPatches options (path.resolve cwd filename) body)
    (hm : ∃ c ∈ declarations.filterMap VariableDeclarator.candidate, isMatch names c = true) :
    babelPluginWcHmr cwd (some filename) opts body =
      .ok (.statement (prologue patches) :: ((visitItems names pre).1 ++
        .statement (.varDecl kind (visitDeclarators names declarations).1) ::
        ((((declarations.filterMap VariableDeclarator.candidate).filter (isMatch names)).map
          (fun c => ModuleItem.statement (injectRegister c.1))).reverse ++
          (visitItems names post).1))) ∧
    (∀ (A B : String) (a b : Option String) (superA superB : Option Expr)
        (bodyA bodyB : List ClassMethod),
      declarations = [.mk (.identifier A) (some (.classExpr a superA bodyA)),
        .mk (.identifier B) (some (.classExpr b superB bodyB))] →
      isMatch names (A, superA) = true → isMatch names (B, superB) = true →
      (visitStmt names (.varDecl kind declarations)).1.tail =
        [injectRegister B, injectRegister A]) ∧
    (∀ (s : Stmt) (lpre lpost : List Stmt),
      (visitStmts names (lpre ++ s :: lpost)).1 =
        (visitStmts names lpre).1 ++ ((visitStmt names s).1 ++ (visitStmts names lpost).1) ∧
      (visitStmt names s).1.tail =
        ((s.candidates.filter (isMatch names)).map (fun c => injectRegister c.1)).reverse) := by
  obtain ⟨c, hc, hcm⟩ := hm
  have hany : anyMatch names body = true := by
    refine anyMatch_of_topLevel names body (.varDecl kind declarations) c ?_ ?_ hcm
    · rw [hbody, topLevel_append]
      simp [topLevel]
    · simpa [Stmt.candidates] using hc
  refine ⟨?_, ?_, ?_⟩
  · rw [hnames] at hany
    rw [babelPluginWcHmr_of_match cwd filename opts options body hf ho hany, ← hnames,
      ← hpatches, hbody, visitItems_split]
    simp only [visitStmt, List.map_cons, visitDeclarators_inserted_eq, List.map_reverse,
      List.map_map, List.cons_append]
    rfl
  · intro A B a b superA superB bodyA bodyB hd hA hB
    rw [visitStmt_inserted_eq, hd]
    simp [Stmt.candidates, VariableDeclarator.candidate, List.filter_cons, hA, hB]
  · intro s lpre lpost
    exact ⟨visitStmts_split names lpre lpost s, visitStmt_inserted_eq names s⟩

/-- C22, amended, at the module
`const A = class extends HTMLElement {}, B = class extends HTMLElement {};`. -/
theorem C22_declarator_registrations_reversed_witness :
    (visitStmt ["HTMLElement"] (.varDecl "const"
      [.mk (.identifier "A") (some (.classExpr none (some (.ident "HTMLElement")) [])),
        .mk (.identifier "B") (some (.classExpr none (some (.ident "HTMLElement")) []))])).1.tail
      = [injectRegister "B", injectRegister "A"] :=
  (C22_declarator_registrations_reversed "/" testFilename
    (testOptions [globalBaseClass "HTMLElement"])
    ⟨[globalBaseClass "HTMLElement"], testRootDir⟩ [] [] "const"
    [.mk (.identifier "A") (some (.classExpr none (some (.ident "HTMLElement")) [])),
      .mk (.identifier "B") (some (.classExpr none (some (.ident "HTMLElement")) []))]
    _ ["HTMLElement"] [] rfl rfl rfl rfl rfl
    ⟨("A", some (.ident "HTMLElement")), by simp [VariableDeclarator.candidate], rfl⟩).2.1
    "A" "B" none none (some (.ident "HTMLElement")) (some (.ident "HTMLElement")) [] []
    rfl rfl rfl


/-! ## Parent-relative import specifiers -/

/-- C23, the code at the failing input: the module
`/root/projects/my-project/src/foo.js` imports `MyBase` from `../my-base.js`,
which its directory resolves to `/root/projects/my-project/my-base.js`.  The
descriptor with that absolute path as origin is not selected and the module
is returned without a registration, whereas the same class imported as
`./my-base.js` from beside the module is registered.  The specifier is
compared as a bare string: a descriptor whose origin is the text
`../my-base.js` is selected, and then the class is registered. -/
theorem C23_parent_relative_specifier_compared_as_bare :
    path.join (path.dirname testFilename) "../my-base.js" =
      "/root/projects/my-project/my-base.js" ∧
    getBaseClassesForImport
      [importedBaseClass "MyBase" "/root/projects/my-project/my-base.js"]
      "../my-base.js" testFilename testRootDir = [] ∧
    transform
      [.importDeclaration "../my-base.js" [.importSpecifier "MyBase" "MyBase"],
        .statement (emptyClass "Foo" "MyBase")]
      [importedBaseClass "MyBase" "/root/projects/my-project/my-base.js"] =
    .ok [.importDeclaration "../my-base.js" [.importSpecifier "MyBase" "MyBase"],
      .statement (emptyClass "Foo" "MyBase")] ∧
    transform
      [.importDeclaration "./my-base.js" [.importSpecifier "MyBase" "MyBase"],
        .statement (emptyClass "Foo" "MyBase")]
      [importedBaseClass "MyBase" "/root/projects/my-project/src/my-base.js"] =
    .ok [.statement (prologue []),
      .importDeclaration "./my-base.js" [.importSpecifier "MyBase" "MyBase"],
      .statement (emptyClass "Foo" "MyBase"), .statement (injectRegister "Foo")] ∧
    getBaseClassesForImport [importedBaseClass "MyBase" "../my-base.js"]
      "../my-base.js" testFilename testRootDir =
      [⟨importedBaseClass "MyBase" "../my-base.js", 0⟩] ∧
    transform
      [.importDeclaration "../my-base.js" [.importSpecifier "MyBase" "MyBase"],
        .statement (emptyClass "Foo" "MyBase")]
      [importedBaseClass "MyBase" "../my-base.js"] =
    .ok [.statement (prologue []),
      .importDeclaration "../my-base.js" [.importSpecifier "MyBase" "MyBase"],
      .statement (emptyClass "Foo" "MyBase"), .statement (injectRegister "Foo")] :=
  ⟨by decide, by decide, rfl, rfl, by decide, rfl⟩

end WcHmr
